import Mathlib

/-!
# OpenMRN: Broadcast Time codec, SortedListSet, event handlers and SPIFFS

A shallow embedding of

* `src/openlcb/BroadcastTimeDefs.hxx` (struct `BroadcastTimeDefs`),
* `src/utils/SortedListMap.hxx` (class template `SortedListSet`),
* `src/nmranet/MultiConfiguredConsumer.hxx` (class `MultiConfiguredConsumer`),
* `src/nmranet/CallbackEventHandler.hxx` (class `CallbackEventHandler`),
* `src/nmranet/SimpleNodeInfo.hxx` (class `SNIPHandler` and the SNIP data blocks), and
* `src/freertos_drivers/spiffs/SPIFFS.cxx` (the file operations of class `SPIFFS`),

followed by theorems about them.

Machine integers are natural numbers; a value stored into a `w`-bit unsigned
variable is reduced modulo `2 ^ w`, and a conversion to a `w`-bit signed type
goes through `CInt.toSigned`.
-/

namespace CInt

/-- Value of the low `w` bits of `v` read as a two's-complement signed integer
(conversion of an unsigned value to `int` / `int16_t`, or the read of the
signed member of a union). -/
def toSigned (w : Nat) (v : Nat) : Int :=
  if v % 2 ^ w < 2 ^ (w - 1) then ((v % 2 ^ w : Nat) : Int)
  else ((v % 2 ^ w : Nat) : Int) - ((2 ^ w : Nat) : Int)

/-- Value stored into a `w`-bit unsigned variable. -/
def toUnsigned (w : Nat) (v : Nat) : Nat := v % 2 ^ w

end CInt

namespace BroadcastTimeDefs

/-- The enum `BroadcastTimeDefs::EventType`. -/
inductive EventType where
  | REPORT_TIME
  | REPORT_DATE
  | REPORT_YEAR
  | REPORT_RATE
  | SET_TIME
  | SET_DATE
  | SET_YEAR
  | SET_RATE
  | QUERY
  | STOP
  | START
  | DATE_ROLLOVER
  | UNDEFINED
  deriving DecidableEq, Repr

def EVENT_ID_MASK : Nat := 0xFFFFFFFFFFFF0000
def EVENT_SUFFIX_MASK : Nat := 0x000000000000FFFF
def EVENT_TYPE_MASK : Nat := 0x000000000000F000
def EVENT_HOURS_MASK : Nat := 0x0000000000001F00
def EVENT_MINUTES_MASK : Nat := 0x00000000000000FF
def EVENT_MONTH_MASK : Nat := 0x0000000000000F00
def EVENT_DAY_MASK : Nat := 0x00000000000000FF
def EVENT_YEAR_MASK : Nat := 0x0000000000000FFF
def EVENT_RATE_MASK : Nat := 0x0000000000000FFF

def EVENT_HOURS_SHIFT : Nat := 8
def EVENT_MINUTES_SHIFT : Nat := 0
def EVENT_MONTH_SHIFT : Nat := 8
def EVENT_DAY_SHIFT : Nat := 0
def EVENT_YEAR_SHIFT : Nat := 0
def EVENT_RATE_SHIFT : Nat := 0

def QUERY_EVENT_SUFFIX : Nat := 0xF000
def STOP_EVENT_SUFFIX : Nat := 0xF001
def START_EVENT_SUFFIX : Nat := 0xF002

/-- `static EventType get_event_type(uint16_t suffix)`: the outer `switch` on
`suffix & EVENT_TYPE_MASK`, the inner one on `suffix & 0xFFF`. -/
def get_event_type (suffix : Nat) : EventType :=
  let t := suffix &&& EVENT_TYPE_MASK
  if t = 0x0000 ∨ t = 0x1000 then EventType.REPORT_TIME
  else if t = 0x2000 then EventType.REPORT_DATE
  else if t = 0x3000 then EventType.REPORT_YEAR
  else if t = 0x4000 then EventType.REPORT_RATE
  else if t = 0x8000 ∨ t = 0x9000 then EventType.SET_TIME
  else if t = 0xA000 then EventType.SET_DATE
  else if t = 0xB000 then EventType.SET_YEAR
  else if t = 0xC000 then EventType.SET_RATE
  else if t = 0xF000 then
    let s := suffix &&& 0xFFF
    if s = 0x000 then EventType.QUERY
    else if s = 0x001 then EventType.STOP
    else if s = 0x002 then EventType.START
    else if s = 0x003 then EventType.DATE_ROLLOVER
    else EventType.UNDEFINED
  else EventType.UNDEFINED

/-- `static int event_to_min(uint64_t event)`. -/
def event_to_min (event : Nat) : Int :=
  let min : Nat :=
    CInt.toUnsigned 32 ((event &&& EVENT_MINUTES_MASK) >>> EVENT_MINUTES_SHIFT)
  if min ≤ 59 then CInt.toSigned 32 min else -1

/-- `static int event_to_hour(uint64_t event)`. -/
def event_to_hour (event : Nat) : Int :=
  let hour : Nat :=
    CInt.toUnsigned 32 ((event &&& EVENT_HOURS_MASK) >>> EVENT_HOURS_SHIFT)
  if hour ≤ 59 then CInt.toSigned 32 hour else -1

/-- `static int event_to_day(uint64_t event)`. -/
def event_to_day (event : Nat) : Int :=
  let day : Nat :=
    CInt.toUnsigned 32 ((event &&& EVENT_DAY_MASK) >>> EVENT_DAY_SHIFT)
  if day ≥ 1 ∧ day ≤ 31 then CInt.toSigned 32 day else -1

/-- `static int event_to_month(uint64_t event)`. -/
def event_to_month (event : Nat) : Int :=
  let month : Nat :=
    CInt.toUnsigned 32 ((event &&& EVENT_MONTH_MASK) >>> EVENT_MONTH_SHIFT)
  if month ≥ 1 ∧ month ≤ 12 then CInt.toSigned 32 month else -1

/-- `static int event_to_year(uint64_t event)`. -/
def event_to_year (event : Nat) : Int :=
  CInt.toSigned 32 ((event &&& EVENT_YEAR_MASK) >>> EVENT_YEAR_SHIFT)

/-- `static int16_t event_to_rate(uint64_t event)`: `rate_` is the `uint16_t`
member of the union and the result is its `int16_t` member `srate_`. -/
def event_to_rate (event : Nat) : Int :=
  let rate0 : Nat :=
    CInt.toUnsigned 16 ((event &&& EVENT_RATE_MASK) >>> EVENT_RATE_SHIFT)
  let rate1 : Nat :=
    if rate0 &&& 0x0800 ≠ 0 then CInt.toUnsigned 16 (rate0 ||| 0xF000) else rate0
  CInt.toSigned 16 rate1

end BroadcastTimeDefs

/-! ## `<algorithm>`: the three library routines `SortedListSet` calls

Iterators into a `std::vector` are modelled by indices into a list. -/

namespace StdAlgo

/-- Equivalence induced by a comparator: neither argument is ordered before
the other. -/
def equiv {D : Type} (comp : D → D → Bool) (a b : D) : Bool :=
  !comp a b && !comp b a

/-- Requirement on the comparator handed to `std::sort`: a strict weak
ordering (irreflexive, transitive, with transitive incomparability). -/
structure StrictWeakOrder {D : Type} (comp : D → D → Bool) : Prop where
  irrefl : ∀ a, comp a a = false
  trans : ∀ a b c, comp a b = true → comp b c = true → comp a c = true
  equiv_trans : ∀ a b c, equiv comp a b = true → equiv comp b c = true →
    equiv comp a c = true

/-- A range is sorted with respect to `comp` when no later element is ordered
before an earlier one. -/
def SortedBy {D : Type} (comp : D → D → Bool) (l : List D) : Prop :=
  l.Pairwise (fun a b => comp b a = false)

/-- Postcondition of `std::sort(first, last, comp)`: the range holds a
permutation of its previous contents and is sorted with respect to `comp`.
The order of equivalent elements is not specified. -/
def SortContract {D : Type} (sort : (D → D → Bool) → List D → List D)
    (comp : D → D → Bool) : Prop :=
  ∀ l, (sort comp l).Perm l ∧ SortedBy comp (sort comp l)

/-- Insertion of one element into a sorted list, before the first element it
is ordered before. -/
def insert_sorted {D : Type} (comp : D → D → Bool) (x : D) : List D → List D
  | [] => [x]
  | y :: ys => if comp x y then x :: y :: ys else y :: insert_sorted comp x ys

/-- One algorithm meeting `SortContract` (insertion sort), used where a
concrete `std::sort` is needed to run the code. -/
def sort {D : Type} (comp : D → D → Bool) (l : List D) : List D :=
  l.foldr (insert_sorted comp) []

/-- The bisection loop shared by `std::lower_bound` and `std::upper_bound`:
while `len > 0`, with `half = len >> 1` and `middle = first + half`, either
`first = middle + 1; len = len - half - 1` (when `right(*middle)`) or
`len = half`; the result is `first`. The first argument bounds the number of
iterations; `len` iterations always suffice. -/
def bisect {D : Type} (right : D → Bool) (c : List D) : Nat → Nat → Nat → Nat
  | 0, first, _ => first
  | fuel + 1, first, len =>
    if len = 0 then first
    else
      let half := len >>> 1
      let middle := first + half
      match c.get? middle with
      | some x =>
        if right x then bisect right c fuel (middle + 1) (len - half - 1)
        else bisect right c fuel first half
      | none => first

/-- `std::lower_bound(c.begin(), c.end(), key, comp)`: bisection that moves
right while `comp(*middle, key)`. -/
def lower_bound {D : Type} (comp : D → D → Bool) (c : List D) (key : D) : Nat :=
  bisect (fun e => comp e key) c c.length 0 c.length

/-- `std::upper_bound(c.begin(), c.end(), key, comp)`: bisection that moves
right while `!comp(key, *middle)`. -/
def upper_bound {D : Type} (comp : D → D → Bool) (c : List D) (key : D) : Nat :=
  bisect (fun e => !comp key e) c c.length 0 c.length

/-- `std::equal_range(c.begin(), c.end(), key, comp)`: the pair
`(lower_bound, upper_bound)`. -/
def equal_range {D : Type} (comp : D → D → Bool) (c : List D) (key : D) : Nat × Nat :=
  (lower_bound comp c key, upper_bound comp c key)

end StdAlgo

/-! ## `SortedListSet<D, CMP>` -/

/-- The data members of `SortedListSet`: `container_` (a `std::vector`) and
`sortedCount_`. -/
structure SortedListSet (D : Type) where
  container_ : List D
  sortedCount_ : Nat
  deriving DecidableEq, Repr

namespace SortedListSet

variable {D : Type}

/-- `SortedListSet()`: empty vector, `sortedCount_{0}`. -/
def empty : SortedListSet D := { container_ := [], sortedCount_ := 0 }

/-- `void insert(data_type &&d)`: `container_.push_back(d)`. -/
def insert (s : SortedListSet D) (d : D) : SortedListSet D :=
  { s with container_ := s.container_ ++ [d] }

/-- `void erase(const iterator &it)`: `container_.erase(it)`; the iterator is
the index of the element it designates. -/
def erase (s : SortedListSet D) (it : Nat) : SortedListSet D :=
  { s with container_ := s.container_.eraseIdx it }

/-- `void lazy_init()`: sorts and records the size when `sortedCount_` differs
from `container_.size()`. -/
def lazy_init (sort : (D → D → Bool) → List D → List D) (CMP : D → D → Bool)
    (s : SortedListSet D) : SortedListSet D :=
  if s.sortedCount_ ≠ s.container_.length then
    let c := sort CMP s.container_
    { container_ := c, sortedCount_ := c.length }
  else s

/-- `iterator begin()`: the state after `lazy_init()` and index 0. -/
def begin (sort : (D → D → Bool) → List D → List D) (CMP : D → D → Bool)
    (s : SortedListSet D) : SortedListSet D × Nat :=
  (lazy_init sort CMP s, 0)

/-- `iterator end()`: `container_.begin() + sortedCount_`. -/
def end_ (s : SortedListSet D) : Nat := s.sortedCount_

/-- `iterator lower_bound(key_type key)`. -/
def lower_bound (sort : (D → D → Bool) → List D → List D) (CMP : D → D → Bool)
    (s : SortedListSet D) (key : D) : SortedListSet D × Nat :=
  let s1 := lazy_init sort CMP s
  (s1, StdAlgo.lower_bound CMP s1.container_ key)

/-- `iterator upper_bound(key_type key)`. -/
def upper_bound (sort : (D → D → Bool) → List D → List D) (CMP : D → D → Bool)
    (s : SortedListSet D) (key : D) : SortedListSet D × Nat :=
  let s1 := lazy_init sort CMP s
  (s1, StdAlgo.upper_bound CMP s1.container_ key)

/-- `pair<iterator, iterator> equal_range(key_type key)`. -/
def equal_range (sort : (D → D → Bool) → List D → List D) (CMP : D → D → Bool)
    (s : SortedListSet D) (key : D) : SortedListSet D × (Nat × Nat) :=
  let s1 := lazy_init sort CMP s
  (s1, StdAlgo.equal_range CMP s1.container_ key)

/-- The elements a pair of iterators `[first, second)` designates. -/
def range_elems (c : List D) (r : Nat × Nat) : List D :=
  (c.drop r.1).take (r.2 - r.1)

/-- The state after a sequence of `insert` calls on an empty set. -/
def insert_all (xs : List D) : SortedListSet D :=
  xs.foldl insert empty

/-- The comparator `std::less<unsigned>` used in the concrete runs. -/
def nat_less (a b : Nat) : Bool := decide (a < b)

/-- A run of the set over `unsigned` keys: insert 1, 2, 3, call `begin()`,
erase the element `begin()` designates, insert 0. -/
def erase_insert_run : SortedListSet Nat :=
  insert
    (erase (begin StdAlgo.sort nat_less (insert_all [1, 2, 3])).1
      (begin StdAlgo.sort nat_less (insert_all [1, 2, 3])).2)
    0

end SortedListSet

/-! ## `nmranet`: event registry entries, reports and handler effects

`EventRegistryEntry`, `EventReport`, `EventRegistry`, `BarrierNotifiable`,
`Gpio`, `WriteHelper` and `Defs` are declared in headers that are not part of
the sources at hand; what the handlers use of them is modelled here.
Pointers (`EventHandler *`, `Node *`, `BarrierNotifiable *`) are natural
numbers, with 0 for the null pointer. -/

namespace nmranet

/-- Modelled from the spec: `EventRegistryEntry`, the tuple (handler reference,
event id, 32-bit tag `user_arg`), built by
`EventRegistryEntry(handler, event, user_arg)`. -/
structure EventRegistryEntry where
  handler : Nat
  event : Nat
  user_arg : Nat
  deriving DecidableEq, Repr

/-- Modelled from the spec: `EventReport`, the per-dispatch context: the event id
reported or queried, the source node and the destination node (null unless the
request is directed). -/
structure EventReport where
  event : Nat
  src_node : Nat
  dst_node : Nat
  deriving DecidableEq, Repr

/-- What a handler does to its environment, in the order it does it:
`done->notify()`, `done->new_child()`, `pins_[pin]->write(value)`, and
`event_write_helper<helper>.WriteAsync(node, mti, WriteHelper::global(),
eventid_to_buffer(event), done)`. -/
inductive Effect where
  | notify (done : Nat)
  | new_child (done : Nat)
  | write (pin : Nat) (value : Bool)
  | WriteAsync (helper : Nat) (node : Nat) (mti : Nat) (event : Nat) (done : Nat)
  deriving DecidableEq, Repr

/-- The effect is a message handed to `WriteAsync`. -/
def Effect.is_message : Effect → Bool
  | Effect.WriteAsync _ _ _ _ _ => true
  | _ => false

/-- The messages among the effects, in order. -/
def messages (effects : List Effect) : List Effect :=
  effects.filter Effect.is_message

/-- Number of `notify()` calls on the handle `done` among the effects. -/
def notify_count (done : Nat) (effects : List Effect) : Nat :=
  effects.count (Effect.notify done)

/-- The levels of the output pins after one effect: `write(value)` sets the
level of its pin, every other effect leaves the pins alone. -/
def apply_effect (pins : List Bool) : Effect → List Bool
  | Effect.write pin value => pins.set pin value
  | _ => pins

/-- The levels of the output pins after a sequence of effects. -/
def run_effects (pins : List Bool) (effects : List Effect) : List Bool :=
  effects.foldl apply_effect pins

/-- `Gpio::is_clr()`: the pin reads clear. -/
def is_clr (level : Bool) : Bool := !level

/-- The two message type constants of `Defs` the handlers start from; their
values are declared outside the sources at hand and are left open. -/
structure Defs where
  MTI_PRODUCER_IDENTIFIED_VALID : Nat
  MTI_CONSUMER_IDENTIFIED_VALID : Nat
  deriving DecidableEq, Repr

/-- Modelled from the spec: `ConfigUpdateListener::UpdateAction`, the result of
`apply_configuration`. -/
inductive UpdateAction where
  | UPDATED
  | REINIT_NEEDED
  | REBOOT_NEEDED
  deriving DecidableEq, Repr

/-- Modelled from the spec: `EventRegistry`, the collection of registry
entries. -/
structure EventRegistry where
  entries : List EventRegistryEntry
  deriving DecidableEq, Repr

namespace EventRegistry

/-- Modelled from the spec: `EventRegistry::register_handler(entry, mask)`
inserts the entry. -/
def register_handler (reg : EventRegistry) (entry : EventRegistryEntry) (_mask : Nat) :
    EventRegistry :=
  { entries := reg.entries ++ [entry] }

/-- Modelled from the spec: `EventRegistry::unregister_handler(handler)` removes
every entry whose handler is `handler`. -/
def unregister_handler (reg : EventRegistry) (handler : Nat) : EventRegistry :=
  { entries := reg.entries.filter (fun e => decide (e.handler ≠ handler)) }

/-- The entries owned by `handler`. -/
def owned (reg : EventRegistry) (handler : Nat) : List EventRegistryEntry :=
  reg.entries.filter (fun e => decide (e.handler = handler))

/-- The entries owned by `handler` that match the event id `event`. -/
def matching (reg : EventRegistry) (handler : Nat) (event : Nat) :
    List EventRegistryEntry :=
  (reg.owned handler).filter (fun e => decide (e.event = event))

end EventRegistry

/-- `ConsumerConfig`: the pair of event ids `event_on().read(fd)` and
`event_off().read(fd)` of one configuration entry. -/
structure ConsumerConfig where
  event_on : Nat
  event_off : Nat
  deriving DecidableEq, Repr

/-- The data members of `MultiConfiguredConsumer` the handlers read: `this`,
`node_` and `size_`. The pin array `pins_` is represented by the list of
levels of the pins it points to, passed to the handlers that use it. -/
structure MultiConfiguredConsumer where
  this_ : Nat
  node_ : Nat
  size_ : Nat
  deriving DecidableEq, Repr

namespace MultiConfiguredConsumer

/-- `void do_unregister()`. -/
def do_unregister (self : MultiConfiguredConsumer) (reg : EventRegistry) : EventRegistry :=
  reg.unregister_handler self.this_

/-- The body of the `for` loop of `apply_configuration` for pin `i`; `cfg i` is
what the configuration file holds for `grp_ref.entry(i)`, and the tags
`i * 2` and `i * 2 + 1` are computed in `unsigned` arithmetic. -/
def register_pin (self : MultiConfiguredConsumer) (cfg : Nat → ConsumerConfig)
    (reg : EventRegistry) (i : Nat) : EventRegistry :=
  let cfg_event_on := (cfg i).event_on
  let cfg_event_off := (cfg i).event_off
  let reg1 := reg.register_handler
    { handler := self.this_, event := cfg_event_off, user_arg := CInt.toUnsigned 32 (i * 2) } 0
  reg1.register_handler
    { handler := self.this_, event := cfg_event_on,
      user_arg := CInt.toUnsigned 32 (i * 2 + 1) } 0

/-- `UpdateAction apply_configuration(int fd, bool initial_load,
BarrierNotifiable *done)`: the registry afterwards, the effect of
`AutoNotify n(done)` and the returned action. -/
def apply_configuration (self : MultiConfiguredConsumer) (cfg : Nat → ConsumerConfig)
    (initial_load : Bool) (done : Nat) (reg : EventRegistry) :
    EventRegistry × List Effect × UpdateAction :=
  let reg1 := if !initial_load then self.do_unregister reg else reg
  let reg2 := (List.range self.size_).foldl (self.register_pin cfg) reg1
  (reg2, [Effect.notify done], UpdateAction.REINIT_NEEDED)

/-- `void SendConsumerIdentified(const EventRegistryEntry &registry_entry,
BarrierNotifiable *done)`; `none` when `pins_[user_arg >> 1]` is outside the
pin array. -/
def SendConsumerIdentified (defs : Defs) (self : MultiConfiguredConsumer) (pins : List Bool)
    (registry_entry : EventRegistryEntry) (done : Nat) : Option (List Effect) :=
  match pins.get? (registry_entry.user_arg >>> 1) with
  | none => none
  | some level =>
    let mti := defs.MTI_CONSUMER_IDENTIFIED_VALID
    let mti := if is_clr level then mti + 1 else mti
    some [Effect.WriteAsync 3 self.node_ mti registry_entry.event done]

/-- `void HandleIdentifyGlobal(const EventRegistryEntry &registry_entry,
EventReport *event, BarrierNotifiable *done)`. -/
def HandleIdentifyGlobal (defs : Defs) (self : MultiConfiguredConsumer) (pins : List Bool)
    (registry_entry : EventRegistryEntry) (event : EventReport) (done : Nat) :
    Option (List Effect) :=
  if event.dst_node ≠ 0 ∧ event.dst_node ≠ self.node_ then some [Effect.notify done]
  else SendConsumerIdentified defs self pins registry_entry done

/-- `void HandleIdentifyConsumer(const EventRegistryEntry &registry_entry,
EventReport *event, BarrierNotifiable *done)`. -/
def HandleIdentifyConsumer (defs : Defs) (self : MultiConfiguredConsumer) (pins : List Bool)
    (registry_entry : EventRegistryEntry) (event : EventReport) (done : Nat) :
    Option (List Effect) :=
  if event.event ≠ registry_entry.event then some [Effect.notify done]
  else SendConsumerIdentified defs self pins registry_entry done

/-- `void HandleEventReport(const EventRegistryEntry &registry_entry,
EventReport *event, BarrierNotifiable *done)`; `none` when
`pins_[user_arg >> 1]` is outside the pin array. -/
def HandleEventReport (_self : MultiConfiguredConsumer) (pins : List Bool)
    (registry_entry : EventRegistryEntry) (event : EventReport) (done : Nat) :
    Option (List Effect) :=
  if event.event ≠ registry_entry.event then some [Effect.notify done]
  else if registry_entry.user_arg >>> 1 < pins.length then
    let is_on : Bool := decide (registry_entry.user_arg &&& 1 ≠ 0)
    some [Effect.write (registry_entry.user_arg >>> 1) is_on, Effect.notify done]
  else none

/-- An Event Report handed, one entry after the other, to `HandleEventReport`
for each of the given registry entries: the levels of the pins afterwards. -/
def deliver_event_report (self : MultiConfiguredConsumer) (event : EventReport) (done : Nat) :
    List EventRegistryEntry → List Bool → Option (List Bool)
  | [], pins => some pins
  | e :: es, pins =>
    match HandleEventReport self pins e event done with
    | none => none
    | some effects => deliver_event_report self event done es (run_effects pins effects)

/-- An Identify-Global request handed, one entry after the other, to
`HandleIdentifyGlobal` for each of the given registry entries: all effects, in
order. -/
def deliver_identify_global (defs : Defs) (self : MultiConfiguredConsumer) (pins : List Bool)
    (event : EventReport) (done : Nat) : List EventRegistryEntry → Option (List Effect)
  | [] => some []
  | e :: es =>
    match HandleIdentifyGlobal defs self pins e event done with
    | none => none
    | some effects =>
      match deliver_identify_global defs self pins event done es with
      | none => none
      | some rest => some (effects ++ rest)

/-- The configuration of the two-pin scenario: pin 0 has (on = 100, off = 101),
pin 1 has (on = 200, off = 201). -/
def two_pin_config (i : Nat) : ConsumerConfig :=
  if i = 0 then { event_on := 100, event_off := 101 }
  else if i = 1 then { event_on := 200, event_off := 201 }
  else { event_on := 0, event_off := 0 }

end MultiConfiguredConsumer

/-- The data members of `CallbackEventHandler`: `this`, `node_`, and the two
closures; a report handler is represented by the effects it has, a state
handler by the integer value of the `EventState` it returns. -/
structure CallbackEventHandler where
  this_ : Nat
  node_ : Nat
  reportHandler_ : EventRegistryEntry → EventReport → Nat → List Effect
  stateHandler_ : EventRegistryEntry → EventReport → Nat

namespace CallbackEventHandler

def IS_PRODUCER : Nat := 1 <<< 31
def IS_CONSUMER : Nat := 1 <<< 30
def USER_BIT_MASK : Nat := IS_CONSUMER - 1

/-- `void add_entry(EventId event, uint32_t entry_bits)`. -/
def add_entry (self : CallbackEventHandler) (event : Nat) (entry_bits : Nat)
    (reg : EventRegistry) : EventRegistry :=
  reg.register_handler { handler := self.this_, event := event, user_arg := entry_bits } 0

/-- `void HandleEventReport(const EventRegistryEntry &entry, EventReport *event,
BarrierNotifiable *done)`. -/
def HandleEventReport (self : CallbackEventHandler) (entry : EventRegistryEntry)
    (event : EventReport) (done : Nat) : List Effect :=
  self.reportHandler_ entry event done ++ [Effect.notify done]

/-- `void SendProducerIdentified(const EventRegistryEntry &entry,
EventReport *event, BarrierNotifiable *done)`; the handle passed on is the
one `done->new_child()` returns. -/
def SendProducerIdentified (defs : Defs) (self : CallbackEventHandler)
    (entry : EventRegistryEntry) (event : EventReport) (done : Nat) : List Effect :=
  let state := self.stateHandler_ entry event
  let mti := defs.MTI_PRODUCER_IDENTIFIED_VALID + state
  [Effect.new_child done, Effect.WriteAsync 1 self.node_ mti entry.event done]

/-- `void SendConsumerIdentified(const EventRegistryEntry &entry,
EventReport *event, BarrierNotifiable *done)`. -/
def SendConsumerIdentified (defs : Defs) (self : CallbackEventHandler)
    (entry : EventRegistryEntry) (event : EventReport) (done : Nat) : List Effect :=
  let state := self.stateHandler_ entry event
  let mti := defs.MTI_CONSUMER_IDENTIFIED_VALID + state
  [Effect.new_child done, Effect.WriteAsync 3 self.node_ mti entry.event done]

/-- `void HandleIdentifyConsumer(const EventRegistryEntry &registry_entry,
EventReport *event, BarrierNotifiable *done)`. -/
def HandleIdentifyConsumer (defs : Defs) (self : CallbackEventHandler)
    (registry_entry : EventRegistryEntry) (event : EventReport) (done : Nat) : List Effect :=
  (if registry_entry.user_arg &&& IS_CONSUMER ≠ 0 then
      SendConsumerIdentified defs self registry_entry event done
    else []) ++ [Effect.notify done]

/-- `void HandleIdentifyProducer(const EventRegistryEntry &registry_entry,
EventReport *event, BarrierNotifiable *done)`. -/
def HandleIdentifyProducer (defs : Defs) (self : CallbackEventHandler)
    (registry_entry : EventRegistryEntry) (event : EventReport) (done : Nat) : List Effect :=
  (if registry_entry.user_arg &&& IS_PRODUCER ≠ 0 then
      SendProducerIdentified defs self registry_entry event done
    else []) ++ [Effect.notify done]

/-- `void HandleIdentifyGlobal(const EventRegistryEntry &registry_entry,
EventReport *event, BarrierNotifiable *done)`. -/
def HandleIdentifyGlobal (defs : Defs) (self : CallbackEventHandler)
    (registry_entry : EventRegistryEntry) (event : EventReport) (done : Nat) : List Effect :=
  (if registry_entry.user_arg &&& IS_PRODUCER ≠ 0 then
      SendProducerIdentified defs self registry_entry event done
    else []) ++
  (if registry_entry.user_arg &&& IS_CONSUMER ≠ 0 then
      SendConsumerIdentified defs self registry_entry event done
    else []) ++ [Effect.notify done]

end CallbackEventHandler

/-- A comparator over registry entries that orders them by event id. -/
def entry_less (a b : EventRegistryEntry) : Bool := decide (a.event < b.event)

end nmranet

/-! ## `nmranet`: completion handles, the SNIP handler and its data blocks -/

namespace nmranet

/-- Number of times the handle `done` is handed to an asynchronous send among
the effects. -/
def send_count (done : Nat) (effects : List Effect) : Nat :=
  effects.countP (fun e =>
    match e with
    | Effect.WriteAsync _ _ _ _ d => decide (d = done)
    | _ => false)

/-- Number of `done->new_child()` calls among the effects. -/
def new_child_count (done : Nat) (effects : List Effect) : Nat :=
  effects.count (Effect.new_child done)

/-- One step of a run in which a handler executes and the sends it started
complete: either the handler performs its next effect, or the send started by
its `i`-th `WriteAsync` completes and notifies the handle it was given. -/
inductive Step where
  | handler (e : Effect)
  | complete (i : Nat)
  deriving DecidableEq, Repr

/-- The effects of the handler among the steps, in order. -/
def handler_part (s : List Step) : List Effect :=
  s.filterMap (fun x =>
    match x with
    | Step.handler e => some e
    | Step.complete _ => none)

/-- The sends that complete among the steps, in order. -/
def completions (s : List Step) : List Nat :=
  s.filterMap (fun x =>
    match x with
    | Step.handler _ => none
    | Step.complete i => some i)

/-- The steps `s` are a run of a handler with effects `t`: the handler performs
exactly `t`, in order; each send it starts completes exactly once, and not
before it was started. -/
def is_run_of (t : List Effect) (s : List Step) : Prop :=
  handler_part s = t ∧
    (completions s).Perm (List.range (messages t).length) ∧
    ∀ p : List Step, p <+: s →
      ∀ i ∈ completions p, i < (messages (handler_part p)).length

/-- What a handler's effects must look like for the counting argument: every
send is preceded by a `new_child()` of its own, as many children are created
as sends are started, and the handler's single `notify()` is its last
effect. -/
def well_formed_trace (done : Nat) (t : List Effect) : Prop :=
  new_child_count done t = (messages t).length ∧ notify_count done t = 1 ∧
    ∀ q : List Effect, q <+: t →
      (messages q).length ≤ new_child_count done q ∧ notify_count done q ≤ 1 ∧
        (notify_count done q = 1 → q = t)

/-- Modelled from the spec: the join primitive `BarrierNotifiable`, a count of
outstanding children and the number of times the parent was signalled. -/
structure Barrier where
  count : Nat
  fired : Nat
  deriving DecidableEq, Repr

namespace Barrier

/-- Modelled from the spec: `new_child()` adds one outstanding child. -/
def new_child (b : Barrier) : Barrier :=
  { b with count := b.count + 1 }

/-- Modelled from the spec: `notify()` removes one outstanding child and signals
the parent when the count reaches zero; a notify with nothing outstanding is
a fatal error (`none`). -/
def notify (b : Barrier) : Option Barrier :=
  if b.count = 0 then none
  else some { count := b.count - 1, fired := if b.count = 1 then b.fired + 1 else b.fired }

/-- The barrier behind the handle `done` after one step of a run. -/
def step (done : Nat) (b : Barrier) : Step → Option Barrier
  | Step.handler (Effect.new_child d) => if d = done then some b.new_child else some b
  | Step.handler (Effect.notify d) => if d = done then b.notify else some b
  | Step.handler _ => some b
  | Step.complete _ => b.notify

/-- The barrier behind the handle `done` after the steps of a run. -/
def run (done : Nat) : List Step → Barrier → Option Barrier
  | [], b => some b
  | x :: xs, b =>
    match step done b x with
    | none => none
    | some b1 => run done xs b1

end Barrier

/-- A run of `HandleIdentifyGlobal` of a CallbackEventHandler for an entry with
both role bits set: the first send completes before the second is started, the
second after the handler has notified its handle. -/
def two_send_run : List Step :=
  [Step.handler (Effect.new_child 1), Step.handler (Effect.WriteAsync 1 9 0x544 100 1),
    Step.complete 0, Step.handler (Effect.new_child 1),
    Step.handler (Effect.WriteAsync 3 9 0x4C4 100 1), Step.handler (Effect.notify 1),
    Step.complete 1]

/-- `struct SimpleNodeStaticValues` and `struct SimpleNodeDynamicValues` are
described by the size and the alignment of each member, in order of
declaration. -/
structure CField where
  size : Nat
  align : Nat
  deriving DecidableEq, Repr

/-- The offset rounded up to a multiple of the alignment. -/
def align_up (offset align : Nat) : Nat :=
  (offset + align - 1) / align * align

/-- `sizeof` of a struct with the given members: each member is placed at the
next offset that meets its alignment, and the size is rounded up to the
largest alignment. -/
def sizeof_struct (fields : List CField) : Nat :=
  align_up (fields.foldl (fun offset f => align_up offset f.align + f.size) 0)
    (fields.foldl (fun a f => max a f.align) 1)

/-- Members of `struct SimpleNodeStaticValues`: `uint8_t version`,
`char manufacturer_name[41]`, `char model_name[41]`, `char hardware_version[21]`,
`char software_version[21]`. -/
def SimpleNodeStaticValues_fields : List CField :=
  [{ size := 1, align := 1 }, { size := 41, align := 1 }, { size := 41, align := 1 },
    { size := 21, align := 1 }, { size := 21, align := 1 }]

/-- Members of `struct SimpleNodeDynamicValues`: `uint8_t version`,
`char user_name[63]`, `char user_description[64]`. -/
def SimpleNodeDynamicValues_fields : List CField :=
  [{ size := 1, align := 1 }, { size := 63, align := 1 }, { size := 64, align := 1 }]

/-- Modelled from the spec: the incoming message `nmsg()` of the flow: source,
destination node (null when the message is not addressed) and message type. -/
structure NMRAnetMessage where
  src : Nat
  dstNode : Nat
  mti : Nat
  deriving DecidableEq, Repr

/-- The constants `SNIPHandler` uses that are declared outside the sources at
hand: the message type `Defs::MTI_IDENT_INFO_REPLY` and the field list
`SNIP_RESPONSE`; left open. -/
structure SnipDefs where
  MTI_IDENT_INFO_REPLY : Nat
  SNIP_RESPONSE : List Nat
  deriving DecidableEq, Repr

/-- The data member of `SNIPHandler`: `responseFlow_`. -/
structure SNIPHandler where
  responseFlow_ : Nat
  deriving DecidableEq, Repr

namespace SNIPHandler

/-- The states of the flow: `entry` and `send_response_request`. -/
inductive State where
  | entry
  | send_response_request
  deriving DecidableEq, Repr

/-- The two actions the states return: `release_and_exit()` and
`allocate_and_call(flow, STATE(next))`. -/
inductive Action where
  | release_and_exit
  | allocate_and_call (flow : Nat) (next : State)
  deriving DecidableEq, Repr

/-- What the flow does to its environment: it obtains a buffer of a flow,
sends a buffer that `reset(nmsg(), descriptor, mti)` has filled to a flow, or
releases the incoming message. -/
inductive FlowEffect where
  | allocate (flow : Nat)
  | send (flow : Nat) (request : NMRAnetMessage) (descriptor : List Nat) (mti : Nat)
  | release (message : NMRAnetMessage)
  deriving DecidableEq, Repr

/-- `SNIPHandler(If *interface, SimpleInfoFlow *response_flow)`: `none` when
one of the two `HASSERT`s fails; `version` is `SNIP_STATIC_DATA.version`. -/
def construct (version : Nat) (response_flow : Nat) : Option SNIPHandler :=
  if version = 4 then
    if sizeof_struct SimpleNodeStaticValues_fields = 125 then
      some { responseFlow_ := response_flow }
    else none
  else none

/-- `Action entry()`. -/
def entry (self : SNIPHandler) (nmsg : NMRAnetMessage) : List FlowEffect × Action :=
  if nmsg.dstNode = 0 then ([], Action.release_and_exit)
  else ([], Action.allocate_and_call self.responseFlow_ State.send_response_request)

/-- `Action send_response_request()`. -/
def send_response_request (defs : SnipDefs) (self : SNIPHandler) (nmsg : NMRAnetMessage) :
    List FlowEffect × Action :=
  ([FlowEffect.send self.responseFlow_ nmsg defs.SNIP_RESPONSE defs.MTI_IDENT_INFO_REPLY],
    Action.release_and_exit)

/-- The body of a state. -/
def call_state (defs : SnipDefs) (self : SNIPHandler) (nmsg : NMRAnetMessage) :
    State → List FlowEffect × Action
  | State.entry => entry self nmsg
  | State.send_response_request => send_response_request defs self nmsg

/-- Modelled from the spec: the flow executor. `release_and_exit()` releases the
incoming message and ends the flow; `allocate_and_call(flow, STATE(next))`
obtains a buffer of `flow` and continues in the state `next`. The result is
everything the flow did, or `none` when it did not end within the given number
of states. -/
def run (defs : SnipDefs) (self : SNIPHandler) (nmsg : NMRAnetMessage) :
    Nat → State → Option (List FlowEffect)
  | 0, _ => none
  | fuel + 1, s =>
    match (call_state defs self nmsg s).2 with
    | Action.release_and_exit =>
      some ((call_state defs self nmsg s).1 ++ [FlowEffect.release nmsg])
    | Action.allocate_and_call flow next =>
      match run defs self nmsg fuel next with
      | none => none
      | some rest =>
        some ((call_state defs self nmsg s).1 ++ [FlowEffect.allocate flow] ++ rest)

/-- The effect is a reply handed to a flow. -/
def FlowEffect.is_send : FlowEffect → Bool
  | FlowEffect.send _ _ _ _ => true
  | _ => false

end SNIPHandler

end nmranet

/-! ## `MultiConfiguredConsumer`: the constructor -/

namespace nmranet

namespace MultiConfiguredConsumer

/-- `template <unsigned N> MultiConfiguredConsumer(Node *node,
const Gpio *const *pins, unsigned size, const RepeatedGroup<config_entry_type, N>
&config)`: the member initialisers `node_(node)`, `size_(N)` and the check
`HASSERT(size_ == N)`; `none` when the check fails. `this_` is the address of
the object under construction. -/
def construct (N : Nat) (this_ : Nat) (node : Nat) (_pins : Nat) (_size : Nat) :
    Option MultiConfiguredConsumer :=
  let size_ := N
  if size_ = N then some { this_ := this_, node_ := node, size_ := size_ } else none

end MultiConfiguredConsumer

end nmranet

/-! ## `SPIFFS`: the POSIX file operations over the SPIFFS library

The constants of `<fcntl.h>`, `<errno.h>` and `spiffs.h` are declared outside
the sources at hand and are parameters; the results of the library calls
`SPIFFS_open`, `SPIFFS_close`, `SPIFFS_read` and `SPIFFS_write` are inputs. -/

namespace SPIFFS

/-- The open flags of `<fcntl.h>` that `SPIFFS::open` tests. -/
structure Fcntl where
  O_RDONLY : Nat
  O_WRONLY : Nat
  O_RDWR : Nat
  O_APPEND : Nat
  O_CREAT : Nat
  O_TRUNC : Nat
  O_EXCL : Nat
  O_DIRECT : Nat
  deriving DecidableEq, Repr

/-- The open flags of `spiffs.h` that `SPIFFS::open` sets. -/
structure SpiffsFlags where
  SPIFFS_O_APPEND : Nat
  SPIFFS_O_TRUNC : Nat
  SPIFFS_O_CREAT : Nat
  SPIFFS_O_RDONLY : Nat
  SPIFFS_O_WRONLY : Nat
  SPIFFS_O_RDWR : Nat
  SPIFFS_O_DIRECT : Nat
  SPIFFS_O_EXCL : Nat
  deriving DecidableEq, Repr

/-- The values of newlib's `<fcntl.h>`, with `O_DIRECT` as the source defines it
(`_FDIRECT`, 0x80000). -/
def newlib_fcntl : Fcntl :=
  { O_RDONLY := 0, O_WRONLY := 1, O_RDWR := 2, O_APPEND := 0x0008, O_CREAT := 0x0200,
    O_TRUNC := 0x0400, O_EXCL := 0x0800, O_DIRECT := 0x80000 }

/-- The values of `spiffs.h`. -/
def spiffs_h_flags : SpiffsFlags :=
  { SPIFFS_O_APPEND := 1 <<< 0, SPIFFS_O_TRUNC := 1 <<< 1, SPIFFS_O_CREAT := 1 <<< 2,
    SPIFFS_O_RDONLY := 1 <<< 3, SPIFFS_O_WRONLY := 1 <<< 4,
    SPIFFS_O_RDWR := (1 <<< 3) ||| (1 <<< 4), SPIFFS_O_DIRECT := 1 <<< 5,
    SPIFFS_O_EXCL := 1 <<< 6 }

/-- The first part of `SPIFFS::open`: the value of `ffs_flags` (a 16-bit
`spiffs_flags`) handed to `SPIFFS_open`. -/
def open_flags (f : Fcntl) (s : SpiffsFlags) (flags : Nat) : Nat :=
  let ffs_flags := 0
  let ffs_flags :=
    if flags &&& f.O_APPEND ≠ 0 then CInt.toUnsigned 16 (ffs_flags ||| s.SPIFFS_O_APPEND)
    else ffs_flags
  let ffs_flags :=
    if flags &&& f.O_TRUNC ≠ 0 then CInt.toUnsigned 16 (ffs_flags ||| s.SPIFFS_O_TRUNC)
    else ffs_flags
  let ffs_flags :=
    if flags &&& f.O_CREAT ≠ 0 then CInt.toUnsigned 16 (ffs_flags ||| s.SPIFFS_O_CREAT)
    else ffs_flags
  let ffs_flags :=
    if flags &&& f.O_RDONLY ≠ 0 then CInt.toUnsigned 16 (ffs_flags ||| s.SPIFFS_O_RDONLY)
    else ffs_flags
  let ffs_flags :=
    if flags &&& f.O_WRONLY ≠ 0 then CInt.toUnsigned 16 (ffs_flags ||| s.SPIFFS_O_WRONLY)
    else ffs_flags
  let ffs_flags :=
    if flags &&& f.O_RDWR ≠ 0 then CInt.toUnsigned 16 (ffs_flags ||| s.SPIFFS_O_RDWR)
    else ffs_flags
  let ffs_flags :=
    if flags &&& f.O_DIRECT ≠ 0 then CInt.toUnsigned 16 (ffs_flags ||| s.SPIFFS_O_DIRECT)
    else ffs_flags
  let ffs_flags :=
    if flags &&& f.O_EXCL ≠ 0 then CInt.toUnsigned 16 (ffs_flags ||| s.SPIFFS_O_EXCL)
    else ffs_flags
  ffs_flags

/-- The flags value `ffs_flags` includes every bit of the flag `flag`. -/
def includes (ffs_flags flag : Nat) : Prop := ffs_flags &&& flag = flag

instance (ffs_flags flag : Nat) : Decidable (includes ffs_flags flag) :=
  inferInstanceAs (Decidable (ffs_flags &&& flag = flag))

/-- The result codes of `spiffs.h` that are `case` labels of the `switch` in
`SPIFFS::errno_translate`. -/
inductive SpiffsCode where
  | SPIFFS_OK
  | SPIFFS_ERR_NOT_MOUNTED
  | SPIFFS_ERR_FULL
  | SPIFFS_ERR_NOT_FOUND
  | SPIFFS_ERR_END_OF_OBJECT
  | SPIFFS_ERR_DELETED
  | SPIFFS_ERR_NOT_FINALIZED
  | SPIFFS_ERR_NOT_INDEX
  | SPIFFS_ERR_OUT_OF_FILE_DESCS
  | SPIFFS_ERR_FILE_CLOSED
  | SPIFFS_ERR_FILE_DELETED
  | SPIFFS_ERR_BAD_DESCRIPTOR
  | SPIFFS_ERR_IS_INDEX
  | SPIFFS_ERR_IS_FREE
  | SPIFFS_ERR_INDEX_SPAN_MISMATCH
  | SPIFFS_ERR_DATA_SPAN_MISMATCH
  | SPIFFS_ERR_INDEX_REF_FREE
  | SPIFFS_ERR_INDEX_REF_LU
  | SPIFFS_ERR_INDEX_REF_INVALID
  | SPIFFS_ERR_INDEX_FREE
  | SPIFFS_ERR_INDEX_LU
  | SPIFFS_ERR_INDEX_INVALID
  | SPIFFS_ERR_NOT_WRITABLE
  | SPIFFS_ERR_NOT_READABLE
  | SPIFFS_ERR_CONFLICTING_NAME
  | SPIFFS_ERR_NOT_CONFIGURED
  | SPIFFS_ERR_NOT_A_FS
  | SPIFFS_ERR_MOUNTED
  | SPIFFS_ERR_ERASE_FAIL
  | SPIFFS_ERR_MAGIC_NOT_POSSIBLE
  | SPIFFS_ERR_NO_DELETED_BLOCKS
  | SPIFFS_ERR_FILE_EXISTS
  | SPIFFS_ERR_NOT_A_FILE
  | SPIFFS_ERR_RO_NOT_IMPL
  | SPIFFS_ERR_RO_ABORTED_OPERATION
  | SPIFFS_ERR_PROBE_TOO_FEW_BLOCKS
  | SPIFFS_ERR_PROBE_NOT_A_FS
  | SPIFFS_ERR_NAME_TOO_LONG
  | SPIFFS_ERR_IX_MAP_UNMAPPED
  | SPIFFS_ERR_IX_MAP_MAPPED
  | SPIFFS_ERR_IX_MAP_BAD_RANGE
  | SPIFFS_ERR_SEEK_BOUNDS
  | SPIFFS_ERR_INTERNAL
  | SPIFFS_ERR_TEST
  deriving DecidableEq, Repr

/-- The error numbers of `<errno.h>` that `SPIFFS::errno_translate` returns. -/
structure Errno where
  ENOSPC : Int
  ENOENT : Int
  EOVERFLOW : Int
  EFAULT : Int
  EBUSY : Int
  EINVAL : Int
  EMFILE : Int
  EBADF : Int
  EACCES : Int
  EEXIST : Int
  EAGAIN : Int
  ENAMETOOLONG : Int
  deriving DecidableEq, Repr

/-- Every error number is positive, as POSIX requires of `<errno.h>`. -/
def Errno.positive (e : Errno) : Prop :=
  0 < e.ENOSPC ∧ 0 < e.ENOENT ∧ 0 < e.EOVERFLOW ∧ 0 < e.EFAULT ∧ 0 < e.EBUSY ∧
    0 < e.EINVAL ∧ 0 < e.EMFILE ∧ 0 < e.EBADF ∧ 0 < e.EACCES ∧ 0 < e.EEXIST ∧
    0 < e.EAGAIN ∧ 0 < e.ENAMETOOLONG

instance (e : Errno) : Decidable e.positive := by
  unfold Errno.positive
  infer_instance

/-- The values of newlib's `<errno.h>`. -/
def newlib_errno : Errno :=
  { ENOSPC := 28, ENOENT := 2, EOVERFLOW := 139, EFAULT := 14, EBUSY := 16, EINVAL := 22,
    EMFILE := 24, EBADF := 9, EACCES := 13, EEXIST := 17, EAGAIN := 11, ENAMETOOLONG := 91 }

open SpiffsCode in
/-- The `case` labels of the `switch` in `SPIFFS::errno_translate`, in source
order. -/
def case_labels : List SpiffsCode :=
  [SPIFFS_OK, SPIFFS_ERR_NOT_MOUNTED, SPIFFS_ERR_FULL, SPIFFS_ERR_NOT_FOUND,
    SPIFFS_ERR_END_OF_OBJECT, SPIFFS_ERR_DELETED, SPIFFS_ERR_NOT_FINALIZED,
    SPIFFS_ERR_NOT_INDEX, SPIFFS_ERR_OUT_OF_FILE_DESCS, SPIFFS_ERR_FILE_CLOSED,
    SPIFFS_ERR_FILE_DELETED, SPIFFS_ERR_BAD_DESCRIPTOR, SPIFFS_ERR_IS_INDEX,
    SPIFFS_ERR_IS_FREE, SPIFFS_ERR_INDEX_SPAN_MISMATCH, SPIFFS_ERR_DATA_SPAN_MISMATCH,
    SPIFFS_ERR_INDEX_REF_FREE, SPIFFS_ERR_INDEX_REF_LU, SPIFFS_ERR_INDEX_REF_INVALID,
    SPIFFS_ERR_INDEX_FREE, SPIFFS_ERR_INDEX_LU, SPIFFS_ERR_INDEX_INVALID,
    SPIFFS_ERR_NOT_WRITABLE, SPIFFS_ERR_NOT_READABLE, SPIFFS_ERR_CONFLICTING_NAME,
    SPIFFS_ERR_NOT_CONFIGURED, SPIFFS_ERR_NOT_A_FS, SPIFFS_ERR_MOUNTED,
    SPIFFS_ERR_ERASE_FAIL, SPIFFS_ERR_MAGIC_NOT_POSSIBLE, SPIFFS_ERR_NO_DELETED_BLOCKS,
    SPIFFS_ERR_FILE_EXISTS, SPIFFS_ERR_NOT_A_FILE, SPIFFS_ERR_RO_NOT_IMPL,
    SPIFFS_ERR_RO_ABORTED_OPERATION, SPIFFS_ERR_PROBE_TOO_FEW_BLOCKS,
    SPIFFS_ERR_PROBE_NOT_A_FS, SPIFFS_ERR_NAME_TOO_LONG, SPIFFS_ERR_IX_MAP_UNMAPPED,
    SPIFFS_ERR_IX_MAP_MAPPED, SPIFFS_ERR_IX_MAP_BAD_RANGE, SPIFFS_ERR_SEEK_BOUNDS,
    SPIFFS_ERR_INTERNAL, SPIFFS_ERR_TEST]

open SpiffsCode in
/-- What `SPIFFS::errno_translate` does at each `case` label: `return` of an
error number, `HASSERT(0)` (`none`), or `break`, after which the function
returns `EINVAL`. -/
def case_result (e : Errno) : SpiffsCode → Option Int
  | SPIFFS_OK => some 0
  | SPIFFS_ERR_NOT_MOUNTED => none
  | SPIFFS_ERR_FULL => some e.ENOSPC
  | SPIFFS_ERR_NOT_FOUND => some e.ENOENT
  | SPIFFS_ERR_END_OF_OBJECT => some e.EOVERFLOW
  | SPIFFS_ERR_DELETED => some e.EFAULT
  | SPIFFS_ERR_NOT_FINALIZED => some e.EBUSY
  | SPIFFS_ERR_NOT_INDEX => some e.EINVAL
  | SPIFFS_ERR_OUT_OF_FILE_DESCS => some e.EMFILE
  | SPIFFS_ERR_FILE_CLOSED => some e.EBADF
  | SPIFFS_ERR_FILE_DELETED => some e.EFAULT
  | SPIFFS_ERR_BAD_DESCRIPTOR => some e.EBADF
  | SPIFFS_ERR_IS_INDEX => some e.EINVAL
  | SPIFFS_ERR_IS_FREE => some e.EBUSY
  | SPIFFS_ERR_INDEX_SPAN_MISMATCH => some e.EINVAL
  | SPIFFS_ERR_DATA_SPAN_MISMATCH => some e.EINVAL
  | SPIFFS_ERR_INDEX_REF_FREE => some e.EINVAL
  | SPIFFS_ERR_INDEX_REF_LU => some e.EINVAL
  | SPIFFS_ERR_INDEX_REF_INVALID => some e.EINVAL
  | SPIFFS_ERR_INDEX_FREE => some e.EINVAL
  | SPIFFS_ERR_INDEX_LU => some e.EINVAL
  | SPIFFS_ERR_INDEX_INVALID => some e.EINVAL
  | SPIFFS_ERR_NOT_WRITABLE => some e.EACCES
  | SPIFFS_ERR_NOT_READABLE => some e.EACCES
  | SPIFFS_ERR_CONFLICTING_NAME => some e.EINVAL
  | SPIFFS_ERR_NOT_CONFIGURED => some e.EINVAL
  | SPIFFS_ERR_NOT_A_FS => some e.EINVAL
  | SPIFFS_ERR_MOUNTED => some e.EINVAL
  | SPIFFS_ERR_ERASE_FAIL => some e.EINVAL
  | SPIFFS_ERR_MAGIC_NOT_POSSIBLE => some e.EINVAL
  | SPIFFS_ERR_NO_DELETED_BLOCKS => some e.EINVAL
  | SPIFFS_ERR_FILE_EXISTS => some e.EEXIST
  | SPIFFS_ERR_NOT_A_FILE => some e.ENOENT
  | SPIFFS_ERR_RO_NOT_IMPL => some e.EINVAL
  | SPIFFS_ERR_RO_ABORTED_OPERATION => some e.EAGAIN
  | SPIFFS_ERR_PROBE_TOO_FEW_BLOCKS => some e.ENOSPC
  | SPIFFS_ERR_PROBE_NOT_A_FS => some e.EINVAL
  | SPIFFS_ERR_NAME_TOO_LONG => some e.ENAMETOOLONG
  | SPIFFS_ERR_IX_MAP_UNMAPPED => some e.EINVAL
  | SPIFFS_ERR_IX_MAP_MAPPED => some e.EINVAL
  | SPIFFS_ERR_IX_MAP_BAD_RANGE => some e.EINVAL
  | SPIFFS_ERR_SEEK_BOUNDS => some e.EINVAL
  | SPIFFS_ERR_INTERNAL => some e.EINVAL
  | SPIFFS_ERR_TEST => some e.EINVAL

/-- `int SPIFFS::errno_translate(int spiffs_error)`: the `switch` selects the
`case` label whose value (`value`, the macro values of `spiffs.h`) equals
`spiffs_error`, and the `default` label, `HASSERT(0)`, when there is none;
`none` when an assertion fails. -/
def errno_translate (value : SpiffsCode → Int) (e : Errno) (spiffs_error : Int) :
    Option Int :=
  match case_labels.find? (fun c => decide (value c = spiffs_error)) with
  | none => none
  | some c => case_result e c

/-- What a file operation leaves behind: its return value, `errno`, and
`file->priv`. -/
structure Outcome where
  ret : Int
  errno : Int
  priv : Int
  deriving DecidableEq, Repr

/-- `int SPIFFS::open(File *file, const char *path, int flags, int mode)`;
`spiffs_open` is the result of `SPIFFS_open` for the flags it is given, `errno`
and `priv` the values of `errno` and `file->priv` before the call. -/
def open_ (f : Fcntl) (s : SpiffsFlags) (value : SpiffsCode → Int) (e : Errno) (flags : Nat)
    (spiffs_open : Nat → Int) (errno priv : Int) : Option Outcome :=
  let ffs_flags := open_flags f s flags
  let fd := spiffs_open ffs_flags
  if fd < 0 then
    match errno_translate value e fd with
    | none => none
    | some en => some { ret := -1, errno := en, priv := priv }
  else some { ret := 0, errno := errno, priv := fd }

/-- `int SPIFFS::close(File *file)`; `result` is the result of `SPIFFS_close`. -/
def close (value : SpiffsCode → Int) (e : Errno) (result : Int) (errno priv : Int) :
    Option Outcome :=
  if result ≠ value SpiffsCode.SPIFFS_OK then
    match errno_translate value e result with
    | none => none
    | some en => some { ret := -1, errno := en, priv := priv }
  else some { ret := 0, errno := errno, priv := priv }

/-- `ssize_t SPIFFS::read(File *file, void *buf, size_t count)`; `result` is the
result of `SPIFFS_read`. -/
def read (value : SpiffsCode → Int) (e : Errno) (result : Int) (errno priv : Int) :
    Option Outcome :=
  if result < 0 then
    match errno_translate value e result with
    | none => none
    | some en => some { ret := -1, errno := en, priv := priv }
  else some { ret := result, errno := errno, priv := priv }

/-- `ssize_t SPIFFS::write(File *file, const void *buf, size_t count)`; `result`
is the result of `SPIFFS_write`. -/
def write (value : SpiffsCode → Int) (e : Errno) (result : Int) (errno priv : Int) :
    Option Outcome :=
  if result < 0 then
    match errno_translate value e result with
    | none => none
    | some en => some { ret := -1, errno := en, priv := priv }
  else some { ret := result, errno := errno, priv := priv }

open SpiffsCode in
/-- The macro values of `spiffs.h`. -/
def spiffs_h_value : SpiffsCode → Int
  | SPIFFS_OK => 0
  | SPIFFS_ERR_NOT_MOUNTED => -10000
  | SPIFFS_ERR_FULL => -10001
  | SPIFFS_ERR_NOT_FOUND => -10002
  | SPIFFS_ERR_END_OF_OBJECT => -10003
  | SPIFFS_ERR_DELETED => -10004
  | SPIFFS_ERR_NOT_FINALIZED => -10005
  | SPIFFS_ERR_NOT_INDEX => -10006
  | SPIFFS_ERR_OUT_OF_FILE_DESCS => -10007
  | SPIFFS_ERR_FILE_CLOSED => -10008
  | SPIFFS_ERR_FILE_DELETED => -10009
  | SPIFFS_ERR_BAD_DESCRIPTOR => -10010
  | SPIFFS_ERR_IS_INDEX => -10011
  | SPIFFS_ERR_IS_FREE => -10012
  | SPIFFS_ERR_INDEX_SPAN_MISMATCH => -10013
  | SPIFFS_ERR_DATA_SPAN_MISMATCH => -10014
  | SPIFFS_ERR_INDEX_REF_FREE => -10015
  | SPIFFS_ERR_INDEX_REF_LU => -10016
  | SPIFFS_ERR_INDEX_REF_INVALID => -10017
  | SPIFFS_ERR_INDEX_FREE => -10018
  | SPIFFS_ERR_INDEX_LU => -10019
  | SPIFFS_ERR_INDEX_INVALID => -10020
  | SPIFFS_ERR_NOT_WRITABLE => -10021
  | SPIFFS_ERR_NOT_READABLE => -10022
  | SPIFFS_ERR_CONFLICTING_NAME => -10023
  | SPIFFS_ERR_NOT_CONFIGURED => -10024
  | SPIFFS_ERR_NOT_A_FS => -10025
  | SPIFFS_ERR_MOUNTED => -10026
  | SPIFFS_ERR_ERASE_FAIL => -10027
  | SPIFFS_ERR_MAGIC_NOT_POSSIBLE => -10028
  | SPIFFS_ERR_NO_DELETED_BLOCKS => -10029
  | SPIFFS_ERR_FILE_EXISTS => -10030
  | SPIFFS_ERR_NOT_A_FILE => -10031
  | SPIFFS_ERR_RO_NOT_IMPL => -10032
  | SPIFFS_ERR_RO_ABORTED_OPERATION => -10033
  | SPIFFS_ERR_PROBE_TOO_FEW_BLOCKS => -10034
  | SPIFFS_ERR_PROBE_NOT_A_FS => -10035
  | SPIFFS_ERR_NAME_TOO_LONG => -10036
  | SPIFFS_ERR_IX_MAP_UNMAPPED => -10037
  | SPIFFS_ERR_IX_MAP_MAPPED => -10038
  | SPIFFS_ERR_IX_MAP_BAD_RANGE => -10039
  | SPIFFS_ERR_SEEK_BOUNDS => -10040
  | SPIFFS_ERR_INTERNAL => -10050
  | SPIFFS_ERR_TEST => -10100

end SPIFFS

/-! ## Bit-field arithmetic -/

namespace BitLemmas

theorem and_shiftRight_distrib (x m k : Nat) :
    (x &&& m) >>> k = (x >>> k) &&& (m >>> k) := by
  apply Nat.eq_of_testBit_eq
  intro i
  simp [Nat.testBit_shiftRight, Nat.testBit_and]

/-- Masking with `n` ones starting at bit `k` and shifting down by `k` selects
the `n`-bit field at bit `k`. -/
theorem field_eq (x k n : Nat) :
    (x &&& ((2 ^ n - 1) <<< k)) >>> k = x / 2 ^ k % 2 ^ n := by
  rw [and_shiftRight_distrib, Nat.shiftLeft_eq, Nat.shiftRight_eq_div_pow,
    Nat.shiftRight_eq_div_pow, Nat.mul_div_cancel _ (Nat.two_pow_pos k),
    Nat.and_pow_two_sub_one_eq_mod]

theorem mask_low_zero (x k n : Nat) : (x &&& ((2 ^ n - 1) <<< k)) % 2 ^ k = 0 := by
  rw [← Nat.and_pow_two_sub_one_eq_mod, Nat.and_assoc]
  have h : ((2 ^ n - 1) <<< k) &&& (2 ^ k - 1) = 0 := by
    apply Nat.eq_of_testBit_eq
    intro i
    simp [Nat.testBit_shiftLeft]
    intro h1 _
    omega
  rw [h, Nat.and_zero]

/-- Masking with `n` ones starting at bit `k`, without the shift. -/
theorem mask_eq (x k n : Nat) :
    x &&& ((2 ^ n - 1) <<< k) = (x / 2 ^ k % 2 ^ n) * 2 ^ k := by
  have h1 := field_eq x k n
  have h2 := mask_low_zero x k n
  rw [Nat.shiftRight_eq_div_pow] at h1
  have h3 := Nat.div_add_mod (x &&& ((2 ^ n - 1) <<< k)) (2 ^ k)
  rw [h1, h2] at h3
  rw [← h3]; ring

/-- OR of a shifted value with a value below the shift is their sum. -/
theorem shl_or (a b k : Nat) (hb : b < 2 ^ k) : (a <<< k) ||| b = a * 2 ^ k + b := by
  rw [Nat.shiftLeft_eq, Nat.mul_comm, Nat.mul_add_lt_is_or hb]

theorem low8 (x : Nat) : (x &&& 0xFF) >>> 0 = x % 256 := by
  have := field_eq x 0 8
  simpa using this

theorem low12 (x : Nat) : (x &&& 0xFFF) >>> 0 = x % 4096 := by
  have := field_eq x 0 12
  simpa using this

theorem low12_mask (x : Nat) : x &&& 0xFFF = x % 4096 := by
  have := low12 x
  simpa using this

theorem low16 (x : Nat) : x &&& 0xFFFF = x % 65536 := by
  have := field_eq x 0 16
  simpa using this

theorem hours_field (x : Nat) : (x &&& 0x1F00) >>> 8 = x / 256 % 32 := by
  have := field_eq x 8 5
  simpa using this

theorem month_field (x : Nat) : (x &&& 0xF00) >>> 8 = x / 256 % 16 := by
  have := field_eq x 8 4
  simpa using this

theorem type_field (x : Nat) : x &&& 0xF000 = (x / 4096 % 16) * 4096 := by
  have := mask_eq x 12 4
  simpa using this

theorem bit11 (x : Nat) : x &&& 0x0800 = (x / 2048 % 2) * 2048 := by
  have := mask_eq x 11 1
  simpa using this

end BitLemmas

namespace BroadcastTimeDefs

open BitLemmas

theorem toSigned32_small (v : Nat) (h : v < 2 ^ 31) : CInt.toSigned 32 v = (v : Int) := by
  unfold CInt.toSigned
  have h1 : v % 2 ^ 32 = v := Nat.mod_eq_of_lt (by omega)
  rw [h1]
  simp only [Nat.add_one_sub_one]
  rw [if_pos (by omega)]

theorem event_to_min_eq (event : Nat) :
    event_to_min event = if event % 256 ≤ 59 then ((event % 256 : Nat) : Int) else -1 := by
  unfold event_to_min
  simp only [EVENT_MINUTES_MASK, EVENT_MINUTES_SHIFT, CInt.toUnsigned, low8]
  have h1 : event % 256 % 2 ^ 32 = event % 256 := Nat.mod_eq_of_lt (by omega)
  rw [h1]
  split
  · exact toSigned32_small _ (by omega)
  · rfl

theorem event_to_hour_eq (event : Nat) :
    event_to_hour event = ((event / 256 % 32 : Nat) : Int) := by
  unfold event_to_hour
  simp only [EVENT_HOURS_MASK, EVENT_HOURS_SHIFT, CInt.toUnsigned, hours_field]
  have h1 : event / 256 % 32 % 2 ^ 32 = event / 256 % 32 := Nat.mod_eq_of_lt (by omega)
  rw [h1, if_pos (by omega)]
  exact toSigned32_small _ (by omega)

theorem event_to_day_eq (event : Nat) :
    event_to_day event =
      if 1 ≤ event % 256 ∧ event % 256 ≤ 31 then ((event % 256 : Nat) : Int) else -1 := by
  unfold event_to_day
  simp only [EVENT_DAY_MASK, EVENT_DAY_SHIFT, CInt.toUnsigned, low8]
  have h1 : event % 256 % 2 ^ 32 = event % 256 := Nat.mod_eq_of_lt (by omega)
  rw [h1]
  simp only [ge_iff_le]
  split
  · exact toSigned32_small _ (by omega)
  · rfl

theorem event_to_month_eq (event : Nat) :
    event_to_month event =
      if 1 ≤ event / 256 % 16 ∧ event / 256 % 16 ≤ 12 then ((event / 256 % 16 : Nat) : Int)
      else -1 := by
  unfold event_to_month
  simp only [EVENT_MONTH_MASK, EVENT_MONTH_SHIFT, CInt.toUnsigned, month_field]
  have h1 : event / 256 % 16 % 2 ^ 32 = event / 256 % 16 := Nat.mod_eq_of_lt (by omega)
  rw [h1]
  simp only [ge_iff_le]
  split
  · exact toSigned32_small _ (by omega)
  · rfl

theorem event_to_year_eq (event : Nat) :
    event_to_year event = ((event % 4096 : Nat) : Int) := by
  unfold event_to_year
  simp only [EVENT_YEAR_MASK, EVENT_YEAR_SHIFT, low12]
  exact toSigned32_small _ (by omega)

theorem event_to_rate_eq (event : Nat) :
    event_to_rate event =
      if event % 4096 < 2048 then ((event % 4096 : Nat) : Int)
      else ((event % 4096 : Nat) : Int) - 4096 := by
  unfold event_to_rate
  simp only [EVENT_RATE_MASK, EVENT_RATE_SHIFT, CInt.toUnsigned, low12]
  have h1 : event % 4096 % 2 ^ 16 = event % 4096 := Nat.mod_eq_of_lt (by omega)
  rw [h1, bit11]
  by_cases hlt : event % 4096 < 2048
  · have h2 : event % 4096 / 2048 % 2 * 2048 = 0 := by omega
    rw [h2]
    simp only [ne_eq, not_true_eq_false, if_false, if_pos hlt]
    unfold CInt.toSigned
    rw [h1, if_pos (by omega)]
  · have h2 : event % 4096 / 2048 % 2 * 2048 ≠ 0 := by omega
    rw [if_pos h2, if_neg hlt]
    have h3 : (event % 4096) ||| 0xF000 = 0xF000 + event % 4096 := by
      have h4 := shl_or 15 (event % 4096) 12 (by omega)
      rw [Nat.or_comm]
      simpa [Nat.add_comm] using h4
    rw [h3]
    unfold CInt.toSigned
    have h5 : (0xF000 + event % 4096) % 2 ^ 16 % 2 ^ 16 = 0xF000 + event % 4096 := by omega
    rw [h5, if_neg (by omega)]
    push_cast
    omega

/-- An event `base | (f << 8) | m` whose three parts occupy disjoint bits (`m`
below bit 8, `f << 8 | m` below bit `K`, `base` from bit `K` upwards) is their
sum. -/
theorem field_event_eq (base f m K : Nat) (hlow : base % 2 ^ K = 0) (hm : m < 2 ^ 8)
    (hsum : f * 2 ^ 8 + m < 2 ^ K) : base ||| (f <<< 8) ||| m = base + f * 256 + m := by
  have h1 : (f <<< 8) ||| m = f * 2 ^ 8 + m := shl_or f m 8 hm
  have h2 : (base / 2 ^ K) <<< K = base := by
    rw [Nat.shiftLeft_eq]
    exact Nat.div_mul_cancel (Nat.dvd_of_mod_eq_zero hlow)
  rw [Nat.or_assoc, h1]
  conv_lhs => rw [← h2]
  rw [shl_or _ _ K hsum, ← Nat.shiftLeft_eq, h2]
  omega

/-- The classification of `get_event_type` in terms of the top nibble `n` and
the low twelve bits `l` of the suffix. -/
theorem get_event_type_eq (suffix : Nat) (hs : suffix < 2 ^ 16) :
    get_event_type suffix =
      (let n := suffix / 4096
       let l := suffix % 4096
       if n = 0 ∨ n = 1 then EventType.REPORT_TIME
       else if n = 2 then EventType.REPORT_DATE
       else if n = 3 then EventType.REPORT_YEAR
       else if n = 4 then EventType.REPORT_RATE
       else if n = 8 ∨ n = 9 then EventType.SET_TIME
       else if n = 10 then EventType.SET_DATE
       else if n = 11 then EventType.SET_YEAR
       else if n = 12 then EventType.SET_RATE
       else if n = 15 then
         (if l = 0 then EventType.QUERY
          else if l = 1 then EventType.STOP
          else if l = 2 then EventType.START
          else if l = 3 then EventType.DATE_ROLLOVER
          else EventType.UNDEFINED)
       else EventType.UNDEFINED) := by
  have hn : suffix / 4096 % 16 = suffix / 4096 := Nat.mod_eq_of_lt (by omega)
  simp only [get_event_type, EVENT_TYPE_MASK, type_field, low12_mask, hn]
  have e0 : (suffix / 4096 * 4096 = 0) = (suffix / 4096 = 0) := by apply propext; omega
  have e1 : (suffix / 4096 * 4096 = 0x1000) = (suffix / 4096 = 1) := by apply propext; omega
  have e2 : (suffix / 4096 * 4096 = 0x2000) = (suffix / 4096 = 2) := by apply propext; omega
  have e3 : (suffix / 4096 * 4096 = 0x3000) = (suffix / 4096 = 3) := by apply propext; omega
  have e4 : (suffix / 4096 * 4096 = 0x4000) = (suffix / 4096 = 4) := by apply propext; omega
  have e8 : (suffix / 4096 * 4096 = 0x8000) = (suffix / 4096 = 8) := by apply propext; omega
  have e9 : (suffix / 4096 * 4096 = 0x9000) = (suffix / 4096 = 9) := by apply propext; omega
  have e10 : (suffix / 4096 * 4096 = 0xA000) = (suffix / 4096 = 10) := by apply propext; omega
  have e11 : (suffix / 4096 * 4096 = 0xB000) = (suffix / 4096 = 11) := by apply propext; omega
  have e12 : (suffix / 4096 * 4096 = 0xC000) = (suffix / 4096 = 12) := by apply propext; omega
  have e15 : (suffix / 4096 * 4096 = 0xF000) = (suffix / 4096 = 15) := by apply propext; omega
  simp only [e0, e1, e2, e3, e4, e8, e9, e10, e11, e12, e15]

end BroadcastTimeDefs

/-! ## Broadcast Time codec: claims -/

namespace BroadcastTimeDefs

open BitLemmas

/-- C1: for every hour `h` in 0..23, minute `m` in 0..59 and 64-bit base id whose
low 16 bits are zero, the time event `base | (h << 8) | m` decodes back to its
inputs: `event_to_hour` gives `h` and `event_to_min` gives `m`. -/
theorem time_event_round_trip (base h m : Nat) (_hbase : base < 2 ^ 64)
    (hlow : base &&& EVENT_SUFFIX_MASK = 0) (hh : h ≤ 23) (hm : m ≤ 59) :
    event_to_hour (base ||| (h <<< 8) ||| m) = (h : Int) ∧
      event_to_min (base ||| (h <<< 8) ||| m) = (m : Int) := by
  have hl : base % 65536 = 0 := by
    rw [← low16]; exact hlow
  rw [field_event_eq base h m 16 hl (by omega) (by omega), event_to_hour_eq, event_to_min_eq]
  have h1 : (base + h * 256 + m) / 256 % 32 = h := by omega
  have h2 : (base + h * 256 + m) % 256 = m := by omega
  rw [h1, h2, if_pos hm]
  exact ⟨rfl, rfl⟩

theorem time_event_round_trip_witness :
    (0x0101000001000000 : Nat) < 2 ^ 64 ∧
      (0x0101000001000000 : Nat) &&& EVENT_SUFFIX_MASK = 0 ∧ (23 : Nat) ≤ 23 ∧ (59 : Nat) ≤ 59 ∧
      event_to_hour (0x0101000001000000 ||| (23 <<< 8) ||| 59) = ((23 : Nat) : Int) ∧
      event_to_min (0x0101000001000000 ||| (23 <<< 8) ||| 59) = ((59 : Nat) : Int) :=
  ⟨by decide, by decide, by decide, by decide,
    time_event_round_trip 0x0101000001000000 23 59 (by decide) (by decide) (by decide)
      (by decide)⟩

/-- C2: the code at the claim's input. A time event carrying 60 at the hours
position (`60 << 8`, with minute 0 or minute 30, with or without a clock id in
the upper 48 bits) makes `event_to_hour` return 28, not -1. -/
theorem event_to_hour_of_hour_60 :
    event_to_hour (60 <<< 8) = 28 ∧
      event_to_hour ((60 <<< 8) ||| 30) = 28 ∧
      event_to_hour (0x0101000001000000 ||| (60 <<< 8) ||| 30) = 28 ∧
      event_to_hour (60 <<< 8) ≠ -1 := by
  simp only [event_to_hour_eq]
  decide

/-- C3: for every 64-bit event, `event_to_rate` returns the two's-complement
value of the event's low 12 bits `r = event & 0xFFF`: `r` when `r < 2048` and
`r - 4096` otherwise; the result lies in -2048..2047 and is the same for every
event with the same low 12 bits; raw `0x800` decodes to -2048 and raw `0x001`
to 1. -/
theorem event_to_rate_twos_complement (event : Nat) (_hev : event < 2 ^ 64) :
    (event_to_rate event =
        if event &&& 0xFFF < 2048 then ((event &&& 0xFFF : Nat) : Int)
        else ((event &&& 0xFFF : Nat) : Int) - 4096) ∧
      (-2048 ≤ event_to_rate event ∧ event_to_rate event ≤ 2047) ∧
      (∀ other : Nat, other < 2 ^ 64 → other &&& 0xFFF = event &&& 0xFFF →
        event_to_rate other = event_to_rate event) ∧
      event_to_rate 0x800 = -2048 ∧ event_to_rate 0x001 = 1 := by
  refine ⟨?_, ?_, ?_, ?_, ?_⟩
  · rw [event_to_rate_eq, low12_mask]
  · rw [event_to_rate_eq]
    split <;> omega
  · intro other _ hsame
    rw [low12_mask, low12_mask] at hsame
    rw [event_to_rate_eq, event_to_rate_eq, hsame]
  · rw [event_to_rate_eq]; decide
  · rw [event_to_rate_eq]; decide

theorem event_to_rate_twos_complement_witness :
    (0x0101000001004FFF : Nat) < 2 ^ 64 ∧ event_to_rate 0x0101000001004FFF = -1 := by
  refine ⟨by decide, ?_⟩
  have h := (event_to_rate_twos_complement 0x0101000001004FFF (by decide)).1
  rw [h]
  decide

/-- C4: for every 16-bit suffix, `get_event_type` returns REPORT_TIME for top
nibble 0x0 or 0x1, REPORT_DATE for 0x2, REPORT_YEAR for 0x3, REPORT_RATE for
0x4, SET_TIME for 0x8 or 0x9, SET_DATE for 0xA, SET_YEAR for 0xB, SET_RATE for
0xC; for top nibble 0xF it returns QUERY, STOP, START, DATE_ROLLOVER when the
low 12 bits are 0, 1, 2, 3 and UNDEFINED for any other low 12 bits; and
UNDEFINED for the top nibbles 0x5, 0x6, 0x7, 0xD, 0xE. The constants
QUERY_EVENT_SUFFIX, STOP_EVENT_SUFFIX and START_EVENT_SUFFIX classify as QUERY,
STOP and START. -/
theorem get_event_type_table (suffix : Nat) (hs : suffix < 2 ^ 16) :
    (suffix >>> 12 = 0x0 ∨ suffix >>> 12 = 0x1 →
        get_event_type suffix = EventType.REPORT_TIME) ∧
      (suffix >>> 12 = 0x2 → get_event_type suffix = EventType.REPORT_DATE) ∧
      (suffix >>> 12 = 0x3 → get_event_type suffix = EventType.REPORT_YEAR) ∧
      (suffix >>> 12 = 0x4 → get_event_type suffix = EventType.REPORT_RATE) ∧
      (suffix >>> 12 = 0x8 ∨ suffix >>> 12 = 0x9 →
        get_event_type suffix = EventType.SET_TIME) ∧
      (suffix >>> 12 = 0xA → get_event_type suffix = EventType.SET_DATE) ∧
      (suffix >>> 12 = 0xB → get_event_type suffix = EventType.SET_YEAR) ∧
      (suffix >>> 12 = 0xC → get_event_type suffix = EventType.SET_RATE) ∧
      (suffix >>> 12 = 0xF →
        (suffix &&& 0xFFF = 0 → get_event_type suffix = EventType.QUERY) ∧
        (suffix &&& 0xFFF = 1 → get_event_type suffix = EventType.STOP) ∧
        (suffix &&& 0xFFF = 2 → get_event_type suffix = EventType.START) ∧
        (suffix &&& 0xFFF = 3 → get_event_type suffix = EventType.DATE_ROLLOVER) ∧
        (3 < suffix &&& 0xFFF → get_event_type suffix = EventType.UNDEFINED)) ∧
      (suffix >>> 12 = 0x5 ∨ suffix >>> 12 = 0x6 ∨ suffix >>> 12 = 0x7 ∨
          suffix >>> 12 = 0xD ∨ suffix >>> 12 = 0xE →
        get_event_type suffix = EventType.UNDEFINED) ∧
      get_event_type QUERY_EVENT_SUFFIX = EventType.QUERY ∧
      get_event_type STOP_EVENT_SUFFIX = EventType.STOP ∧
      get_event_type START_EVENT_SUFFIX = EventType.START := by
  have hsh : suffix >>> 12 = suffix / 4096 := by
    rw [Nat.shiftRight_eq_div_pow]
  rw [get_event_type_eq suffix hs, hsh, low12_mask]
  refine ⟨?_, ?_, ?_, ?_, ?_, ?_, ?_, ?_, ?_, ?_, ?_, ?_, ?_⟩
  · intro h; simp only [h, if_true]
  · intro h; simp [h]
  · intro h; simp [h]
  · intro h; simp [h]
  · intro h; rcases h with h | h <;> simp [h]
  · intro h; simp [h]
  · intro h; simp [h]
  · intro h; simp [h]
  · intro h
    refine ⟨?_, ?_, ?_, ?_, ?_⟩
    · intro hl; simp [h, hl]
    · intro hl; simp [h, hl]
    · intro hl; simp [h, hl]
    · intro hl; simp [h, hl]
    · intro hl
      have h0 : suffix % 4096 ≠ 0 := by omega
      have h1 : suffix % 4096 ≠ 1 := by omega
      have h2 : suffix % 4096 ≠ 2 := by omega
      have h3 : suffix % 4096 ≠ 3 := by omega
      simp [h, h0, h1, h2, h3]
  · intro h; rcases h with h | h | h | h | h <;> simp [h]
  · rw [get_event_type_eq _ (by decide)]; decide
  · rw [get_event_type_eq _ (by decide)]; decide
  · rw [get_event_type_eq _ (by decide)]; decide

theorem get_event_type_table_witness :
    (0xF003 : Nat) < 2 ^ 16 ∧ get_event_type 0xF003 = EventType.DATE_ROLLOVER :=
  ⟨by decide,
    ((get_event_type_table 0xF003 (by decide)).2.2.2.2.2.2.2.2.1 (by decide)).2.2.2.1
      (by decide)⟩

/-- C5: for every 64-bit event, `event_to_min` returns the low 8 bits of the
event when that value is at most 59 and -1 otherwise; a minute field of 60
yields -1, and the result is the same for every event with the same low 8
bits. -/
theorem event_to_min_range_check (event : Nat) (_hev : event < 2 ^ 64) :
    (event % 256 ≤ 59 → event_to_min event = ((event % 256 : Nat) : Int)) ∧
      (59 < event % 256 → event_to_min event = -1) ∧
      (event % 256 = 60 → event_to_min event = -1) ∧
      (∀ other : Nat, other < 2 ^ 64 → other % 256 = event % 256 →
        event_to_min other = event_to_min event) := by
  refine ⟨?_, ?_, ?_, ?_⟩
  · intro h; rw [event_to_min_eq, if_pos h]
  · intro h; rw [event_to_min_eq, if_neg (by omega)]
  · intro h; rw [event_to_min_eq, if_neg (by omega)]
  · intro other _ hsame
    rw [event_to_min_eq, event_to_min_eq, hsame]

theorem event_to_min_range_check_witness :
    (0x010100000100173C : Nat) < 2 ^ 64 ∧ event_to_min 0x010100000100173C = -1 :=
  ⟨by decide, (event_to_min_range_check 0x010100000100173C (by decide)).2.2.1 (by decide)⟩

/-- C6: for every 64-bit event, `event_to_day` returns the low 8 bits of the
event when that value lies in 1..31 and -1 otherwise, so a day field of 0 and
every day field in 32..255 yield -1. -/
theorem event_to_day_range_check (event : Nat) (_hev : event < 2 ^ 64) :
    (1 ≤ event % 256 ∧ event % 256 ≤ 31 →
        event_to_day event = ((event % 256 : Nat) : Int)) ∧
      (event % 256 = 0 → event_to_day event = -1) ∧
      (32 ≤ event % 256 → event_to_day event = -1) := by
  refine ⟨?_, ?_, ?_⟩
  · intro h; rw [event_to_day_eq, if_pos h]
  · intro h; rw [event_to_day_eq, if_neg (by omega)]
  · intro h; rw [event_to_day_eq, if_neg (by omega)]

theorem event_to_day_range_check_witness :
    (0x010100000100221F : Nat) < 2 ^ 64 ∧
      event_to_day 0x010100000100221F = (((0x010100000100221F : Nat) % 256 : Nat) : Int) :=
  ⟨by decide, (event_to_day_range_check 0x010100000100221F (by decide)).1 (by decide)⟩

/-- C7: for every 64-bit event, `event_to_month` returns bits 8..11 of the event
when that value lies in 1..12 and -1 otherwise, so month fields 0, 13, 14 and
15 yield -1; and for every month `mo` in 1..12 and day `d` in 1..31 the date
suffix `0x2000 | (mo << 8) | d` decodes to month `mo` and day `d`. -/
theorem event_to_month_range_check (event mo d : Nat) (_hev : event < 2 ^ 64)
    (hmo : 1 ≤ mo ∧ mo ≤ 12) (hd : 1 ≤ d ∧ d ≤ 31) :
    (1 ≤ event / 256 % 16 ∧ event / 256 % 16 ≤ 12 →
        event_to_month event = ((event / 256 % 16 : Nat) : Int)) ∧
      (event / 256 % 16 = 0 ∨ event / 256 % 16 = 13 ∨ event / 256 % 16 = 14 ∨
          event / 256 % 16 = 15 → event_to_month event = -1) ∧
      event_to_month (0x2000 ||| (mo <<< 8) ||| d) = (mo : Int) ∧
      event_to_day (0x2000 ||| (mo <<< 8) ||| d) = (d : Int) := by
  have henc : 0x2000 ||| (mo <<< 8) ||| d = 0x2000 + mo * 256 + d :=
    field_event_eq 0x2000 mo d 13 (by decide) (by omega) (by omega)
  refine ⟨?_, ?_, ?_, ?_⟩
  · intro h; rw [event_to_month_eq, if_pos h]
  · intro h; rw [event_to_month_eq, if_neg (by omega)]
  · have h1 : (0x2000 + mo * 256 + d) / 256 % 16 = mo := by omega
    rw [henc, event_to_month_eq, h1, if_pos hmo]
  · have h1 : (0x2000 + mo * 256 + d) % 256 = d := by omega
    rw [henc, event_to_day_eq, h1, if_pos hd]

theorem event_to_month_range_check_witness :
    (0x0101000001002D05 : Nat) < 2 ^ 64 ∧ ((1 : Nat) ≤ 12 ∧ (12 : Nat) ≤ 12) ∧
      ((1 : Nat) ≤ 31 ∧ (31 : Nat) ≤ 31) ∧
      event_to_month 0x0101000001002D05 = -1 ∧
      event_to_month (0x2000 ||| (12 <<< 8) ||| 31) = ((12 : Nat) : Int) ∧
      event_to_day (0x2000 ||| (12 <<< 8) ||| 31) = ((31 : Nat) : Int) :=
  have h := event_to_month_range_check 0x0101000001002D05 12 31 (by decide) (by decide)
    (by decide)
  ⟨by decide, by decide, by decide, h.2.1 (by decide), h.2.2.1, h.2.2.2⟩

/-- C8: for every 64-bit event, `event_to_year` returns exactly the low 12 bits of
the event (`event & 0xFFF`), a value in 0..4095; it never returns -1. -/
theorem event_to_year_low_12_bits (event : Nat) (_hev : event < 2 ^ 64) :
    event_to_year event = ((event &&& 0xFFF : Nat) : Int) ∧
      (0 ≤ event_to_year event ∧ event_to_year event ≤ 4095) ∧
      event_to_year event ≠ -1 := by
  rw [event_to_year_eq, low12_mask]
  refine ⟨rfl, ?_, ?_⟩ <;> omega

theorem event_to_year_low_12_bits_witness :
    (0x01010000010037E4 : Nat) < 2 ^ 64 ∧
      event_to_year 0x01010000010037E4 = (((0x01010000010037E4 : Nat) &&& 0xFFF : Nat) : Int) :=
  ⟨by decide, (event_to_year_low_12_bits 0x01010000010037E4 (by decide)).1⟩

end BroadcastTimeDefs

/-! ## `<algorithm>`: what the library routines guarantee -/

namespace StdAlgo

variable {D : Type}

theorem StrictWeakOrder.asymm {comp : D → D → Bool} (h : StrictWeakOrder comp) (a b : D)
    (hab : comp a b = true) : comp b a = false := by
  cases hba : comp b a with
  | false => rfl
  | true =>
    have := h.trans a b a hab hba
    rw [h.irrefl a] at this
    exact absurd this (by decide)

/-- In a strict weak ordering, an element ordered before `b` is ordered before
`c` or `c` is ordered before `b`. -/
theorem StrictWeakOrder.neg_trans {comp : D → D → Bool} (h : StrictWeakOrder comp)
    (a b c : D) (hab : comp a b = true) : comp a c = true ∨ comp c b = true := by
  cases hac : comp a c with
  | true => exact Or.inl rfl
  | false =>
    cases hcb : comp c b with
    | true => exact Or.inr rfl
    | false =>
      exfalso
      have hca : comp c a = false := by
        cases hca : comp c a with
        | false => rfl
        | true => rw [h.trans c a b hca hab] at hcb; exact absurd hcb (by decide)
      have hbc : comp b c = false := by
        cases hbc : comp b c with
        | false => rfl
        | true => rw [h.trans a b c hab hbc] at hac; exact absurd hac (by decide)
      have e1 : equiv comp a c = true := by simp [equiv, hac, hca]
      have e2 : equiv comp c b = true := by simp [equiv, hcb, hbc]
      have e3 := h.equiv_trans a c b e1 e2
      simp [equiv, hab] at e3

/-- The bisection loop finds the partition point of a partitioned range. -/
theorem bisect_partition (right : D → Bool) (l1 l2 : List D)
    (h1 : ∀ x ∈ l1, right x = true) (h2 : ∀ x ∈ l2, right x = false) :
    ∀ (fuel first len : Nat), first ≤ l1.length → l1.length ≤ first + len →
      first + len ≤ (l1 ++ l2).length → len ≤ fuel →
      bisect right (l1 ++ l2) fuel first len = l1.length := by
  intro fuel
  induction fuel with
  | zero =>
    intro first len hf hl _ hfuel
    simp only [bisect]
    omega
  | succ n ih =>
    intro first len hf hl hc hfuel
    simp only [bisect]
    by_cases hlen : len = 0
    · rw [if_pos hlen]; omega
    · rw [if_neg hlen]
      have hhalf : len >>> 1 = len / 2 := by
        rw [Nat.shiftRight_eq_div_pow, Nat.pow_one]
      simp only [hhalf, List.get?_eq_getElem?]
      have hmid : first + len / 2 < (l1 ++ l2).length := by omega
      by_cases hm : first + len / 2 < l1.length
      · rw [List.getElem?_append_left hm, List.getElem?_eq_getElem hm]
        simp only
        rw [if_pos (h1 _ (List.getElem_mem hm))]
        exact ih _ _ (by omega) (by omega) (by omega) (by omega)
      · have hm2 : first + len / 2 - l1.length < l2.length := by
          rw [List.length_append] at hmid; omega
        rw [List.getElem?_append_right (by omega), List.getElem?_eq_getElem hm2]
        simp only
        rw [if_neg (by rw [h2 _ (List.getElem_mem hm2)]; decide)]
        exact ih _ _ (by omega) (by omega) (by omega) (by omega)

/-- A sorted range is partitioned by every predicate that, once false, stays
false on all later elements. -/
theorem sorted_partitioned (comp : D → D → Bool) (p : D → Bool)
    (hmono : ∀ a b, comp b a = false → p a = false → p b = false) :
    ∀ c : List D, SortedBy comp c →
      ∃ l1 l2, c = l1 ++ l2 ∧ (∀ x ∈ l1, p x = true) ∧ (∀ x ∈ l2, p x = false) := by
  intro c
  induction c with
  | nil => intro _; exact ⟨[], [], rfl, by simp, by simp⟩
  | cons a t ih =>
    intro hs
    unfold SortedBy at hs
    rw [List.pairwise_cons] at hs
    cases hpa : p a with
    | true =>
      obtain ⟨l1, l2, ht, hl1, hl2⟩ := ih hs.2
      refine ⟨a :: l1, l2, by rw [ht]; rfl, ?_, hl2⟩
      intro x hx
      rcases List.mem_cons.mp hx with rfl | hx
      · exact hpa
      · exact hl1 x hx
    | false =>
      refine ⟨[], a :: t, rfl, by simp, ?_⟩
      intro x hx
      rcases List.mem_cons.mp hx with rfl | hx
      · exact hpa
      · exact hmono a x (hs.1 x hx) hpa

/-- On a sorted range `std::equal_range` splits the range into the elements
ordered before the key, the elements equivalent to it, and the elements the
key is ordered before. -/
theorem equal_range_sorted (comp : D → D → Bool) (hswo : StrictWeakOrder comp)
    (c : List D) (key : D) (hs : SortedBy comp c) :
    ∃ A B C, c = A ++ B ++ C ∧
      equal_range comp c key = (A.length, A.length + B.length) ∧
      (∀ x ∈ A, comp x key = true) ∧ (∀ x ∈ B, equiv comp x key = true) ∧
      (∀ x ∈ C, comp key x = true) := by
  have mono1 : ∀ a b, comp b a = false → (fun e => comp e key) a = false →
      (fun e => comp e key) b = false := by
    intro a b hba ha
    have ha1 : comp a key = false := ha
    show comp b key = false
    cases hb : comp b key with
    | false => rfl
    | true =>
      rcases hswo.neg_trans b key a hb with h | h
      · rw [hba] at h; exact absurd h (by decide)
      · rw [ha1] at h; exact absurd h (by decide)
  have mono2 : ∀ a b, comp b a = false → (fun e => !comp key e) a = false →
      (fun e => !comp key e) b = false := by
    intro a b hba ha
    simp only [Bool.not_eq_false_eq_eq_true] at ha ⊢
    rcases hswo.neg_trans key a b ha with h | h
    · exact h
    · rw [hba] at h; exact absurd h (by decide)
  obtain ⟨l1, l2, hc1, hl1, hl2⟩ := sorted_partitioned comp _ mono1 c hs
  obtain ⟨m1, m2, hc2, hm1r, hm2r⟩ := sorted_partitioned comp _ mono2 c hs
  have hm1 : ∀ x ∈ m1, comp key x = false := by
    intro x hx; simpa using hm1r x hx
  have hm2 : ∀ x ∈ m2, comp key x = true := by
    intro x hx; simpa using hm2r x hx
  have hlo : lower_bound comp c key = l1.length := by
    unfold lower_bound
    rw [hc1]
    exact bisect_partition _ l1 l2 hl1 hl2 _ 0 _ (by omega)
      (by rw [List.length_append]; omega) (by omega) (by omega)
  have hhi : upper_bound comp c key = m1.length := by
    unfold upper_bound
    rw [hc2]
    exact bisect_partition _ m1 m2 hm1r hm2r _ 0 _ (by omega)
      (by rw [List.length_append]; omega) (by omega) (by omega)
  have happ : l1 ++ l2 = m1 ++ m2 := by rw [← hc1, ← hc2]
  rcases List.append_eq_append_iff.mp happ with ⟨B, hB1, hB2⟩ | ⟨E, hE1, hE2⟩
  · refine ⟨l1, B, m2, ?_, ?_, hl1, ?_, hm2⟩
    · rw [hc2, hB1]
    · unfold equal_range
      rw [hlo, hhi, hB1, List.length_append]
    · intro x hx
      have hx1 : comp key x = false := hm1 x (by rw [hB1]; exact List.mem_append_right _ hx)
      have hx2 : comp x key = false := hl2 x (by rw [hB2]; exact List.mem_append_left _ hx)
      simp [equiv, hx1, hx2]
  · have hE : E = [] := by
      cases E with
      | nil => rfl
      | cons e t =>
        exfalso
        have he1 : comp e key = true := hl1 e (by rw [hE1]; simp)
        have he2 : comp key e = true := hm2 e (by rw [hE2]; simp)
        rw [hswo.asymm e key he1] at he2
        exact absurd he2 (by decide)
    subst hE
    simp only [List.append_nil, List.nil_append] at hE1 hE2
    refine ⟨l1, [], m2, ?_, ?_, hl1, by simp, hm2⟩
    · rw [hc2, hE1]; simp
    · unfold equal_range
      rw [hlo, hhi, hE1]; simp

/-- The elements designated by `std::equal_range` on a sorted range are the
elements of the range equivalent to the key, in their order of storage. -/
theorem equal_range_elems (comp : D → D → Bool) (hswo : StrictWeakOrder comp)
    (c : List D) (key : D) (hs : SortedBy comp c) :
    (equal_range comp c key).1 ≤ (equal_range comp c key).2 ∧
      (equal_range comp c key).2 ≤ c.length ∧
      (c.drop (equal_range comp c key).1).take
          ((equal_range comp c key).2 - (equal_range comp c key).1) =
        c.filter (fun e => equiv comp e key) := by
  obtain ⟨A, B, C, hc, hr, hA, hB, hC⟩ := equal_range_sorted comp hswo c key hs
  rw [hr]
  simp only
  refine ⟨by omega, ?_, ?_⟩
  · rw [hc]; simp only [List.length_append]; omega
  · have hfA : A.filter (fun e => equiv comp e key) = [] := by
      rw [List.filter_eq_nil_iff]
      intro x hx
      simp [equiv, hA x hx]
    have hfB : B.filter (fun e => equiv comp e key) = B := by
      rw [List.filter_eq_self]
      intro x hx
      exact hB x hx
    have hfC : C.filter (fun e => equiv comp e key) = [] := by
      rw [List.filter_eq_nil_iff]
      intro x hx
      simp [equiv, hC x hx]
    have hsub : A.length + B.length - A.length = B.length := by omega
    rw [hsub]
    conv_lhs => rw [hc, List.append_assoc, List.drop_left, List.take_left]
    conv_rhs => rw [hc, List.filter_append, List.filter_append, hfA, hfB, hfC]
    simp

/-- Insertion sort meets the contract of `std::sort`. -/
theorem insert_sorted_perm (comp : D → D → Bool) (x : D) (l : List D) :
    (insert_sorted comp x l).Perm (x :: l) := by
  induction l with
  | nil => exact List.Perm.refl _
  | cons y ys ih =>
    simp only [insert_sorted]
    split
    · exact List.Perm.refl _
    · exact (List.Perm.cons y ih).trans (List.Perm.swap x y ys)

theorem insert_sorted_sorted (comp : D → D → Bool) (hswo : StrictWeakOrder comp) (x : D)
    (l : List D) (hl : SortedBy comp l) : SortedBy comp (insert_sorted comp x l) := by
  induction l with
  | nil => simp [insert_sorted, SortedBy]
  | cons y ys ih =>
    unfold SortedBy at hl
    rw [List.pairwise_cons] at hl
    simp only [insert_sorted]
    cases hxy : comp x y with
    | true =>
      simp only [if_true]
      unfold SortedBy
      rw [List.pairwise_cons]
      refine ⟨?_, List.pairwise_cons.mpr hl⟩
      intro b hb
      rcases List.mem_cons.mp hb with rfl | hb
      · exact hswo.asymm x b hxy
      · cases hbx : comp b x with
        | false => rfl
        | true =>
          have := hswo.trans b x y hbx hxy
          rw [hl.1 b hb] at this
          exact absurd this (by decide)
    | false =>
      simp only [Bool.false_eq_true, if_false]
      unfold SortedBy
      rw [List.pairwise_cons]
      refine ⟨?_, ih hl.2⟩
      intro b hb
      rcases List.mem_cons.mp ((insert_sorted_perm comp x ys).subset hb) with rfl | hb
      · exact hxy
      · exact hl.1 b hb

theorem sort_contract (comp : D → D → Bool) (hswo : StrictWeakOrder comp) :
    SortContract sort comp := by
  intro l
  induction l with
  | nil => exact ⟨List.Perm.refl _, List.Pairwise.nil⟩
  | cons a t ih =>
    refine ⟨?_, ?_⟩
    · exact (insert_sorted_perm comp a _).trans (List.Perm.cons a ih.1)
    · exact insert_sorted_sorted comp hswo a _ ih.2

end StdAlgo

/-! ## `SortedListSet`: claims -/

namespace SortedListSet

open StdAlgo

variable {D : Type}

theorem foldl_insert (xs : List D) (s : SortedListSet D) :
    xs.foldl insert s =
      { container_ := s.container_ ++ xs, sortedCount_ := s.sortedCount_ } := by
  induction xs generalizing s with
  | nil => simp
  | cons x t ih => rw [List.foldl_cons, ih]; simp [insert]

theorem insert_all_eq (xs : List D) :
    insert_all xs = { container_ := xs, sortedCount_ := 0 } := by
  unfold insert_all
  rw [foldl_insert]
  simp [empty]

/-- After a run of inserts on an empty set, `lazy_init` leaves a sorted
permutation of the inserted elements. -/
theorem lazy_init_insert_all (sort : (D → D → Bool) → List D → List D) (CMP : D → D → Bool)
    (hsort : SortContract sort CMP) (xs : List D) :
    (lazy_init sort CMP (insert_all xs)).container_.Perm xs ∧
      SortedBy CMP (lazy_init sort CMP (insert_all xs)).container_ := by
  rw [insert_all_eq]
  unfold lazy_init
  by_cases h : (0 : Nat) ≠ xs.length
  · simp only [if_pos h]
    exact hsort xs
  · simp only [if_neg h]
    have hx : xs = [] := by
      cases xs with
      | nil => rfl
      | cons a t => simp at h
    subst hx
    exact ⟨List.Perm.refl _, List.Pairwise.nil⟩

theorem nat_less_swo : StrictWeakOrder nat_less := by
  refine ⟨?_, ?_, ?_⟩
  · intro a; simp [nat_less]
  · intro a b c; simp only [nat_less, decide_eq_true_eq]; omega
  · intro a b c
    simp only [equiv, nat_less, Bool.and_eq_true, Bool.not_eq_true', decide_eq_false_iff_not]
    omega

/-- C9: for every finite sequence `xs` of insert calls on an initially empty
SortedListSet and every key, `equal_range(key)` delimits a contiguous range
`[first, second)` of the container whose elements are exactly the stored
elements equivalent to the key under CMP, each with the multiplicity it was
inserted with; the multiset of elements in that range is the same for every
permutation of the insertion order. -/
theorem equal_range_after_inserts (sort : (D → D → Bool) → List D → List D)
    (CMP : D → D → Bool) (hsort : SortContract sort CMP) (hswo : StrictWeakOrder CMP)
    (xs : List D) (key : D) :
    (equal_range sort CMP (insert_all xs) key).2.1 ≤
        (equal_range sort CMP (insert_all xs) key).2.2 ∧
      (equal_range sort CMP (insert_all xs) key).2.2 ≤
        (equal_range sort CMP (insert_all xs) key).1.container_.length ∧
      (equal_range sort CMP (insert_all xs) key).1.container_.Perm xs ∧
      range_elems (equal_range sort CMP (insert_all xs) key).1.container_
          (equal_range sort CMP (insert_all xs) key).2 =
        (equal_range sort CMP (insert_all xs) key).1.container_.filter
          (fun e => equiv CMP e key) ∧
      (range_elems (equal_range sort CMP (insert_all xs) key).1.container_
          (equal_range sort CMP (insert_all xs) key).2).Perm
        (xs.filter (fun e => equiv CMP e key)) ∧
      ∀ ys : List D, ys.Perm xs →
        (range_elems (equal_range sort CMP (insert_all ys) key).1.container_
            (equal_range sort CMP (insert_all ys) key).2).Perm
          (range_elems (equal_range sort CMP (insert_all xs) key).1.container_
            (equal_range sort CMP (insert_all xs) key).2) := by
  have key_fact : ∀ zs : List D,
      (equal_range sort CMP (insert_all zs) key).2.1 ≤
          (equal_range sort CMP (insert_all zs) key).2.2 ∧
        (equal_range sort CMP (insert_all zs) key).2.2 ≤
          (equal_range sort CMP (insert_all zs) key).1.container_.length ∧
        (equal_range sort CMP (insert_all zs) key).1.container_.Perm zs ∧
        range_elems (equal_range sort CMP (insert_all zs) key).1.container_
            (equal_range sort CMP (insert_all zs) key).2 =
          (equal_range sort CMP (insert_all zs) key).1.container_.filter
            (fun e => equiv CMP e key) ∧
        (range_elems (equal_range sort CMP (insert_all zs) key).1.container_
            (equal_range sort CMP (insert_all zs) key).2).Perm
          (zs.filter (fun e => equiv CMP e key)) := by
    intro zs
    obtain ⟨hperm, hsorted⟩ := lazy_init_insert_all sort CMP hsort zs
    obtain ⟨h1, h2, h3⟩ := equal_range_elems CMP hswo _ key hsorted
    simp only [equal_range, range_elems]
    refine ⟨h1, h2, hperm, h3, ?_⟩
    rw [h3]
    exact hperm.filter _
  obtain ⟨h1, h2, h3, h4, h5⟩ := key_fact xs
  refine ⟨h1, h2, h3, h4, h5, ?_⟩
  intro ys hys
  exact ((key_fact ys).2.2.2.2.trans (hys.filter _)).trans h5.symm

theorem equal_range_after_inserts_witness :
    SortContract StdAlgo.sort nat_less ∧ StrictWeakOrder nat_less ∧
      range_elems (equal_range StdAlgo.sort nat_less (insert_all [3, 1, 2, 1]) 1).1.container_
          (equal_range StdAlgo.sort nat_less (insert_all [3, 1, 2, 1]) 1).2 =
        (equal_range StdAlgo.sort nat_less (insert_all [3, 1, 2, 1]) 1).1.container_.filter
          (fun e => equiv nat_less e 1) :=
  ⟨sort_contract nat_less nat_less_swo, nat_less_swo,
    (equal_range_after_inserts StdAlgo.sort nat_less (sort_contract nat_less nat_less_swo)
      nat_less_swo [3, 1, 2, 1] 1).2.2.2.1⟩

/-- C10: the code on a run that erases and then inserts between two lookups.
After inserting 1, 2, 3, calling `begin()`, erasing the first element and
inserting 0, the container is `[2, 3, 0]` with `sortedCount_ = 3`; the size test
of `lazy_init` passes, nothing is sorted, and the next `equal_range(0)` runs on
an unsorted container and returns the empty range `[0, 0)` although 0 is
stored; a fresh set holding the same three elements answers `[0, 1)`. -/
theorem lookup_after_erase_then_insert_not_sorted :
    erase_insert_run = { container_ := [2, 3, 0], sortedCount_ := 3 } ∧
      lazy_init StdAlgo.sort nat_less erase_insert_run = erase_insert_run ∧
      ¬ SortedBy nat_less (equal_range StdAlgo.sort nat_less erase_insert_run 0).1.container_ ∧
      (equal_range StdAlgo.sort nat_less erase_insert_run 0).2 = (0, 0) ∧
      range_elems (equal_range StdAlgo.sort nat_less erase_insert_run 0).1.container_
        (equal_range StdAlgo.sort nat_less erase_insert_run 0).2 = [] ∧
      0 ∈ (equal_range StdAlgo.sort nat_less erase_insert_run 0).1.container_ ∧
      (lower_bound StdAlgo.sort nat_less erase_insert_run 0).2 = 0 ∧
      (upper_bound StdAlgo.sort nat_less erase_insert_run 0).2 = 0 ∧
      equal_range StdAlgo.sort nat_less (insert_all [2, 3, 0]) 0 =
        ({ container_ := [0, 2, 3], sortedCount_ := 3 }, (0, 1)) := by
  unfold SortedBy
  decide

end SortedListSet

/-! ## `SortedListSet`: duplicates -/

namespace SortedListSet

open StdAlgo

/-- C11: a counterexample. Inserting the registry entry (handler 7, event 100,
tag 1) twice into an empty SortedListSet stores it twice, before and after the
next lookup sorts the container: the container has two identical entries. -/
theorem insert_same_entry_twice_stores_two_copies :
    (insert_all [({ handler := 7, event := 100, user_arg := 1 } : nmranet.EventRegistryEntry),
        { handler := 7, event := 100, user_arg := 1 }]).container_ =
      [{ handler := 7, event := 100, user_arg := 1 },
        { handler := 7, event := 100, user_arg := 1 }] ∧
      (begin StdAlgo.sort nmranet.entry_less
          (insert_all [({ handler := 7, event := 100, user_arg := 1 } :
              nmranet.EventRegistryEntry),
            { handler := 7, event := 100, user_arg := 1 }])).1.container_ =
        [{ handler := 7, event := 100, user_arg := 1 },
          { handler := 7, event := 100, user_arg := 1 }] ∧
      ¬ (begin StdAlgo.sort nmranet.entry_less
          (insert_all [({ handler := 7, event := 100, user_arg := 1 } :
              nmranet.EventRegistryEntry),
            { handler := 7, event := 100, user_arg := 1 }])).1.container_.Nodup := by
  decide

/-- C11, amended: after any sequence `xs` of insert calls the SortedListSet holds
exactly the inserted elements, each as many times as it was inserted; one more
insert of an element `d`, stored already or not, adds one more copy of `d`, and
the next lookup keeps every copy. -/
theorem insert_keeps_every_copy {D : Type} [DecidableEq D]
    (sort : (D → D → Bool) → List D → List D) (CMP : D → D → Bool)
    (hsort : SortContract sort CMP) (xs : List D) (d : D) :
    (insert_all xs).container_ = xs ∧
      (insert (insert_all xs) d).container_.count d =
        (insert_all xs).container_.count d + 1 ∧
      (insert (insert_all xs) d).container_.length = (insert_all xs).container_.length + 1 ∧
      (∀ a : D, (begin sort CMP (insert_all xs)).1.container_.count a = xs.count a) ∧
      (∀ a : D, (begin sort CMP (insert (insert_all xs) a)).1.container_.count a =
        xs.count a + 1) := by
  have h1 : (insert_all xs).container_ = xs := by rw [insert_all_eq]
  have h2 : ∀ a : D, insert (insert_all xs) a = insert_all (xs ++ [a]) := by
    intro a
    simp [insert_all, List.foldl_append]
  refine ⟨h1, ?_, ?_, ?_, ?_⟩
  · simp [insert, h1, List.count_append]
  · simp [insert, h1]
  · intro a
    exact (lazy_init_insert_all sort CMP hsort xs).1.count_eq a
  · intro a
    rw [h2 a]
    have := (lazy_init_insert_all sort CMP hsort (xs ++ [a])).1.count_eq a
    simp only [begin]
    rw [this, List.count_append]
    simp

end SortedListSet

namespace nmranet

theorem entry_less_swo : StdAlgo.StrictWeakOrder entry_less := by
  refine ⟨?_, ?_, ?_⟩
  · intro a; simp [entry_less]
  · intro a b c; simp only [entry_less, decide_eq_true_eq]; omega
  · intro a b c
    simp only [StdAlgo.equiv, entry_less, Bool.and_eq_true, Bool.not_eq_true',
      decide_eq_false_iff_not]
    omega

end nmranet

namespace SortedListSet

theorem insert_keeps_every_copy_witness :
    StdAlgo.SortContract StdAlgo.sort nmranet.entry_less ∧
      (insert
          (insert_all [({ handler := 7, event := 100, user_arg := 1 } :
            nmranet.EventRegistryEntry)])
          { handler := 7, event := 100, user_arg := 1 }).container_.count
          { handler := 7, event := 100, user_arg := 1 } =
        (insert_all [({ handler := 7, event := 100, user_arg := 1 } :
            nmranet.EventRegistryEntry)]).container_.count
          { handler := 7, event := 100, user_arg := 1 } + 1 :=
  ⟨StdAlgo.sort_contract _ nmranet.entry_less_swo,
    (insert_keeps_every_copy StdAlgo.sort nmranet.entry_less
      (StdAlgo.sort_contract _ nmranet.entry_less_swo)
      [{ handler := 7, event := 100, user_arg := 1 }]
      { handler := 7, event := 100, user_arg := 1 }).2.1⟩

end SortedListSet

/-! ## `MultiConfiguredConsumer`: registration -/

namespace nmranet

namespace MultiConfiguredConsumer

/-- The two entries the loop body registers for pin `i`, with the tags as the
code computes them. -/
theorem register_pin_entries (self : MultiConfiguredConsumer) (cfg : Nat → ConsumerConfig)
    (reg : EventRegistry) (i : Nat) :
    (self.register_pin cfg reg i).entries =
      reg.entries ++
        [{ handler := self.this_, event := (cfg i).event_off,
            user_arg := CInt.toUnsigned 32 (i * 2) },
          { handler := self.this_, event := (cfg i).event_on,
            user_arg := CInt.toUnsigned 32 (i * 2 + 1) }] := by
  simp [register_pin, EventRegistry.register_handler]

theorem foldl_register_pin (self : MultiConfiguredConsumer) (cfg : Nat → ConsumerConfig)
    (l : List Nat) (reg : EventRegistry) :
    (l.foldl (self.register_pin cfg) reg).entries =
      reg.entries ++ l.flatMap (fun i =>
        [{ handler := self.this_, event := (cfg i).event_off,
            user_arg := CInt.toUnsigned 32 (i * 2) },
          { handler := self.this_, event := (cfg i).event_on,
            user_arg := CInt.toUnsigned 32 (i * 2 + 1) }]) := by
  induction l generalizing reg with
  | nil => simp
  | cons a t ih =>
    rw [List.foldl_cons, ih, register_pin_entries]
    simp [List.flatMap_cons]

theorem flatMap_eq_of_mem {α β : Type} (l : List α) (f g : α → List β)
    (h : ∀ a ∈ l, f a = g a) : l.flatMap f = l.flatMap g := by
  induction l with
  | nil => rfl
  | cons a t ih =>
    rw [List.flatMap_cons, List.flatMap_cons, h a (List.mem_cons_self a t),
      ih (fun b hb => h b (List.mem_cons_of_mem a hb))]

/-- The entries `apply_configuration` registers, for at most `2 ^ 31` pins: the
tags `i * 2` and `i * 2 + 1` do not wrap. -/
theorem registered_entries_eq (self : MultiConfiguredConsumer) (cfg : Nat → ConsumerConfig)
    (hN : self.size_ ≤ 2 ^ 31) (reg : EventRegistry) :
    ((List.range self.size_).foldl (self.register_pin cfg) reg).entries =
      reg.entries ++ (List.range self.size_).flatMap (fun i =>
        [({ handler := self.this_, event := (cfg i).event_off, user_arg := 2 * i } :
            EventRegistryEntry),
          { handler := self.this_, event := (cfg i).event_on, user_arg := 2 * i + 1 }]) := by
  rw [foldl_register_pin]
  congr 1
  apply flatMap_eq_of_mem
  intro i hi
  have hi2 : i < self.size_ := List.mem_range.mp hi
  have h1 : CInt.toUnsigned 32 (i * 2) = 2 * i := by
    unfold CInt.toUnsigned; omega
  have h2 : CInt.toUnsigned 32 (i * 2 + 1) = 2 * i + 1 := by
    unfold CInt.toUnsigned; omega
  rw [h1, h2]

theorem mem_config_entries (this_ : Nat) (cfg : Nat → ConsumerConfig) (N : Nat)
    (e : EventRegistryEntry) :
    e ∈ (List.range N).flatMap (fun i =>
        [({ handler := this_, event := (cfg i).event_off, user_arg := 2 * i } :
            EventRegistryEntry),
          { handler := this_, event := (cfg i).event_on, user_arg := 2 * i + 1 }]) ↔
      ∃ i, i < N ∧
        (e = { handler := this_, event := (cfg i).event_off, user_arg := 2 * i } ∨
          e = { handler := this_, event := (cfg i).event_on, user_arg := 2 * i + 1 }) := by
  simp only [List.mem_flatMap, List.mem_range, List.mem_cons, List.mem_singleton,
    List.not_mem_nil, or_false]

theorem length_config_entries (this_ : Nat) (cfg : Nat → ConsumerConfig) (N : Nat) :
    ((List.range N).flatMap (fun i =>
        [({ handler := this_, event := (cfg i).event_off, user_arg := 2 * i } :
            EventRegistryEntry),
          { handler := this_, event := (cfg i).event_on, user_arg := 2 * i + 1 }])).length =
      2 * N := by
  induction N with
  | zero => rfl
  | succ n ih =>
    rw [List.range_succ, List.flatMap_append, List.length_append, ih]
    simp
    omega

theorem nodup_config_entries (this_ : Nat) (cfg : Nat → ConsumerConfig) (N : Nat) :
    ((List.range N).flatMap (fun i =>
        [({ handler := this_, event := (cfg i).event_off, user_arg := 2 * i } :
            EventRegistryEntry),
          { handler := this_, event := (cfg i).event_on, user_arg := 2 * i + 1 }])).Nodup := by
  induction N with
  | zero => exact List.nodup_nil
  | succ n ih =>
    rw [List.range_succ, List.flatMap_append, List.nodup_append]
    refine ⟨ih, ?_, ?_⟩
    · simp
    · intro a ha hb
      rw [mem_config_entries] at ha
      obtain ⟨i, hi, hae⟩ := ha
      simp only [List.flatMap_cons, List.flatMap_nil, List.append_nil, List.mem_cons,
        List.mem_singleton, List.not_mem_nil, or_false] at hb
      rcases hae with rfl | rfl <;> rcases hb with hb | hb <;>
        · injection hb with _ _ h3
          omega

theorem owned_config_entries (this_ : Nat) (cfg : Nat → ConsumerConfig) (N : Nat) :
    ((List.range N).flatMap (fun i =>
        [({ handler := this_, event := (cfg i).event_off, user_arg := 2 * i } :
            EventRegistryEntry),
          { handler := this_, event := (cfg i).event_on, user_arg := 2 * i + 1 }])).filter
        (fun e => decide (e.handler = this_)) =
      (List.range N).flatMap (fun i =>
        [({ handler := this_, event := (cfg i).event_off, user_arg := 2 * i } :
            EventRegistryEntry),
          { handler := this_, event := (cfg i).event_on, user_arg := 2 * i + 1 }]) := by
  rw [List.filter_eq_self]
  intro e he
  rw [mem_config_entries] at he
  obtain ⟨i, _, h | h⟩ := he <;> simp [h]

/-- The entries the handler owns after `apply_configuration`: those it owned
before (none of them after a reload) followed by the two per pin. -/
theorem owned_after_apply_configuration (self : MultiConfiguredConsumer)
    (cfg : Nat → ConsumerConfig) (initial_load : Bool) (done : Nat) (reg : EventRegistry)
    (hN : self.size_ ≤ 2 ^ 31) :
    (apply_configuration self cfg initial_load done reg).1.owned self.this_ =
      (if initial_load then reg.owned self.this_ else []) ++
        (List.range self.size_).flatMap (fun i =>
          [({ handler := self.this_, event := (cfg i).event_off, user_arg := 2 * i } :
              EventRegistryEntry),
            { handler := self.this_, event := (cfg i).event_on, user_arg := 2 * i + 1 }]) := by
  unfold apply_configuration EventRegistry.owned
  simp only
  rw [registered_entries_eq self cfg hN, List.filter_append, owned_config_entries]
  congr 1
  cases initial_load with
  | true => simp
  | false =>
    simp only [Bool.not_false, if_true, do_unregister, EventRegistry.unregister_handler]
    rw [List.filter_filter]
    simp

/-- C12: for every pin count `N = size_` (at most `2 ^ 31`, so that the tags do
not wrap) and every configuration, an initial-load `apply_configuration` on a
handler that owns no registry entries appends exactly `2 * N` entries to the
registry, all owned by this handler: for each pin index `i < N` one entry
(event_off(i), tag `2 * i`) and one entry (event_on(i), tag `2 * i + 1`), and no
other entry. -/
theorem initial_load_registers_two_entries_per_pin (self : MultiConfiguredConsumer)
    (cfg : Nat → ConsumerConfig) (done : Nat) (reg : EventRegistry)
    (hN : self.size_ ≤ 2 ^ 31) (hown : reg.owned self.this_ = []) :
    (apply_configuration self cfg true done reg).1.entries =
        reg.entries ++ (List.range self.size_).flatMap (fun i =>
          [({ handler := self.this_, event := (cfg i).event_off, user_arg := 2 * i } :
              EventRegistryEntry),
            { handler := self.this_, event := (cfg i).event_on, user_arg := 2 * i + 1 }]) ∧
      ((apply_configuration self cfg true done reg).1.owned self.this_).length =
        2 * self.size_ ∧
      ((apply_configuration self cfg true done reg).1.owned self.this_).Nodup ∧
      (∀ e : EventRegistryEntry,
        e ∈ (apply_configuration self cfg true done reg).1.owned self.this_ ↔
          ∃ i, i < self.size_ ∧
            (e = { handler := self.this_, event := (cfg i).event_off, user_arg := 2 * i } ∨
              e = { handler := self.this_, event := (cfg i).event_on,
                    user_arg := 2 * i + 1 })) := by
  have hown2 := owned_after_apply_configuration self cfg true done reg hN
  rw [hown] at hown2
  simp only [if_true, List.nil_append] at hown2
  rw [hown2]
  refine ⟨?_, length_config_entries _ _ _, nodup_config_entries _ _ _, ?_⟩
  · unfold apply_configuration
    simp only [Bool.not_true, Bool.false_eq_true, if_false]
    exact registered_entries_eq self cfg hN reg
  · intro e
    exact mem_config_entries _ _ _ e

theorem initial_load_registers_two_entries_per_pin_witness :
    (2 : Nat) ≤ 2 ^ 31 ∧
      EventRegistry.owned { entries := [{ handler := 3, event := 100, user_arg := 0 }] } 7 = [] ∧
      (apply_configuration { this_ := 7, node_ := 9, size_ := 2 } two_pin_config true 1
          { entries := [{ handler := 3, event := 100, user_arg := 0 }] }).1.entries =
        [{ handler := 3, event := 100, user_arg := 0 },
          { handler := 7, event := 101, user_arg := 0 },
          { handler := 7, event := 100, user_arg := 1 },
          { handler := 7, event := 201, user_arg := 2 },
          { handler := 7, event := 200, user_arg := 3 }] :=
  ⟨by decide, by decide,
    (initial_load_registers_two_entries_per_pin { this_ := 7, node_ := 9, size_ := 2 }
      two_pin_config 1 { entries := [{ handler := 3, event := 100, user_arg := 0 }] }
      (by decide) (by decide)).1.trans (by decide)⟩

/-- No entry of the handler matches an event id that is none of the configured
ones. -/
theorem matching_eq_nil (self : MultiConfiguredConsumer) (cfg : Nat → ConsumerConfig)
    (reg : EventRegistry) (ev : Nat)
    (hreg : reg.owned self.this_ = (List.range self.size_).flatMap (fun i =>
      [({ handler := self.this_, event := (cfg i).event_off, user_arg := 2 * i } :
          EventRegistryEntry),
        { handler := self.this_, event := (cfg i).event_on, user_arg := 2 * i + 1 }]))
    (hev : ∀ i, i < self.size_ → (cfg i).event_on ≠ ev ∧ (cfg i).event_off ≠ ev) :
    reg.matching self.this_ ev = [] := by
  unfold EventRegistry.matching
  rw [hreg, List.filter_eq_nil_iff]
  intro e he
  rw [mem_config_entries] at he
  obtain ⟨i, hi, h | h⟩ := he
  · simp [h, (hev i hi).2]
  · simp [h, (hev i hi).1]

/-- C13: for every old and new configuration, after an initial load followed by
`apply_configuration(initial_load = false)` the registry entries owned by the
handler are exactly the `2 * N` entries derived from the new configuration;
every remaining entry carries an event id of the new configuration, so no
entry matches an event id that occurs only in the old one, and delivering an
Event Report for such an id to the handler's matching entries changes no
pin. -/
theorem reload_leaves_only_new_entries (self : MultiConfiguredConsumer)
    (cfg_old cfg_new : Nat → ConsumerConfig) (done : Nat) (reg : EventRegistry)
    (hN : self.size_ ≤ 2 ^ 31) :
    (apply_configuration self cfg_new false done
          (apply_configuration self cfg_old true done reg).1).1.owned self.this_ =
        (List.range self.size_).flatMap (fun i =>
          [({ handler := self.this_, event := (cfg_new i).event_off, user_arg := 2 * i } :
              EventRegistryEntry),
            { handler := self.this_, event := (cfg_new i).event_on,
              user_arg := 2 * i + 1 }]) ∧
      (∀ e : EventRegistryEntry,
        e ∈ (apply_configuration self cfg_new false done
          (apply_configuration self cfg_old true done reg).1).1.owned self.this_ →
        ∃ i, i < self.size_ ∧
          (e.event = (cfg_new i).event_on ∨ e.event = (cfg_new i).event_off)) ∧
      (∀ ev : Nat,
        (∀ i, i < self.size_ → (cfg_new i).event_on ≠ ev ∧ (cfg_new i).event_off ≠ ev) →
        (apply_configuration self cfg_new false done
          (apply_configuration self cfg_old true done reg).1).1.matching self.this_ ev = [] ∧
        ∀ (pins : List Bool) (report : EventReport), report.event = ev →
          deliver_event_report self report done
            ((apply_configuration self cfg_new false done
              (apply_configuration self cfg_old true done reg).1).1.matching self.this_ ev)
            pins = some pins) := by
  have hown := owned_after_apply_configuration self cfg_new false done
    (apply_configuration self cfg_old true done reg).1 hN
  simp only [Bool.false_eq_true, if_false, List.nil_append] at hown
  refine ⟨hown, ?_, ?_⟩
  · intro e he
    rw [hown, mem_config_entries] at he
    obtain ⟨i, hi, h | h⟩ := he
    · exact ⟨i, hi, Or.inr (by rw [h])⟩
    · exact ⟨i, hi, Or.inl (by rw [h])⟩
  · intro ev hev
    have hnil := matching_eq_nil self cfg_new _ ev hown hev
    refine ⟨hnil, ?_⟩
    intro pins report _
    rw [hnil]
    rfl

theorem reload_leaves_only_new_entries_witness :
    (2 : Nat) ≤ 2 ^ 31 ∧
      (apply_configuration { this_ := 7, node_ := 9, size_ := 2 }
          (fun i => { event_on := 300 + 2 * i, event_off := 301 + 2 * i }) false 1
          (apply_configuration { this_ := 7, node_ := 9, size_ := 2 } two_pin_config true 1
            { entries := [] }).1).1.owned 7 =
        (List.range 2).flatMap (fun i =>
          [({ handler := 7, event := 301 + 2 * i, user_arg := 2 * i } : EventRegistryEntry),
            { handler := 7, event := 300 + 2 * i, user_arg := 2 * i + 1 }]) :=
  ⟨by decide,
    (reload_leaves_only_new_entries { this_ := 7, node_ := 9, size_ := 2 } two_pin_config
      (fun i => { event_on := 300 + 2 * i, event_off := 301 + 2 * i }) 1 { entries := [] }
      (by decide)).1⟩

/-- Delivering a report to entries that all match it and all designate pin `i`
with polarity `v` leaves pin `i` at `v` and the other pins as they were. -/
theorem deliver_event_report_same_pin (self : MultiConfiguredConsumer) (report : EventReport)
    (done i : Nat) (v : Bool) :
    ∀ (es : List EventRegistryEntry) (pins : List Bool), i < pins.length →
      (∀ e ∈ es, e.event = report.event ∧ e.user_arg >>> 1 = i ∧
        decide (e.user_arg &&& 1 ≠ 0) = v) →
      es ≠ [] → deliver_event_report self report done es pins = some (pins.set i v) := by
  intro es
  induction es with
  | nil => intro pins _ _ h; exact absurd rfl h
  | cons e t ih =>
    intro pins hi hall _
    obtain ⟨h1, h2, h3⟩ := hall e (List.mem_cons_self e t)
    have hstep : HandleEventReport self pins e report done =
        some [Effect.write i v, Effect.notify done] := by
      unfold HandleEventReport
      rw [if_neg (by simp [h1]), h2, if_pos hi, h3]
    simp only [deliver_event_report, hstep]
    have hrun : run_effects pins [Effect.write i v, Effect.notify done] = pins.set i v := by
      simp [run_effects, apply_effect]
    rw [hrun]
    cases t with
    | nil => rfl
    | cons e2 t2 =>
      rw [ih (pins.set i v) (by rw [List.length_set]; exact hi)
        (fun x hx => hall x (List.mem_cons_of_mem e hx)) (by simp), List.set_set]

/-- C14: for every configuration whose `2 * N` event ids are pairwise distinct
and every pin index `i < N` (with `N` at most `2 ^ 31` and a pin array of at
least `N` pins): after `apply_configuration`, by which the handler owns just
the entries of this configuration, delivering an Event Report for event_on(i)
to the handler's registry entries that match that event leaves pin `i` set to
true and every other pin unchanged, and a report for event_off(i) leaves pin
`i` set to false and every other pin unchanged; with the pins configured
(on = 100, off = 101) and (on = 200, off = 201), a report for 100 sets pin 0
true. -/
theorem event_report_sets_configured_pin (self : MultiConfiguredConsumer)
    (cfg : Nat → ConsumerConfig) (initial_load : Bool) (done : Nat) (reg : EventRegistry)
    (pins : List Bool) (i : Nat)
    (hN : self.size_ ≤ 2 ^ 31) (hpins : self.size_ ≤ pins.length)
    (hown : initial_load = true → reg.owned self.this_ = [])
    (hdist : ∀ j k, j < self.size_ → k < self.size_ →
      (cfg j).event_on ≠ (cfg k).event_off ∧
      (j ≠ k → (cfg j).event_on ≠ (cfg k).event_on ∧ (cfg j).event_off ≠ (cfg k).event_off))
    (hi : i < self.size_) :
    (∀ report : EventReport, report.event = (cfg i).event_on →
        deliver_event_report self report done
          ((apply_configuration self cfg initial_load done reg).1.matching self.this_
            report.event) pins = some (pins.set i true)) ∧
      (∀ report : EventReport, report.event = (cfg i).event_off →
        deliver_event_report self report done
          ((apply_configuration self cfg initial_load done reg).1.matching self.this_
            report.event) pins = some (pins.set i false)) ∧
      deliver_event_report { this_ := 7, node_ := 9, size_ := 2 }
          { event := 100, src_node := 5, dst_node := 0 } 1
          ((apply_configuration { this_ := 7, node_ := 9, size_ := 2 } two_pin_config true 1
            { entries := [] }).1.matching 7 100) [false, false] = some [true, false] := by
  have hownd := owned_after_apply_configuration self cfg initial_load done reg hN
  have hpre : (if initial_load = true then reg.owned self.this_ else []) = [] := by
    cases initial_load with
    | true => simp [hown rfl]
    | false => simp
  rw [hpre, List.nil_append] at hownd
  have hshift_off : ∀ j : Nat, (2 * j) >>> 1 = j := by
    intro j; rw [Nat.shiftRight_eq_div_pow]; omega
  have hshift_on : ∀ j : Nat, (2 * j + 1) >>> 1 = j := by
    intro j; rw [Nat.shiftRight_eq_div_pow]; omega
  have hbit_off : ∀ j : Nat, (2 * j) &&& 1 = 0 := by
    intro j; rw [Nat.and_one_is_mod]; omega
  have hbit_on : ∀ j : Nat, (2 * j + 1) &&& 1 = 1 := by
    intro j; rw [Nat.and_one_is_mod]; omega
  refine ⟨?_, ?_, by decide⟩
  · intro report hrep
    apply deliver_event_report_same_pin self report done i true _ pins (by omega)
    · intro e he
      unfold EventRegistry.matching at he
      rw [hownd, List.mem_filter, mem_config_entries] at he
      obtain ⟨⟨j, hj, hje⟩, hev⟩ := he
      have hev2 : e.event = (cfg i).event_on := by
        rw [← hrep]; exact of_decide_eq_true hev
      rcases hje with h | h
      · exfalso
        rw [h] at hev2
        exact (hdist i j hi hj).1 hev2.symm
      · have hji : j = i := by
          by_contra hne
          rw [h] at hev2
          exact ((hdist j i hj hi).2 hne).1 hev2
        subst hji
        rw [h]
        refine ⟨hrep.symm, hshift_on j, ?_⟩
        simp [hbit_on j]
    · intro hnil
      have hmem :
          ({ handler := self.this_, event := (cfg i).event_on, user_arg := 2 * i + 1 } :
            EventRegistryEntry) ∈
          (apply_configuration self cfg initial_load done reg).1.matching self.this_
            report.event := by
        unfold EventRegistry.matching
        rw [hownd, List.mem_filter, mem_config_entries]
        exact ⟨⟨i, hi, Or.inr rfl⟩, by simp [hrep]⟩
      rw [hnil] at hmem
      exact absurd hmem (List.not_mem_nil _)
  · intro report hrep
    apply deliver_event_report_same_pin self report done i false _ pins (by omega)
    · intro e he
      unfold EventRegistry.matching at he
      rw [hownd, List.mem_filter, mem_config_entries] at he
      obtain ⟨⟨j, hj, hje⟩, hev⟩ := he
      have hev2 : e.event = (cfg i).event_off := by
        rw [← hrep]; exact of_decide_eq_true hev
      rcases hje with h | h
      · have hji : j = i := by
          by_contra hne
          rw [h] at hev2
          exact ((hdist j i hj hi).2 hne).2 hev2
        subst hji
        rw [h]
        refine ⟨hrep.symm, hshift_off j, ?_⟩
        simp [hbit_off j]
      · exfalso
        rw [h] at hev2
        exact (hdist j i hj hi).1 hev2
    · intro hnil
      have hmem :
          ({ handler := self.this_, event := (cfg i).event_off, user_arg := 2 * i } :
            EventRegistryEntry) ∈
          (apply_configuration self cfg initial_load done reg).1.matching self.this_
            report.event := by
        unfold EventRegistry.matching
        rw [hownd, List.mem_filter, mem_config_entries]
        exact ⟨⟨i, hi, Or.inl rfl⟩, by simp [hrep]⟩
      rw [hnil] at hmem
      exact absurd hmem (List.not_mem_nil _)

theorem two_pin_config_distinct (j k : Nat) (hj : j < 2) (hk : k < 2) :
    (two_pin_config j).event_on ≠ (two_pin_config k).event_off ∧
      (j ≠ k → (two_pin_config j).event_on ≠ (two_pin_config k).event_on ∧
        (two_pin_config j).event_off ≠ (two_pin_config k).event_off) := by
  interval_cases j <;> interval_cases k <;> simp [two_pin_config]

theorem event_report_sets_configured_pin_witness :
    (2 : Nat) ≤ 2 ^ 31 ∧ (2 : Nat) ≤ [false, true].length ∧ (1 : Nat) < 2 ∧
      deliver_event_report { this_ := 7, node_ := 9, size_ := 2 }
          { event := 201, src_node := 5, dst_node := 0 } 1
          ((apply_configuration { this_ := 7, node_ := 9, size_ := 2 } two_pin_config true 1
            { entries := [] }).1.matching 7 201) [false, true] =
        some ([false, true].set 1 false) :=
  ⟨by decide, by decide, by decide,
    (event_report_sets_configured_pin { this_ := 7, node_ := 9, size_ := 2 } two_pin_config
      true 1 { entries := [] } [false, true] 1 (by decide) (by decide) (fun _ => rfl)
      two_pin_config_distinct (by decide)).2.1
      { event := 201, src_node := 5, dst_node := 0 } rfl⟩

/-- C15: a counterexample. With the two pins configured (on = 100, off = 101) and
(on = 200, off = 201), both reading clear, an Identify-Global request addressed
to the owning node (node 9) and dispatched once to each of the four entries
the handler registered yields four messages, not two. -/
theorem identify_global_two_pins_not_two_replies :
    (deliver_identify_global
          { MTI_PRODUCER_IDENTIFIED_VALID := 0x544, MTI_CONSUMER_IDENTIFIED_VALID := 0x4C4 }
          { this_ := 7, node_ := 9, size_ := 2 } [false, false]
          { event := 0, src_node := 5, dst_node := 9 } 1
          ((apply_configuration { this_ := 7, node_ := 9, size_ := 2 } two_pin_config true 1
            { entries := [] }).1.owned 7)).map (fun t => (messages t).length) = some 4 ∧
      (deliver_identify_global
          { MTI_PRODUCER_IDENTIFIED_VALID := 0x544, MTI_CONSUMER_IDENTIFIED_VALID := 0x4C4 }
          { this_ := 7, node_ := 9, size_ := 2 } [false, false]
          { event := 0, src_node := 5, dst_node := 9 } 1
          ((apply_configuration { this_ := 7, node_ := 9, size_ := 2 } two_pin_config true 1
            { entries := [] }).1.owned 7)).map (fun t => (messages t).length) ≠ some 2 := by
  decide

/-- C15, amended: with the two pins configured (on = 100, off = 101) and
(on = 200, off = 201), an Identify-Global request addressed to the owning node,
dispatched once to every registry entry the handler registered, yields exactly
four Consumer-Identified replies, one per registered entry: for the events
101, 100, 201 and 200, each with the state of its pin. -/
theorem identify_global_two_pins_four_replies (defs : Defs) (this_ node_ : Nat)
    (b0 b1 : Bool) (ev src done done0 : Nat) :
    deliver_identify_global defs { this_ := this_, node_ := node_, size_ := 2 } [b0, b1]
        { event := ev, src_node := src, dst_node := node_ } done
        ((apply_configuration { this_ := this_, node_ := node_, size_ := 2 } two_pin_config
          true done0 { entries := [] }).1.owned this_) =
      some [Effect.WriteAsync 3 node_
            (if b0 then defs.MTI_CONSUMER_IDENTIFIED_VALID
              else defs.MTI_CONSUMER_IDENTIFIED_VALID + 1) 101 done,
          Effect.WriteAsync 3 node_
            (if b0 then defs.MTI_CONSUMER_IDENTIFIED_VALID
              else defs.MTI_CONSUMER_IDENTIFIED_VALID + 1) 100 done,
          Effect.WriteAsync 3 node_
            (if b1 then defs.MTI_CONSUMER_IDENTIFIED_VALID
              else defs.MTI_CONSUMER_IDENTIFIED_VALID + 1) 201 done,
          Effect.WriteAsync 3 node_
            (if b1 then defs.MTI_CONSUMER_IDENTIFIED_VALID
              else defs.MTI_CONSUMER_IDENTIFIED_VALID + 1) 200 done] ∧
      (deliver_identify_global defs { this_ := this_, node_ := node_, size_ := 2 } [b0, b1]
          { event := ev, src_node := src, dst_node := node_ } done
          ((apply_configuration { this_ := this_, node_ := node_, size_ := 2 } two_pin_config
            true done0 { entries := [] }).1.owned this_)).map
        (fun t => (messages t).length) = some 4 := by
  have hown := owned_after_apply_configuration
    { this_ := this_, node_ := node_, size_ := 2 } two_pin_config true done0 { entries := [] }
    (show (2 : Nat) ≤ 2 ^ 31 by decide)
  have h0 : EventRegistry.owned { entries := [] } this_ = [] := rfl
  simp only [h0, if_true, List.nil_append] at hown
  rw [hown]
  have hr : List.range 2 = [0, 1] := rfl
  simp only [hr, List.flatMap_cons, List.flatMap_nil, List.append_nil, List.cons_append,
    List.nil_append, two_pin_config]
  cases b0 <;> cases b1 <;>
    simp [deliver_identify_global, HandleIdentifyGlobal, SendConsumerIdentified, is_clr,
      messages, Effect.is_message]

/-- C16: for every registry entry whose pin `user_arg >> 1` lies in the pin array,
`SendConsumerIdentified` emits exactly one message and nothing else: a
Consumer-Identified message carrying the entry's event id, with
`MTI_CONSUMER_IDENTIFIED_VALID` when the pin reads set (`is_clr()` is false) and
the next MTI value when it reads clear. -/
theorem send_consumer_identified_reports_pin (defs : Defs) (self : MultiConfiguredConsumer)
    (pins : List Bool) (entry : EventRegistryEntry) (done : Nat) (level : Bool)
    (hpin : pins.get? (entry.user_arg >>> 1) = some level) :
    (is_clr level = false →
        SendConsumerIdentified defs self pins entry done =
          some [Effect.WriteAsync 3 self.node_ defs.MTI_CONSUMER_IDENTIFIED_VALID
            entry.event done]) ∧
      (is_clr level = true →
        SendConsumerIdentified defs self pins entry done =
          some [Effect.WriteAsync 3 self.node_ (defs.MTI_CONSUMER_IDENTIFIED_VALID + 1)
            entry.event done]) ∧
      (SendConsumerIdentified defs self pins entry done).map
        (fun t => ((messages t).length, t.length)) = some (1, 1) := by
  unfold SendConsumerIdentified
  rw [hpin]
  cases level <;> simp [is_clr, messages, Effect.is_message]

theorem send_consumer_identified_reports_pin_witness :
    [false, true].get? ((3 : Nat) >>> 1) = some true ∧
      SendConsumerIdentified
          { MTI_PRODUCER_IDENTIFIED_VALID := 0x544, MTI_CONSUMER_IDENTIFIED_VALID := 0x4C4 }
          { this_ := 7, node_ := 9, size_ := 2 } [false, true]
          { handler := 7, event := 200, user_arg := 3 } 1 =
        some [Effect.WriteAsync 3 9 0x4C4 200 1] :=
  ⟨by decide,
    (send_consumer_identified_reports_pin
      { MTI_PRODUCER_IDENTIFIED_VALID := 0x544, MTI_CONSUMER_IDENTIFIED_VALID := 0x4C4 }
      { this_ := 7, node_ := 9, size_ := 2 } [false, true]
      { handler := 7, event := 200, user_arg := 3 } 1 true (by decide)).1 (by decide)⟩

/-- C17: `HandleIdentifyGlobal` emits no message and only notifies the completion
handle when the report carries a destination node (non-null) different from
the handler's node; when the destination is absent (null) or equals the
handler's node it emits exactly one Consumer-Identified message for the entry
(whose pin lies in the pin array) and does nothing else. -/
theorem handle_identify_global_filters_destination (defs : Defs)
    (self : MultiConfiguredConsumer) (pins : List Bool) (entry : EventRegistryEntry)
    (event : EventReport) (done : Nat) (level : Bool)
    (hpin : pins.get? (entry.user_arg >>> 1) = some level) :
    (event.dst_node ≠ 0 ∧ event.dst_node ≠ self.node_ →
        HandleIdentifyGlobal defs self pins entry event done = some [Effect.notify done] ∧
        (HandleIdentifyGlobal defs self pins entry event done).map messages = some []) ∧
      (event.dst_node = 0 ∨ event.dst_node = self.node_ →
        HandleIdentifyGlobal defs self pins entry event done =
          some [Effect.WriteAsync 3 self.node_
            (if is_clr level then defs.MTI_CONSUMER_IDENTIFIED_VALID + 1
              else defs.MTI_CONSUMER_IDENTIFIED_VALID) entry.event done]) := by
  refine ⟨?_, ?_⟩
  · intro h
    unfold HandleIdentifyGlobal
    rw [if_pos h]
    exact ⟨rfl, rfl⟩
  · intro h
    unfold HandleIdentifyGlobal
    rw [if_neg (by omega)]
    unfold SendConsumerIdentified
    rw [hpin]

theorem handle_identify_global_filters_destination_witness :
    [false, true].get? ((3 : Nat) >>> 1) = some true ∧
      HandleIdentifyGlobal
          { MTI_PRODUCER_IDENTIFIED_VALID := 0x544, MTI_CONSUMER_IDENTIFIED_VALID := 0x4C4 }
          { this_ := 7, node_ := 9, size_ := 2 } [false, true]
          { handler := 7, event := 200, user_arg := 3 }
          { event := 0, src_node := 5, dst_node := 4 } 1 = some [Effect.notify 1] :=
  ⟨by decide,
    ((handle_identify_global_filters_destination
      { MTI_PRODUCER_IDENTIFIED_VALID := 0x544, MTI_CONSUMER_IDENTIFIED_VALID := 0x4C4 }
      { this_ := 7, node_ := 9, size_ := 2 } [false, true]
      { handler := 7, event := 200, user_arg := 3 }
      { event := 0, src_node := 5, dst_node := 4 } 1 true (by decide)).1 (by decide)).1⟩

end MultiConfiguredConsumer

end nmranet

/-! ## `CallbackEventHandler` -/

namespace nmranet

namespace CallbackEventHandler

/-- The test `user_arg & IS_PRODUCER` succeeds exactly when bit 31 is set. -/
theorem and_is_producer (user_arg : Nat) :
    (user_arg &&& IS_PRODUCER ≠ 0) ↔ user_arg.testBit 31 = true := by
  have h : IS_PRODUCER = 2 ^ 31 := by decide
  rw [h, Nat.and_two_pow]
  cases user_arg.testBit 31 <;> simp

/-- The test `user_arg & IS_CONSUMER` succeeds exactly when bit 30 is set. -/
theorem and_is_consumer (user_arg : Nat) :
    (user_arg &&& IS_CONSUMER ≠ 0) ↔ user_arg.testBit 30 = true := by
  have h : IS_CONSUMER = 2 ^ 30 := by decide
  rw [h, Nat.and_two_pow]
  cases user_arg.testBit 30 <;> simp

/-- C18: for every registry entry, the identify replies of CallbackEventHandler
are gated by the role bits of the entry. `HandleIdentifyGlobal` sends a
Producer-Identified message iff IS_PRODUCER (bit 31 of `user_arg`) is set and a
Consumer-Identified message iff IS_CONSUMER (bit 30) is set, both when both are
set and none when neither is; `HandleIdentifyProducer` sends one
Producer-Identified iff IS_PRODUCER is set and `HandleIdentifyConsumer` one
Consumer-Identified iff IS_CONSUMER is set; every message carries the entry's
event id and, added to the VALID message type, the state returned by the
state handler. -/
theorem identify_replies_gated_by_role_bits (defs : Defs) (self : CallbackEventHandler)
    (entry : EventRegistryEntry) (event : EventReport) (done : Nat) :
    messages (HandleIdentifyGlobal defs self entry event done) =
        (if entry.user_arg.testBit 31 then
            [Effect.WriteAsync 1 self.node_
              (defs.MTI_PRODUCER_IDENTIFIED_VALID + self.stateHandler_ entry event)
              entry.event done]
          else []) ++
        (if entry.user_arg.testBit 30 then
            [Effect.WriteAsync 3 self.node_
              (defs.MTI_CONSUMER_IDENTIFIED_VALID + self.stateHandler_ entry event)
              entry.event done]
          else []) ∧
      messages (HandleIdentifyProducer defs self entry event done) =
        (if entry.user_arg.testBit 31 then
            [Effect.WriteAsync 1 self.node_
              (defs.MTI_PRODUCER_IDENTIFIED_VALID + self.stateHandler_ entry event)
              entry.event done]
          else []) ∧
      messages (HandleIdentifyConsumer defs self entry event done) =
        (if entry.user_arg.testBit 30 then
            [Effect.WriteAsync 3 self.node_
              (defs.MTI_CONSUMER_IDENTIFIED_VALID + self.stateHandler_ entry event)
              entry.event done]
          else []) := by
  have hp := and_is_producer entry.user_arg
  have hc := and_is_consumer entry.user_arg
  unfold HandleIdentifyGlobal HandleIdentifyProducer HandleIdentifyConsumer
  refine ⟨?_, ?_, ?_⟩
  · cases h31 : entry.user_arg.testBit 31 <;> cases h30 : entry.user_arg.testBit 30 <;>
      simp [h31, h30] at hp hc <;>
      simp [hp, hc, messages, Effect.is_message, SendProducerIdentified,
        SendConsumerIdentified]
  · cases h31 : entry.user_arg.testBit 31 <;>
      simp [h31] at hp <;>
      simp [hp, messages, Effect.is_message, SendProducerIdentified]
  · cases h30 : entry.user_arg.testBit 30 <;>
      simp [h30] at hc <;>
      simp [hc, messages, Effect.is_message, SendConsumerIdentified]

/-- C19: a counterexample. With a report handler that notifies the completion
handle it receives once, `HandleEventReport` leaves the handle notified twice:
once by the report handler and once by `HandleEventReport` itself. -/
theorem handle_event_report_notifying_handler_notifies_twice :
    notify_count 1
        (HandleEventReport
          { this_ := 7, node_ := 9,
            reportHandler_ := fun _ _ done => [Effect.notify done],
            stateHandler_ := fun _ _ => 0 }
          { handler := 7, event := 100, user_arg := 0 }
          { event := 100, src_node := 5, dst_node := 0 } 1) = 2 ∧
      notify_count 1
        (HandleEventReport
          { this_ := 7, node_ := 9,
            reportHandler_ := fun _ _ done => [Effect.notify done],
            stateHandler_ := fun _ _ => 0 }
          { handler := 7, event := 100, user_arg := 0 }
          { event := 100, src_node := 5, dst_node := 0 } 1) ≠ 1 := by
  decide

/-- C19, amended: `HandleEventReport` notifies the completion handle once more
than the report handler did. The handle is notified exactly once in total
when the report handler leaves it un-notified, which is what the adapter
asks of report handlers, and twice when the report handler notifies it
once. -/
theorem handle_event_report_notify_count (self : CallbackEventHandler)
    (entry : EventRegistryEntry) (event : EventReport) (done : Nat) :
    notify_count done (HandleEventReport self entry event done) =
      notify_count done (self.reportHandler_ entry event done) + 1 := by
  unfold HandleEventReport notify_count
  rw [List.count_append]
  simp

/-- C20: for every entry and report, `HandleEventReport` runs the report handler
once, on the same entry, report and completion handle it was given, and then
notifies the handle once itself; with a report handler that does not notify
the handle, the handle is left notified exactly once. -/
theorem handle_event_report_calls_handler_then_notifies (self : CallbackEventHandler)
    (entry : EventRegistryEntry) (event : EventReport) (done : Nat)
    (hquiet : notify_count done (self.reportHandler_ entry event done) = 0) :
    HandleEventReport self entry event done =
        self.reportHandler_ entry event done ++ [Effect.notify done] ∧
      (HandleEventReport self entry event done).getLast? = some (Effect.notify done) ∧
      (HandleEventReport self entry event done).length =
        (self.reportHandler_ entry event done).length + 1 ∧
      notify_count done (HandleEventReport self entry event done) = 1 := by
  refine ⟨rfl, ?_, ?_, ?_⟩
  · unfold HandleEventReport
    simp
  · unfold HandleEventReport
    simp
  · unfold HandleEventReport notify_count at *
    rw [List.count_append, hquiet]
    simp

theorem handle_event_report_calls_handler_then_notifies_witness :
    notify_count 1 [Effect.new_child 1, Effect.WriteAsync 1 9 0x544 100 1] = 0 ∧
      notify_count 1
        (HandleEventReport
          { this_ := 7, node_ := 9,
            reportHandler_ := fun _ _ done =>
              [Effect.new_child done, Effect.WriteAsync 1 9 0x544 100 done],
            stateHandler_ := fun _ _ => 0 }
          { handler := 7, event := 100, user_arg := 0 }
          { event := 100, src_node := 5, dst_node := 0 } 1) = 1 :=
  ⟨by decide,
    (handle_event_report_calls_handler_then_notifies
      { this_ := 7, node_ := 9,
        reportHandler_ := fun _ _ done =>
          [Effect.new_child done, Effect.WriteAsync 1 9 0x544 100 done],
        stateHandler_ := fun _ _ => 0 }
      { handler := 7, event := 100, user_arg := 0 }
      { event := 100, src_node := 5, dst_node := 0 } 1 (by decide)).2.2.2⟩

end CallbackEventHandler

end nmranet

/-! ## Handlers: relevance, completion handles and pin writes -/

namespace nmranet

namespace CallbackEventHandler

/-- C21: the code at an Identify-Global request addressed to another node. The
handler of node 9, for an entry with both role bits set, given a report whose
destination node 4 is present and differs from node 9, sends a
Producer-Identified and a Consumer-Identified message; for an entry with only
IS_PRODUCER set it sends the Producer-Identified message. No destination test
is made. -/
theorem handle_identify_global_ignores_destination :
    messages
        (HandleIdentifyGlobal
          { MTI_PRODUCER_IDENTIFIED_VALID := 0x544, MTI_CONSUMER_IDENTIFIED_VALID := 0x4C4 }
          { this_ := 7, node_ := 9, reportHandler_ := fun _ _ _ => [],
            stateHandler_ := fun _ _ => 0 }
          { handler := 7, event := 100, user_arg := IS_PRODUCER ||| IS_CONSUMER }
          { event := 0, src_node := 5, dst_node := 4 } 1) =
      [Effect.WriteAsync 1 9 0x544 100 1, Effect.WriteAsync 3 9 0x4C4 100 1] ∧
      messages
        (HandleIdentifyGlobal
          { MTI_PRODUCER_IDENTIFIED_VALID := 0x544, MTI_CONSUMER_IDENTIFIED_VALID := 0x4C4 }
          { this_ := 7, node_ := 9, reportHandler_ := fun _ _ _ => [],
            stateHandler_ := fun _ _ => 0 }
          { handler := 7, event := 100, user_arg := IS_PRODUCER }
          { event := 0, src_node := 5, dst_node := 4 } 1) =
      [Effect.WriteAsync 1 9 0x544 100 1] := by
  decide

end CallbackEventHandler

namespace SNIPHandler

/-- C22: for every inbound identify-info request handled by SNIPHandler, the
flow ends. If the message has no destination node, the handler releases the
message and sends no reply; otherwise it obtains a buffer of the response
flow, sends exactly one reply, built from the SNIP_RESPONSE field list with
message type MTI_IDENT_INFO_REPLY, and then releases the message. -/
theorem snip_request_one_reply_or_release (defs : SnipDefs) (self : SNIPHandler)
    (nmsg : NMRAnetMessage) (fuel : Nat) (hfuel : 2 ≤ fuel) :
    (nmsg.dstNode = 0 →
        run defs self nmsg fuel State.entry = some [FlowEffect.release nmsg]) ∧
      (nmsg.dstNode ≠ 0 →
        run defs self nmsg fuel State.entry =
          some [FlowEffect.allocate self.responseFlow_,
            FlowEffect.send self.responseFlow_ nmsg defs.SNIP_RESPONSE
              defs.MTI_IDENT_INFO_REPLY,
            FlowEffect.release nmsg]) ∧
      (run defs self nmsg fuel State.entry).map (fun t => (t.filter FlowEffect.is_send).length) =
        some (if nmsg.dstNode = 0 then 0 else 1) := by
  obtain ⟨n, rfl⟩ : ∃ n, fuel = n + 2 := ⟨fuel - 2, by omega⟩
  by_cases h : nmsg.dstNode = 0
  · simp [run, call_state, entry, h, FlowEffect.is_send]
  · simp [run, call_state, entry, send_response_request, h, FlowEffect.is_send]

theorem snip_request_one_reply_or_release_witness :
    (2 : Nat) ≤ 2 ∧
      run { MTI_IDENT_INFO_REPLY := 0x0A08, SNIP_RESPONSE := [1, 2, 3] } { responseFlow_ := 11 }
          { src := 5, dstNode := 9, mti := 0x0DE8 } 2 State.entry =
        some [FlowEffect.allocate 11,
          FlowEffect.send 11 { src := 5, dstNode := 9, mti := 0x0DE8 } [1, 2, 3] 0x0A08,
          FlowEffect.release { src := 5, dstNode := 9, mti := 0x0DE8 }] :=
  ⟨by decide,
    (snip_request_one_reply_or_release
      { MTI_IDENT_INFO_REPLY := 0x0A08, SNIP_RESPONSE := [1, 2, 3] } { responseFlow_ := 11 }
      { src := 5, dstNode := 9, mti := 0x0DE8 } 2 (by decide)).2.1 (by decide)⟩

end SNIPHandler

namespace MultiConfiguredConsumer

/-- C23: for every registry entry and event report, `HandleEventReport`: if the
report's event equals the entry's event (and the pin `user_arg >> 1` lies in
the pin array), writes the boolean `(user_arg & 1) != 0` to pin number
`user_arg >> 1` and writes no other pin; if the events differ, writes no pin at
all. Handling the same matching report twice leaves the pins in the same
state as handling it once. -/
theorem handle_event_report_writes_one_pin (self : MultiConfiguredConsumer)
    (pins : List Bool) (entry : EventRegistryEntry) (event : EventReport) (done : Nat) :
    (event.event = entry.event → entry.user_arg >>> 1 < pins.length →
        HandleEventReport self pins entry event done =
          some [Effect.write (entry.user_arg >>> 1) (decide (entry.user_arg &&& 1 ≠ 0)),
            Effect.notify done] ∧
        run_effects pins
            [Effect.write (entry.user_arg >>> 1) (decide (entry.user_arg &&& 1 ≠ 0)),
              Effect.notify done] =
          pins.set (entry.user_arg >>> 1) (decide (entry.user_arg &&& 1 ≠ 0)) ∧
        (pins.set (entry.user_arg >>> 1) (decide (entry.user_arg &&& 1 ≠ 0))).get?
            (entry.user_arg >>> 1) = some (decide (entry.user_arg &&& 1 ≠ 0)) ∧
        (∀ j : Nat, j ≠ entry.user_arg >>> 1 →
          (pins.set (entry.user_arg >>> 1) (decide (entry.user_arg &&& 1 ≠ 0))).get? j =
            pins.get? j) ∧
        deliver_event_report self event done [entry, entry] pins =
          deliver_event_report self event done [entry] pins) ∧
      (event.event ≠ entry.event →
        HandleEventReport self pins entry event done = some [Effect.notify done] ∧
        run_effects pins [Effect.notify done] = pins) := by
  refine ⟨?_, ?_⟩
  · intro hev hpin
    have hstep : ∀ ps : List Bool, entry.user_arg >>> 1 < ps.length →
        HandleEventReport self ps entry event done =
          some [Effect.write (entry.user_arg >>> 1) (decide (entry.user_arg &&& 1 ≠ 0)),
            Effect.notify done] := by
      intro ps hps
      unfold HandleEventReport
      rw [if_neg (by simp [hev]), if_pos hps]
    have hrun : ∀ ps : List Bool, run_effects ps
        [Effect.write (entry.user_arg >>> 1) (decide (entry.user_arg &&& 1 ≠ 0)),
          Effect.notify done] =
        ps.set (entry.user_arg >>> 1) (decide (entry.user_arg &&& 1 ≠ 0)) := by
      intro ps
      simp [run_effects, apply_effect]
    refine ⟨hstep pins hpin, hrun pins, ?_, ?_, ?_⟩
    · simp [List.getElem?_set, hpin]
    · intro j hj
      simp [List.getElem?_set, Ne.symm hj]
    · simp only [deliver_event_report, hstep pins hpin, hrun pins]
      rw [hstep _ (by rw [List.length_set]; exact hpin)]
      simp only [hrun, List.set_set]
  · intro hev
    unfold HandleEventReport
    rw [if_pos hev]
    exact ⟨rfl, rfl⟩

theorem handle_event_report_writes_one_pin_witness :
    (3 : Nat) >>> 1 < [false, false].length ∧
      HandleEventReport { this_ := 7, node_ := 9, size_ := 2 } [false, false]
          { handler := 7, event := 200, user_arg := 3 }
          { event := 200, src_node := 5, dst_node := 0 } 1 =
        some [Effect.write ((3 : Nat) >>> 1) (decide ((3 : Nat) &&& 1 ≠ 0)), Effect.notify 1] :=
  ⟨by decide,
    ((handle_event_report_writes_one_pin { this_ := 7, node_ := 9, size_ := 2 } [false, false]
      { handler := 7, event := 200, user_arg := 3 }
      { event := 200, src_node := 5, dst_node := 0 } 1).1 rfl (by decide)).1⟩

/-- `SendConsumerIdentified`, when the pin lies in the pin array, hands the
handle to one send and does nothing else. -/
theorem send_consumer_identified_shape (defs : Defs) (self : MultiConfiguredConsumer)
    (pins : List Bool) (entry : EventRegistryEntry) (done : Nat) (t : List Effect)
    (h : SendConsumerIdentified defs self pins entry done = some t) :
    notify_count done t = 0 ∧ send_count done t = 1 ∧ (messages t).length = 1 ∧
      t.length = 1 := by
  unfold SendConsumerIdentified at h
  cases hget : pins.get? (entry.user_arg >>> 1) with
  | none => rw [hget] at h; exact absurd h (by simp)
  | some level =>
    rw [hget] at h
    simp only [Option.some.injEq] at h
    subst h
    simp [notify_count, send_count, messages, Effect.is_message]

/-- C24: for every input on which the handler runs (the pin `user_arg >> 1` it
accesses lies in the pin array), each of `HandleEventReport`,
`HandleIdentifyConsumer` and `HandleIdentifyGlobal` disposes of its completion
handle exactly once on every path: on an early-exit path (event mismatch,
foreign destination) it calls `notify()` once and sends nothing; on the reply
path it hands the handle to exactly one asynchronous send and does not notify
it itself; on the match path of `HandleEventReport` it notifies once, after
the pin write. With the pin in the pin array each of the three handlers
runs. -/
theorem handlers_dispose_handle_once (defs : Defs) (self : MultiConfiguredConsumer)
    (pins : List Bool) (entry : EventRegistryEntry) (event : EventReport) (done : Nat) :
    (∀ t, HandleEventReport self pins entry event done = some t →
        notify_count done t + send_count done t = 1 ∧ messages t = [] ∧
        (event.event ≠ entry.event → t = [Effect.notify done]) ∧
        (event.event = entry.event →
          t = [Effect.write (entry.user_arg >>> 1) (decide (entry.user_arg &&& 1 ≠ 0)),
            Effect.notify done])) ∧
      (∀ t, HandleIdentifyConsumer defs self pins entry event done = some t →
        notify_count done t + send_count done t = 1 ∧
        (event.event ≠ entry.event → t = [Effect.notify done] ∧ messages t = []) ∧
        (event.event = entry.event →
          notify_count done t = 0 ∧ send_count done t = 1 ∧ (messages t).length = 1 ∧
            t.length = 1)) ∧
      (∀ t, HandleIdentifyGlobal defs self pins entry event done = some t →
        notify_count done t + send_count done t = 1 ∧
        (event.dst_node ≠ 0 ∧ event.dst_node ≠ self.node_ →
          t = [Effect.notify done] ∧ messages t = []) ∧
        (¬ (event.dst_node ≠ 0 ∧ event.dst_node ≠ self.node_) →
          notify_count done t = 0 ∧ send_count done t = 1 ∧ (messages t).length = 1 ∧
            t.length = 1)) ∧
      (entry.user_arg >>> 1 < pins.length →
        (HandleEventReport self pins entry event done).isSome = true ∧
        (HandleIdentifyConsumer defs self pins entry event done).isSome = true ∧
        (HandleIdentifyGlobal defs self pins entry event done).isSome = true) := by
  refine ⟨?_, ?_, ?_, ?_⟩
  · intro t ht
    unfold HandleEventReport at ht
    by_cases hev : event.event ≠ entry.event
    · rw [if_pos hev] at ht
      simp only [Option.some.injEq] at ht
      subst ht
      refine ⟨by simp [notify_count, send_count], by simp [messages, Effect.is_message],
        fun _ => rfl, fun h => absurd h hev⟩
    · rw [if_neg hev] at ht
      by_cases hk : entry.user_arg >>> 1 < pins.length
      · rw [if_pos hk] at ht
        simp only [Option.some.injEq] at ht
        subst ht
        refine ⟨by simp [notify_count, send_count], by simp [messages, Effect.is_message],
          fun h => absurd h hev, fun _ => rfl⟩
      · rw [if_neg hk] at ht
        exact absurd ht (by simp)
  · intro t ht
    unfold HandleIdentifyConsumer at ht
    by_cases hev : event.event ≠ entry.event
    · rw [if_pos hev] at ht
      simp only [Option.some.injEq] at ht
      subst ht
      refine ⟨by simp [notify_count, send_count],
        fun _ => ⟨rfl, by simp [messages, Effect.is_message]⟩, fun h => absurd h hev⟩
    · rw [if_neg hev] at ht
      have hs := send_consumer_identified_shape defs self pins entry done t ht
      exact ⟨by omega, fun h => absurd h hev, fun _ => hs⟩
  · intro t ht
    unfold HandleIdentifyGlobal at ht
    by_cases hdst : event.dst_node ≠ 0 ∧ event.dst_node ≠ self.node_
    · rw [if_pos hdst] at ht
      simp only [Option.some.injEq] at ht
      subst ht
      refine ⟨by simp [notify_count, send_count],
        fun _ => ⟨rfl, by simp [messages, Effect.is_message]⟩, fun h => absurd hdst h⟩
    · rw [if_neg hdst] at ht
      have hs := send_consumer_identified_shape defs self pins entry done t ht
      exact ⟨by omega, fun h => absurd h hdst, fun _ => hs⟩
  · intro hk
    have hsend : (SendConsumerIdentified defs self pins entry done).isSome = true := by
      unfold SendConsumerIdentified
      rw [List.get?_eq_getElem?, List.getElem?_eq_getElem hk]
      rfl
    refine ⟨?_, ?_, ?_⟩
    · unfold HandleEventReport
      by_cases hev : event.event ≠ entry.event
      · rw [if_pos hev]; rfl
      · rw [if_neg hev, if_pos hk]; rfl
    · unfold HandleIdentifyConsumer
      by_cases hev : event.event ≠ entry.event
      · rw [if_pos hev]; rfl
      · rw [if_neg hev]; exact hsend
    · unfold HandleIdentifyGlobal
      by_cases hdst : event.dst_node ≠ 0 ∧ event.dst_node ≠ self.node_
      · rw [if_pos hdst]; rfl
      · rw [if_neg hdst]; exact hsend

theorem handlers_dispose_handle_once_witness :
    HandleIdentifyGlobal
        { MTI_PRODUCER_IDENTIFIED_VALID := 0x544, MTI_CONSUMER_IDENTIFIED_VALID := 0x4C4 }
        { this_ := 7, node_ := 9, size_ := 2 } [false, true]
        { handler := 7, event := 200, user_arg := 3 }
        { event := 0, src_node := 5, dst_node := 9 } 1 =
        some [Effect.WriteAsync 3 9 0x4C4 200 1] ∧
      notify_count 1 [Effect.WriteAsync 3 9 0x4C4 200 1] +
        send_count 1 [Effect.WriteAsync 3 9 0x4C4 200 1] = 1 :=
  ⟨by decide,
    ((handlers_dispose_handle_once
      { MTI_PRODUCER_IDENTIFIED_VALID := 0x544, MTI_CONSUMER_IDENTIFIED_VALID := 0x4C4 }
      { this_ := 7, node_ := 9, size_ := 2 } [false, true]
      { handler := 7, event := 200, user_arg := 3 }
      { event := 0, src_node := 5, dst_node := 9 } 1).2.2.1
      [Effect.WriteAsync 3 9 0x4C4 200 1] (by decide)).1⟩

end MultiConfiguredConsumer

end nmranet

/-! ## SNIP data blocks, time events, and the pin index of registered entries -/

namespace nmranet

/-- C26: the members of the SNIP static block (1-byte version, 41-byte
manufacturer name, 41-byte model name, 21-byte hardware version, 21-byte
software version) total exactly 125 bytes and, all of alignment 1, make a
struct of size 125, so the check `sizeof(SNIP_STATIC_DATA) == 125` of the
SNIPHandler constructor holds and the constructor fails only on the version
check; the members of the dynamic block (1-byte version, 63-byte user name,
64-byte user description) total exactly 128 bytes. -/
theorem snip_block_sizes :
    (SimpleNodeStaticValues_fields.map CField.size) = [1, 41, 41, 21, 21] ∧
      (SimpleNodeStaticValues_fields.map CField.size).sum = 125 ∧
      sizeof_struct SimpleNodeStaticValues_fields = 125 ∧
      (∀ version response_flow : Nat,
        SNIPHandler.construct version response_flow =
          if version = 4 then some { responseFlow_ := response_flow } else none) ∧
      (SimpleNodeDynamicValues_fields.map CField.size) = [1, 63, 64] ∧
      (SimpleNodeDynamicValues_fields.map CField.size).sum = 128 ∧
      sizeof_struct SimpleNodeDynamicValues_fields = 128 := by
  have h125 : sizeof_struct SimpleNodeStaticValues_fields = 125 := by decide
  refine ⟨by decide, by decide, h125, ?_, by decide, by decide, by decide⟩
  intro version response_flow
  unfold SNIPHandler.construct
  rw [if_pos h125]

end nmranet

namespace BroadcastTimeDefs

open BitLemmas

/-- C27: for every hour `h` in 0..23 and minute `m` in 0..59,
`get_event_type((h << 8) | m)` is REPORT_TIME and
`get_event_type(0x8000 | (h << 8) | m)` is SET_TIME: although the hours field
(mask 0x1F00) shares bit 12 with the type field (mask 0xF000), the
classification of a time event does not depend on its hour or minute. -/
theorem time_event_type_independent_of_time (h m : Nat) (hh : h ≤ 23) (hm : m ≤ 59) :
    get_event_type ((h <<< 8) ||| m) = EventType.REPORT_TIME ∧
      get_event_type (0x8000 ||| (h <<< 8) ||| m) = EventType.SET_TIME ∧
      EVENT_HOURS_MASK &&& EVENT_TYPE_MASK = 0x1000 := by
  have h1 : (h <<< 8) ||| m = h * 256 + m := by
    have := shl_or h m 8 (by omega)
    simpa using this
  have h2 : 0x8000 ||| (h <<< 8) ||| m = 0x8000 + h * 256 + m :=
    field_event_eq 0x8000 h m 15 (by decide) (by omega) (by omega)
  refine ⟨?_, ?_, by decide⟩
  · rw [h1, get_event_type_eq _ (by omega)]
    have hn : (h * 256 + m) / 4096 = 0 ∨ (h * 256 + m) / 4096 = 1 := by omega
    simp only
    rw [if_pos hn]
  · rw [h2, get_event_type_eq _ (by omega)]
    have hn : (0x8000 + h * 256 + m) / 4096 = 8 ∨ (0x8000 + h * 256 + m) / 4096 = 9 := by
      omega
    simp only
    rw [if_neg (by omega), if_neg (by omega), if_neg (by omega), if_neg (by omega), if_pos hn]

theorem time_event_type_independent_of_time_witness :
    (23 : Nat) ≤ 23 ∧ (59 : Nat) ≤ 59 ∧
      get_event_type ((23 <<< 8) ||| 59) = EventType.REPORT_TIME ∧
      get_event_type (0x8000 ||| (23 <<< 8) ||| 59) = EventType.SET_TIME :=
  ⟨by decide, by decide,
    (time_event_type_independent_of_time 23 59 (by decide) (by decide)).1,
    (time_event_type_independent_of_time 23 59 (by decide) (by decide)).2.1⟩

/-- C28: for every 64-bit event, `event_to_hour` returns exactly bits 8..12 of the
event, a value in 0..31; it never returns -1, so hour fields 24..31 are
returned as hours rather than rejected. -/
theorem event_to_hour_never_rejects (event : Nat) (_hev : event < 2 ^ 64) :
    event_to_hour event = (((event >>> 8) &&& 0x1F : Nat) : Int) ∧
      (0 ≤ event_to_hour event ∧ event_to_hour event ≤ 31) ∧
      event_to_hour event ≠ -1 ∧
      (24 ≤ (event >>> 8) &&& 0x1F →
        24 ≤ event_to_hour event ∧
          event_to_hour event = (((event >>> 8) &&& 0x1F : Nat) : Int)) := by
  have hbits : (event >>> 8) &&& 0x1F = event / 256 % 32 := by
    have h := Nat.and_pow_two_sub_one_eq_mod (event >>> 8) 5
    have h8 : event >>> 8 = event / 256 := by rw [Nat.shiftRight_eq_div_pow]
    rw [h8] at h ⊢
    simpa using h
  rw [event_to_hour_eq, hbits]
  refine ⟨rfl, ⟨by omega, by omega⟩, by omega, ?_⟩
  intro h
  exact ⟨by omega, rfl⟩

theorem event_to_hour_never_rejects_witness :
    (0x0101000001001F00 : Nat) < 2 ^ 64 ∧ event_to_hour 0x0101000001001F00 ≠ -1 :=
  ⟨by decide, (event_to_hour_never_rejects 0x0101000001001F00 (by decide)).2.2.1⟩

end BroadcastTimeDefs

namespace nmranet

namespace MultiConfiguredConsumer

/-- The pin index carried by the tags the code computes, for every `i`. -/
theorem tag_pin_index (i : Nat) :
    CInt.toUnsigned 32 (i * 2) >>> 1 = i % 2 ^ 31 ∧
      CInt.toUnsigned 32 (i * 2 + 1) >>> 1 = i % 2 ^ 31 := by
  unfold CInt.toUnsigned
  rw [Nat.shiftRight_eq_div_pow, Nat.shiftRight_eq_div_pow]
  constructor <;> omega

/-- C29: for every entry registered by `apply_configuration` on a handler managing
`N = size_` pins, `user_arg >> 1 < N`; hence, whenever the pin array has at
least `N` elements, the accesses `pins_[user_arg >> 1]` in `HandleEventReport`
and `SendConsumerIdentified` are in bounds for every entry the handler
registered. -/
theorem registered_entries_pin_in_bounds (defs : Defs) (self : MultiConfiguredConsumer)
    (cfg : Nat → ConsumerConfig) (initial_load : Bool) (done : Nat) (reg : EventRegistry)
    (pins : List Bool) (hpins : self.size_ ≤ pins.length) :
    ∃ registered : List EventRegistryEntry,
      (apply_configuration self cfg initial_load done reg).1.entries =
          (if initial_load then reg else self.do_unregister reg).entries ++ registered ∧
        registered.length = 2 * self.size_ ∧
        ∀ e ∈ registered,
          e.handler = self.this_ ∧ e.user_arg >>> 1 < self.size_ ∧
            e.user_arg >>> 1 < pins.length ∧
            (∀ (event : EventReport) (d : Nat),
              (HandleEventReport self pins e event d).isSome = true) ∧
            (∀ d : Nat, (SendConsumerIdentified defs self pins e d).isSome = true) := by
  refine ⟨(List.range self.size_).flatMap (fun i =>
      [{ handler := self.this_, event := (cfg i).event_off,
          user_arg := CInt.toUnsigned 32 (i * 2) },
        { handler := self.this_, event := (cfg i).event_on,
          user_arg := CInt.toUnsigned 32 (i * 2 + 1) }]), ?_, ?_, ?_⟩
  · unfold apply_configuration
    simp only
    rw [foldl_register_pin]
    cases initial_load <;> simp
  · generalize self.size_ = n
    induction n with
    | zero => rfl
    | succ n ih =>
      rw [List.range_succ, List.flatMap_append, List.length_append, ih]
      simp
      omega
  · intro e he
    rw [List.mem_flatMap] at he
    obtain ⟨i, hi, hmem⟩ := he
    have hi2 : i < self.size_ := List.mem_range.mp hi
    have htag := tag_pin_index i
    have hmod : i % 2 ^ 31 ≤ i := Nat.mod_le _ _
    have hk : e.user_arg >>> 1 < self.size_ ∧ e.handler = self.this_ := by
      simp only [List.mem_cons, List.mem_singleton, List.not_mem_nil, or_false] at hmem
      rcases hmem with h | h
      · rw [h]
        refine ⟨?_, rfl⟩
        show CInt.toUnsigned 32 (i * 2) >>> 1 < self.size_
        rw [htag.1]; omega
      · rw [h]
        refine ⟨?_, rfl⟩
        show CInt.toUnsigned 32 (i * 2 + 1) >>> 1 < self.size_
        rw [htag.2]; omega
    have hk2 : e.user_arg >>> 1 < pins.length := by omega
    refine ⟨hk.2, hk.1, hk2, ?_, ?_⟩
    · intro event d
      unfold HandleEventReport
      by_cases hev : event.event ≠ e.event
      · rw [if_pos hev]; rfl
      · rw [if_neg hev, if_pos hk2]; rfl
    · intro d
      unfold SendConsumerIdentified
      rw [List.get?_eq_getElem?, List.getElem?_eq_getElem hk2]
      rfl

theorem registered_entries_pin_in_bounds_witness :
    (2 : Nat) ≤ [false, true].length ∧
      ∃ registered : List EventRegistryEntry,
        (apply_configuration { this_ := 7, node_ := 9, size_ := 2 } two_pin_config true 1
            { entries := [] }).1.entries =
          (if true = true then ({ entries := [] } : EventRegistry)
            else do_unregister { this_ := 7, node_ := 9, size_ := 2 }
              { entries := [] }).entries ++ registered ∧
        registered.length = 2 * 2 :=
  ⟨by decide,
    (registered_entries_pin_in_bounds
      { MTI_PRODUCER_IDENTIFIED_VALID := 0x544, MTI_CONSUMER_IDENTIFIED_VALID := 0x4C4 }
      { this_ := 7, node_ := 9, size_ := 2 } two_pin_config true 1 { entries := [] }
      [false, true] (by decide)).imp (fun _ h => ⟨h.1, h.2.1⟩)⟩

/-- C30: for every pin index `i` and pin state, the Consumer-Identified message
a MultiConfiguredConsumer sends for the pin's off-event entry (tag `2 * i`)
carries the same state as the one it sends for the pin's on-event entry (tag
`2 * i + 1`): the state depends only on the pin reading and not on the
polarity bit, so the off event is reported VALID exactly when the pin is
set. -/
theorem off_event_reported_like_on_event (defs : Defs) (self : MultiConfiguredConsumer)
    (pins : List Bool) (i : Nat) (level : Bool) (event_off event_on done : Nat)
    (hpin : pins.get? i = some level) :
    SendConsumerIdentified defs self pins
        { handler := self.this_, event := event_off, user_arg := 2 * i } done =
      some [Effect.WriteAsync 3 self.node_
        (if level then defs.MTI_CONSUMER_IDENTIFIED_VALID
          else defs.MTI_CONSUMER_IDENTIFIED_VALID + 1) event_off done] ∧
      SendConsumerIdentified defs self pins
        { handler := self.this_, event := event_on, user_arg := 2 * i + 1 } done =
      some [Effect.WriteAsync 3 self.node_
        (if level then defs.MTI_CONSUMER_IDENTIFIED_VALID
          else defs.MTI_CONSUMER_IDENTIFIED_VALID + 1) event_on done] ∧
      ((if level then defs.MTI_CONSUMER_IDENTIFIED_VALID
          else defs.MTI_CONSUMER_IDENTIFIED_VALID + 1) = defs.MTI_CONSUMER_IDENTIFIED_VALID ↔
        level = true) := by
  have h1 : (2 * i) >>> 1 = i := by rw [Nat.shiftRight_eq_div_pow]; omega
  have h2 : (2 * i + 1) >>> 1 = i := by rw [Nat.shiftRight_eq_div_pow]; omega
  refine ⟨?_, ?_, ?_⟩
  · unfold SendConsumerIdentified
    simp only [h1, hpin]
    cases level <;> simp [is_clr]
  · unfold SendConsumerIdentified
    simp only [h2, hpin]
    cases level <;> simp [is_clr]
  · cases level <;> simp

theorem off_event_reported_like_on_event_witness :
    [false, true].get? 1 = some true ∧
      SendConsumerIdentified
          { MTI_PRODUCER_IDENTIFIED_VALID := 0x544, MTI_CONSUMER_IDENTIFIED_VALID := 0x4C4 }
          { this_ := 7, node_ := 9, size_ := 2 } [false, true]
          { handler := 7, event := 201, user_arg := 2 * 1 } 1 =
        some [Effect.WriteAsync 3 9 (if true = true then 0x4C4 else 0x4C4 + 1) 201 1] :=
  ⟨by decide,
    (off_event_reported_like_on_event
      { MTI_PRODUCER_IDENTIFIED_VALID := 0x544, MTI_CONSUMER_IDENTIFIED_VALID := 0x4C4 }
      { this_ := 7, node_ := 9, size_ := 2 } [false, true] 1 true 201 200 1 (by decide)).1⟩

end MultiConfiguredConsumer

end nmranet

/-! ## The join primitive under a handler and the sends it starts -/

namespace nmranet

theorem length_eq_parts (p : List Step) :
    p.length = (handler_part p).length + (completions p).length := by
  induction p with
  | nil => rfl
  | cons x t ih =>
    cases x with
    | handler e =>
      simp only [handler_part, completions, List.filterMap_cons, List.length_cons] at ih ⊢
      omega
    | complete i =>
      simp only [handler_part, completions, List.filterMap_cons, List.length_cons] at ih ⊢
      omega

theorem handler_part_append (p q : List Step) :
    handler_part (p ++ q) = handler_part p ++ handler_part q := by
  simp [handler_part, List.filterMap_append]

theorem completions_append (p q : List Step) :
    completions (p ++ q) = completions p ++ completions q := by
  simp [completions, List.filterMap_append]

/-- A list of different numbers below `M` has at most `M` elements. -/
theorem length_le_of_nodup_lt (l : List Nat) (M : Nat) (hnd : l.Nodup)
    (hlt : ∀ i ∈ l, i < M) : l.length ≤ M := by
  have hsub : l ⊆ List.range M := fun i hi => List.mem_range.mpr (hlt i hi)
  have := (List.subperm_of_subset hnd hsub).length_le
  rwa [List.length_range] at this

namespace Barrier

theorem run_append (done : Nat) (p q : List Step) (b : Barrier) :
    run done (p ++ q) b =
      match run done p b with
      | none => none
      | some b1 => run done q b1 := by
  induction p generalizing b with
  | nil => rfl
  | cons x t ih =>
    simp only [List.cons_append, run]
    cases step done b x with
    | none => rfl
    | some b1 => exact ih b1

/-- One step on a barrier with something outstanding: the count moves by the
new children and the notifications of the step, and the parent is signalled
exactly when the count reaches zero. -/
theorem step_spec (done : Nat) (b : Barrier) (x : Step) (hpos : 0 < b.count) :
    ∃ b1, step done b x = some b1 ∧
      b1.count + notify_count done (handler_part [x]) + (completions [x]).length =
        b.count + new_child_count done (handler_part [x]) ∧
      (0 < b1.count → b1.fired = b.fired) ∧ (b1.count = 0 → b1.fired = b.fired + 1) := by
  have hne : b.count ≠ 0 := by omega
  have hnotify : b.notify =
      some { count := b.count - 1, fired := if b.count = 1 then b.fired + 1 else b.fired } := by
    simp [notify, hne]
  have hdec1 : 0 < b.count - 1 →
      (if b.count = 1 then b.fired + 1 else b.fired) = b.fired := by
    intro h
    rw [if_neg (by omega)]
  have hdec2 : b.count - 1 = 0 →
      (if b.count = 1 then b.fired + 1 else b.fired) = b.fired + 1 := by
    intro h
    rw [if_pos (by omega)]
  cases x with
  | complete i =>
    refine ⟨Barrier.mk (b.count - 1) (if b.count = 1 then b.fired + 1 else b.fired),
      hnotify, ?_, hdec1, hdec2⟩
    simp [handler_part, completions, notify_count, new_child_count]
    omega
  | handler e =>
    cases e with
    | notify d =>
      by_cases hd : d = done
      · subst hd
        refine ⟨Barrier.mk (b.count - 1) (if b.count = 1 then b.fired + 1 else b.fired),
          ?_, ?_, hdec1, hdec2⟩
        · simp [step, hnotify]
        · simp [handler_part, completions, notify_count, new_child_count]
          omega
      · refine ⟨b, by simp [step, hd], ?_, fun _ => rfl, fun h => by omega⟩
        simp [handler_part, completions, notify_count, new_child_count, List.count_cons, hd]
    | new_child d =>
      by_cases hd : d = done
      · subst hd
        refine ⟨{ count := b.count + 1, fired := b.fired }, by simp [step, new_child], ?_,
          fun _ => rfl, fun h => by simp at h⟩
        simp [handler_part, completions, notify_count, new_child_count]
      · refine ⟨b, by simp [step, hd], ?_, fun _ => rfl, fun h => by omega⟩
        simp [handler_part, completions, notify_count, new_child_count, List.count_cons, hd]
    | write pin value =>
      refine ⟨b, by simp [step], ?_, fun _ => rfl, fun h => by omega⟩
      simp [handler_part, completions, notify_count, new_child_count]
    | WriteAsync helper node mti ev d =>
      refine ⟨b, by simp [step], ?_, fun _ => rfl, fun h => by omega⟩
      simp [handler_part, completions, notify_count, new_child_count]

end Barrier

/-- In a run of a well-formed handler trace, the notifications performed so far
never exceed the children created so far plus one, and reach that number
only at the end of the run. -/
theorem notifications_bounded (done : Nat) (t : List Effect) (s p : List Step)
    (hwf : well_formed_trace done t) (hrun : is_run_of t s) (hp : p <+: s) :
    notify_count done (handler_part p) + (completions p).length ≤
        new_child_count done (handler_part p) + 1 ∧
      (notify_count done (handler_part p) + (completions p).length =
        new_child_count done (handler_part p) + 1 → p = s) := by
  obtain ⟨hnc, hnn, hpre⟩ := hwf
  obtain ⟨hh, hperm, hcausal⟩ := hrun
  have hq : handler_part p <+: t := by
    rw [← hh]
    exact List.IsPrefix.filterMap _ hp
  have hcp : completions p <+: completions s := List.IsPrefix.filterMap _ hp
  have hnd : (completions p).Nodup :=
    List.Nodup.sublist hcp.sublist (hperm.nodup_iff.mpr (List.nodup_range _))
  have hle := length_le_of_nodup_lt _ _ hnd (hcausal p hp)
  obtain ⟨h1, h2, h3⟩ := hpre _ hq
  refine ⟨by omega, ?_⟩
  intro heq
  have hq1 : notify_count done (handler_part p) = 1 := by omega
  have hqt : handler_part p = t := h3 hq1
  have hlen : p.length = s.length := by
    rw [length_eq_parts p, length_eq_parts s, hh, hqt, hperm.length_eq, List.length_range]
    rw [hqt] at heq
    omega
  exact hp.eq_of_length hlen

/-- In a run of a well-formed handler trace on a barrier that starts with the
handler's handle outstanding, the parent is not signalled and something is
outstanding after every proper part of the run. -/
theorem barrier_not_fired_before_end (done : Nat) (t : List Effect) (s : List Step)
    (hwf : well_formed_trace done t) (hrun : is_run_of t s) :
    ∀ p : List Step, p <+: s → p ≠ s →
      ∃ b, Barrier.run done p { count := 1, fired := 0 } = some b ∧ b.fired = 0 ∧
        0 < b.count ∧
        b.count + notify_count done (handler_part p) + (completions p).length =
          1 + new_child_count done (handler_part p) := by
  intro p
  induction p using List.reverseRecOn with
  | nil =>
    intro _ _
    exact ⟨_, rfl, rfl, by decide, by simp [handler_part, completions, notify_count,
      new_child_count]⟩
  | append_singleton q x ih =>
    intro hp hne
    have hq : q <+: s := (List.prefix_append q [x]).trans hp
    have hqne : q ≠ s := by
      intro h
      have := hp.length_le
      rw [h, List.length_append] at this
      simp at this
    obtain ⟨b, hb, hfired, hpos, heq⟩ := ih hq hqne
    obtain ⟨b1, hstep, hcount, hkeep, _⟩ := Barrier.step_spec done b x hpos
    have hbound := notifications_bounded done t s (q ++ [x]) hwf hrun hp
    have hnn : notify_count done (handler_part (q ++ [x])) =
        notify_count done (handler_part q) + notify_count done (handler_part [x]) := by
      rw [handler_part_append]; simp [notify_count, List.count_append]
    have hnc : new_child_count done (handler_part (q ++ [x])) =
        new_child_count done (handler_part q) + new_child_count done (handler_part [x]) := by
      rw [handler_part_append]; simp [new_child_count, List.count_append]
    have hcp : (completions (q ++ [x])).length =
        (completions q).length + (completions [x]).length := by
      rw [completions_append, List.length_append]
    have hstrict : notify_count done (handler_part (q ++ [x])) +
        (completions (q ++ [x])).length ≠
        new_child_count done (handler_part (q ++ [x])) + 1 := fun h => hne (hbound.2 h)
    have hb1pos : 0 < b1.count := by omega
    refine ⟨b1, ?_, ?_, hb1pos, by omega⟩
    · rw [Barrier.run_append, hb]
      simp [Barrier.run, hstep]
    · rw [hkeep hb1pos, hfired]

/-- In a run of a well-formed handler trace on a barrier that starts with the
handler's handle outstanding, the parent is signalled exactly once, by the
last step of the run, and nothing is outstanding afterwards. -/
theorem barrier_fires_once_at_end (done : Nat) (t : List Effect) (s : List Step)
    (hwf : well_formed_trace done t) (hrun : is_run_of t s) :
    Barrier.run done s { count := 1, fired := 0 } = some { count := 0, fired := 1 } := by
  have hnn := hwf.2.1
  have hnc := hwf.1
  rcases List.eq_nil_or_concat s with hs | ⟨q, x, hs⟩
  · exfalso
    have h := hrun.1
    rw [hs] at h
    rw [← h] at hnn
    simp [handler_part, notify_count] at hnn
  · rw [List.concat_eq_append] at hs
    have hq : q <+: s := by rw [hs]; exact List.prefix_append q [x]
    have hqne : q ≠ s := by
      intro h
      have := congrArg List.length hs
      rw [← h, List.length_append] at this
      simp at this
    obtain ⟨b, hb, hfired, hpos, heq⟩ := barrier_not_fired_before_end done t s hwf hrun q hq hqne
    obtain ⟨b1, hstep, hcount, _, hfire⟩ := Barrier.step_spec done b x hpos
    have htot_h : handler_part (q ++ [x]) = t := by rw [← hs]; exact hrun.1
    have htot_c : (completions (q ++ [x])).length = (messages t).length := by
      rw [← hs, hrun.2.1.length_eq, List.length_range]
    have hnn2 : notify_count done (handler_part q) + notify_count done (handler_part [x]) = 1 := by
      rw [← hnn, ← htot_h, handler_part_append]; simp [notify_count, List.count_append]
    have hnc2 : new_child_count done (handler_part q) +
        new_child_count done (handler_part [x]) = (messages t).length := by
      rw [← hnc, ← htot_h, handler_part_append]; simp [new_child_count, List.count_append]
    have hcp2 : (completions q).length + (completions [x]).length = (messages t).length := by
      rw [← htot_c, completions_append, List.length_append]
    have hzero : b1.count = 0 := by omega
    rw [hs, Barrier.run_append, hb]
    simp only [Barrier.run, hstep]
    have hf := hfire hzero
    rw [hfired] at hf
    cases b1 with
    | mk c f =>
      simp only at hzero hf
      rw [hzero, hf]

end nmranet

namespace nmranet

namespace CallbackEventHandler

theorem well_formed_notify_only (done : Nat) :
    well_formed_trace done [Effect.notify done] := by
  refine ⟨by simp [new_child_count, messages, Effect.is_message], by simp [notify_count], ?_⟩
  intro q hq
  have hlen := hq.length_le
  rw [List.prefix_iff_eq_take] at hq
  generalize q.length = n at hq hlen
  simp only [List.length_cons, List.length_nil] at hlen
  interval_cases n <;> subst hq <;>
    simp [new_child_count, notify_count, messages, Effect.is_message]

theorem well_formed_one_send (done h1 n1 m1 e1 : Nat) :
    well_formed_trace done
      [Effect.new_child done, Effect.WriteAsync h1 n1 m1 e1 done, Effect.notify done] := by
  refine ⟨by simp [new_child_count, messages, Effect.is_message], by simp [notify_count], ?_⟩
  intro q hq
  have hlen := hq.length_le
  rw [List.prefix_iff_eq_take] at hq
  generalize q.length = n at hq hlen
  simp only [List.length_cons, List.length_nil] at hlen
  interval_cases n <;> subst hq <;>
    simp [new_child_count, notify_count, messages, Effect.is_message]

theorem well_formed_two_sends (done h1 n1 m1 e1 h2 n2 m2 e2 : Nat) :
    well_formed_trace done
      [Effect.new_child done, Effect.WriteAsync h1 n1 m1 e1 done, Effect.new_child done,
        Effect.WriteAsync h2 n2 m2 e2 done, Effect.notify done] := by
  refine ⟨by simp [new_child_count, messages, Effect.is_message], by simp [notify_count], ?_⟩
  intro q hq
  have hlen := hq.length_le
  rw [List.prefix_iff_eq_take] at hq
  generalize q.length = n at hq hlen
  simp only [List.length_cons, List.length_nil] at hlen
  interval_cases n <;> subst hq <;>
    simp [new_child_count, notify_count, messages, Effect.is_message]

/-- The effects of `HandleIdentifyGlobal` create one child per send and end with
the handler's single `notify()`. -/
theorem handle_identify_global_well_formed (defs : Defs) (self : CallbackEventHandler)
    (entry : EventRegistryEntry) (event : EventReport) (done : Nat) :
    well_formed_trace done (HandleIdentifyGlobal defs self entry event done) := by
  unfold HandleIdentifyGlobal SendProducerIdentified SendConsumerIdentified
  by_cases hp : entry.user_arg &&& IS_PRODUCER ≠ 0
  · by_cases hc : entry.user_arg &&& IS_CONSUMER ≠ 0
    · rw [if_pos hp, if_pos hc]
      exact well_formed_two_sends done _ _ _ _ _ _ _ _
    · rw [if_pos hp, if_neg hc]
      exact well_formed_one_send done _ _ _ _
  · by_cases hc : entry.user_arg &&& IS_CONSUMER ≠ 0
    · rw [if_neg hp, if_pos hc]
      exact well_formed_one_send done _ _ _ _
    · rw [if_neg hp, if_neg hc]
      exact well_formed_notify_only done

/-- C25: for `HandleIdentifyGlobal` on an entry with `k` role bits set (`k` in
0..2), under the counting semantics of the join primitive (`new_child` adds
one outstanding child, `notify` removes one, the parent is signalled when the
count reaches zero), in every run in which the handler performs its effects
and each of the `k` sends it starts completes once, at any time after it was
started: the handler starts exactly `k` sends; the parent completion is
signalled exactly once, by the last step of the run, when the handler's own
notify and the child handles of all `k` sends have been notified; and after
every proper part of the run it has not been signalled and something is still
outstanding. -/
theorem identify_global_parent_fires_once (defs : Defs) (self : CallbackEventHandler)
    (entry : EventRegistryEntry) (event : EventReport) (done : Nat) (s : List Step)
    (hrun : is_run_of (HandleIdentifyGlobal defs self entry event done) s) :
    (messages (HandleIdentifyGlobal defs self entry event done)).length =
        (entry.user_arg.testBit 31).toNat + (entry.user_arg.testBit 30).toNat ∧
      (completions s).length =
        (entry.user_arg.testBit 31).toNat + (entry.user_arg.testBit 30).toNat ∧
      notify_count done (handler_part s) = 1 ∧
      Barrier.run done s { count := 1, fired := 0 } = some { count := 0, fired := 1 } ∧
      ∀ p : List Step, p <+: s → p ≠ s →
        ∃ b, Barrier.run done p { count := 1, fired := 0 } = some b ∧ b.fired = 0 ∧
          0 < b.count := by
  have hwf := handle_identify_global_well_formed defs self entry event done
  have hk : (messages (HandleIdentifyGlobal defs self entry event done)).length =
      (entry.user_arg.testBit 31).toNat + (entry.user_arg.testBit 30).toNat := by
    rw [(identify_replies_gated_by_role_bits defs self entry event done).1]
    cases entry.user_arg.testBit 31 <;> cases entry.user_arg.testBit 30 <;> simp
  refine ⟨hk, ?_, ?_, barrier_fires_once_at_end done _ s hwf hrun, ?_⟩
  · rw [hrun.2.1.length_eq, List.length_range, hk]
  · rw [hrun.1]; exact hwf.2.1
  · intro p hp hne
    obtain ⟨b, h1, h2, h3, _⟩ := barrier_not_fired_before_end done _ s hwf hrun p hp hne
    exact ⟨b, h1, h2, h3⟩

theorem two_send_run_is_run :
    is_run_of
      (HandleIdentifyGlobal
        { MTI_PRODUCER_IDENTIFIED_VALID := 0x544, MTI_CONSUMER_IDENTIFIED_VALID := 0x4C4 }
        { this_ := 7, node_ := 9, reportHandler_ := fun _ _ _ => [],
          stateHandler_ := fun _ _ => 0 }
        { handler := 7, event := 100, user_arg := IS_PRODUCER ||| IS_CONSUMER }
        { event := 0, src_node := 5, dst_node := 0 } 1)
      two_send_run := by
  refine ⟨by decide, by decide, ?_⟩
  intro p hp
  have hlen := hp.length_le
  rw [List.prefix_iff_eq_take] at hp
  generalize p.length = n at hp hlen
  have hn : n ≤ 7 := hlen
  interval_cases n <;> subst hp <;> decide

theorem identify_global_parent_fires_once_witness :
    is_run_of
        (HandleIdentifyGlobal
          { MTI_PRODUCER_IDENTIFIED_VALID := 0x544, MTI_CONSUMER_IDENTIFIED_VALID := 0x4C4 }
          { this_ := 7, node_ := 9, reportHandler_ := fun _ _ _ => [],
            stateHandler_ := fun _ _ => 0 }
          { handler := 7, event := 100, user_arg := IS_PRODUCER ||| IS_CONSUMER }
          { event := 0, src_node := 5, dst_node := 0 } 1)
        two_send_run ∧
      Barrier.run 1 two_send_run { count := 1, fired := 0 } = some { count := 0, fired := 1 } :=
  ⟨two_send_run_is_run,
    (identify_global_parent_fires_once
      { MTI_PRODUCER_IDENTIFIED_VALID := 0x544, MTI_CONSUMER_IDENTIFIED_VALID := 0x4C4 }
      { this_ := 7, node_ := 9, reportHandler_ := fun _ _ _ => [],
        stateHandler_ := fun _ _ => 0 }
      { handler := 7, event := 100, user_arg := IS_PRODUCER ||| IS_CONSUMER }
      { event := 0, src_node := 5, dst_node := 0 } 1 two_send_run two_send_run_is_run).2.2.2.1⟩

end CallbackEventHandler

end nmranet

/-! ## `SortedListSet`: `sortedCount_` against the size of the container -/

namespace SortedListSet

/-- `insert` keeps `sortedCount_` within the size of the container. -/
theorem insert_keeps_sortedCount_le {D : Type} (s : SortedListSet D) (d : D)
    (h : s.sortedCount_ ≤ s.container_.length) :
    (insert s d).sortedCount_ ≤ (insert s d).container_.length := by
  simp only [insert, List.length_append, List.length_singleton]
  omega

/-- `lazy_init`, the first step of every lookup, leaves `sortedCount_` within
the size of the container whenever it was so before, and always when it
sorts. -/
theorem lazy_init_sortedCount_le {D : Type} (sort : (D → D → Bool) → List D → List D)
    (CMP : D → D → Bool) (s : SortedListSet D)
    (h : s.sortedCount_ ≠ s.container_.length ∨ s.sortedCount_ ≤ s.container_.length) :
    (lazy_init sort CMP s).sortedCount_ ≤ (lazy_init sort CMP s).container_.length := by
  unfold lazy_init
  by_cases hne : s.sortedCount_ ≠ s.container_.length
  · rw [if_pos hne]
  · rw [if_neg hne]
    rcases h with h | h
    · exact absurd h hne
    · exact h

/-- C31: the code on a run that erases after a lookup. After inserting 1, 2, 3
and calling `begin()`, `sortedCount_` is 3; erasing the element `begin()`
designates leaves the container `[2, 3]` with `sortedCount_` still 3, so
`sortedCount_` exceeds the number of stored elements and `end()`, which is
`begin + sortedCount_`, is position 3 of a container of size 2: one past its
end, with no element at position `end() - 1`. -/
theorem end_past_container_after_erase :
    (begin StdAlgo.sort nat_less (insert_all [1, 2, 3])) =
        ({ container_ := [1, 2, 3], sortedCount_ := 3 }, 0) ∧
      erase (begin StdAlgo.sort nat_less (insert_all [1, 2, 3])).1
          (begin StdAlgo.sort nat_less (insert_all [1, 2, 3])).2 =
        { container_ := [2, 3], sortedCount_ := 3 } ∧
      (erase (begin StdAlgo.sort nat_less (insert_all [1, 2, 3])).1
          (begin StdAlgo.sort nat_less (insert_all [1, 2, 3])).2).container_.length = 2 ∧
      end_ (erase (begin StdAlgo.sort nat_less (insert_all [1, 2, 3])).1
          (begin StdAlgo.sort nat_less (insert_all [1, 2, 3])).2) = 3 ∧
      ¬ (erase (begin StdAlgo.sort nat_less (insert_all [1, 2, 3])).1
            (begin StdAlgo.sort nat_less (insert_all [1, 2, 3])).2).sortedCount_ ≤
          (erase (begin StdAlgo.sort nat_less (insert_all [1, 2, 3])).1
            (begin StdAlgo.sort nat_less (insert_all [1, 2, 3])).2).container_.length ∧
      (erase (begin StdAlgo.sort nat_less (insert_all [1, 2, 3])).1
          (begin StdAlgo.sort nat_less (insert_all [1, 2, 3])).2).container_.get?
        (end_ (erase (begin StdAlgo.sort nat_less (insert_all [1, 2, 3])).1
          (begin StdAlgo.sort nat_less (insert_all [1, 2, 3])).2) - 1) = none := by
  decide

end SortedListSet

/-! ## `SPIFFS::open`: the access mode -/

namespace SPIFFS

/-- With `O_RDONLY` equal to 0 the test `flags & O_RDONLY` fails for every
`flags`: `open_flags` is the same whatever `SPIFFS_O_RDONLY` is. -/
theorem open_flags_rdonly_branch_dead (f : Fcntl) (s : SpiffsFlags) (flags v : Nat)
    (h : f.O_RDONLY = 0) :
    open_flags f s flags = open_flags f { s with SPIFFS_O_RDONLY := v } flags := by
  simp [open_flags, h]

/-- With the values of newlib and `spiffs.h`, no `flags` value whose access
mode (`flags & O_ACCMODE`, the low two bits) is `O_RDONLY` has
`SPIFFS_O_RDONLY` among the flags handed to `SPIFFS_open`. -/
theorem open_flags_rdonly_never_included (flags : Nat) (h : flags &&& 3 = 0) :
    ¬ includes (open_flags newlib_fcntl spiffs_h_flags flags) spiffs_h_flags.SPIFFS_O_RDONLY := by
  have h1 : flags &&& 1 = 0 := by
    have e : flags &&& 1 = (flags &&& 3) &&& 1 := by
      rw [Nat.land_assoc]
      rfl
    rw [e, h]
    rfl
  have h2 : flags &&& 2 = 0 := by
    have e : flags &&& 2 = (flags &&& 3) &&& 2 := by
      rw [Nat.land_assoc]
      rfl
    rw [e, h]
    rfl
  unfold includes open_flags
  simp only [newlib_fcntl, spiffs_h_flags, h1, h2, Nat.and_zero, ne_eq, not_true_eq_false,
    if_false]
  split_ifs <;> decide

/-- C32: the code on the access modes, with the values of newlib's `<fcntl.h>`
and of `spiffs.h`. `O_RDONLY` is 0, so for `flags = O_RDONLY` the test
`flags & O_RDONLY` fails, `ffs_flags` stays 0 and does not include
`SPIFFS_O_RDONLY`; `O_CREAT | O_RDONLY` yields `SPIFFS_O_CREAT` alone. For
`O_WRONLY` and `O_RDWR` the flags include `SPIFFS_O_WRONLY` and
`SPIFFS_O_RDWR`. -/
theorem open_rdonly_not_translated :
    newlib_fcntl.O_RDONLY = 0 ∧
      open_flags newlib_fcntl spiffs_h_flags newlib_fcntl.O_RDONLY = 0 ∧
      ¬ includes (open_flags newlib_fcntl spiffs_h_flags newlib_fcntl.O_RDONLY)
          spiffs_h_flags.SPIFFS_O_RDONLY ∧
      open_flags newlib_fcntl spiffs_h_flags (newlib_fcntl.O_CREAT ||| newlib_fcntl.O_RDONLY) =
        spiffs_h_flags.SPIFFS_O_CREAT ∧
      ¬ includes
          (open_flags newlib_fcntl spiffs_h_flags
            (newlib_fcntl.O_CREAT ||| newlib_fcntl.O_RDONLY))
          spiffs_h_flags.SPIFFS_O_RDONLY ∧
      includes (open_flags newlib_fcntl spiffs_h_flags newlib_fcntl.O_WRONLY)
        spiffs_h_flags.SPIFFS_O_WRONLY ∧
      includes (open_flags newlib_fcntl spiffs_h_flags newlib_fcntl.O_RDWR)
        spiffs_h_flags.SPIFFS_O_RDWR ∧
      includes (open_flags newlib_fcntl spiffs_h_flags newlib_fcntl.O_RDWR)
        spiffs_h_flags.SPIFFS_O_RDONLY := by
  decide

end SPIFFS

/-! ## `SPIFFS::errno_translate` and the error reports of the file operations -/

namespace SPIFFS

open SpiffsCode

/-- Every result code of the enumeration is a `case` label. -/
theorem mem_case_labels (c : SpiffsCode) : c ∈ case_labels := by
  cases c <;> decide

/-- A search by value finds the label itself when the values are distinct. -/
theorem find_label_of_injective (value : SpiffsCode → Int) (hinj : Function.Injective value)
    (c : SpiffsCode) (l : List SpiffsCode) (hc : c ∈ l) :
    l.find? (fun x => decide (value x = value c)) = some c := by
  induction l with
  | nil => cases hc
  | cons a l ih =>
    by_cases hac : a = c
    · subst hac
      simp [List.find?]
    · have hne : value a ≠ value c := fun h => hac (hinj h)
      have hmem : c ∈ l := by
        rcases List.mem_cons.mp hc with h | h
        · exact absurd h.symm hac
        · exact h
      simp [List.find?, hne, ih hmem]

/-- At the value of a `case` label, `errno_translate` does what stands at that
label. -/
theorem errno_translate_label (value : SpiffsCode → Int) (e : Errno)
    (hinj : Function.Injective value) (c : SpiffsCode) :
    errno_translate value e (value c) = case_result e c := by
  unfold errno_translate
  rw [find_label_of_injective value hinj c case_labels (mem_case_labels c)]

/-- A value that is no `case` label reaches `default`, where the assertion
fails. -/
theorem errno_translate_unlisted (value : SpiffsCode → Int) (e : Errno) (v : Int)
    (h : ∀ c, value c ≠ v) : errno_translate value e v = none := by
  unfold errno_translate
  have hnone : case_labels.find? (fun c => decide (value c = v)) = none := by
    rw [List.find?_eq_none]
    intro c _
    simpa using h c
  rw [hnone]

/-- When `errno_translate` returns, its argument is the value of a `case` label
and the result is what stands at that label. -/
theorem errno_translate_some (value : SpiffsCode → Int) (e : Errno) (v r : Int)
    (h : errno_translate value e v = some r) :
    ∃ c, value c = v ∧ case_result e c = some r := by
  unfold errno_translate at h
  cases hf : case_labels.find? (fun c => decide (value c = v)) with
  | none =>
    rw [hf] at h
    cases h
  | some c =>
    rw [hf] at h
    have hp := List.find?_some hf
    exact ⟨c, by simpa using hp, h⟩

/-- With positive error numbers, only the label `SPIFFS_OK` returns 0. -/
theorem case_result_zero (e : Errno) (hpos : e.positive) (c : SpiffsCode)
    (h : case_result e c = some 0) : c = SPIFFS_OK := by
  obtain ⟨h1, h2, h3, h4, h5, h6, h7, h8, h9, h10, h11, h12⟩ := hpos
  cases c <;> simp only [case_result, Option.some.injEq, reduceCtorEq] at h <;>
    first
      | rfl
      | (exfalso; omega)

/-- With positive error numbers, `errno_translate` returns 0 only for the value
of `SPIFFS_OK`. -/
theorem errno_translate_zero (value : SpiffsCode → Int) (e : Errno) (hpos : e.positive)
    (v : Int) (h : errno_translate value e v = some 0) : v = value SPIFFS_OK := by
  obtain ⟨c, hv, hc⟩ := errno_translate_some value e v 0 h
  rw [← hv, case_result_zero e hpos c hc]

/-- The macro values of `spiffs.h` are distinct. -/
theorem spiffs_h_value_injective : Function.Injective spiffs_h_value := by
  intro a b h
  cases a <;> cases b <;> first
    | rfl
    | (exfalso; revert h; decide)

/-- C33: `errno_translate` and the error reports. With distinct values of the
result codes, `SPIFFS_OK` equal to 0 and positive error numbers:
`errno_translate` returns at every listed code except `SPIFFS_ERR_NOT_MOUNTED`
and the result is 0 exactly when the code is `SPIFFS_OK`; at
`SPIFFS_ERR_NOT_MOUNTED` and at every unlisted value the assertion fails; every
listed error code without an error number of its own yields `EINVAL`; and
whenever `open`, `close`, `read` or `write` return -1, `errno` is not 0. -/
theorem errno_translate_zero_only_for_ok (value : SpiffsCode → Int) (e : Errno)
    (hinj : Function.Injective value) (hok : value SPIFFS_OK = 0) (hpos : e.positive) :
    (∀ c, c ≠ SPIFFS_ERR_NOT_MOUNTED →
        ∃ r, errno_translate value e (value c) = some r ∧ (r = 0 ↔ c = SPIFFS_OK)) ∧
      errno_translate value e (value SPIFFS_ERR_NOT_MOUNTED) = none ∧
      (∀ v, (∀ c, value c ≠ v) → errno_translate value e v = none) ∧
      (∀ c, c ∈ [SPIFFS_ERR_IS_INDEX, SPIFFS_ERR_INDEX_SPAN_MISMATCH,
            SPIFFS_ERR_DATA_SPAN_MISMATCH, SPIFFS_ERR_INDEX_REF_FREE, SPIFFS_ERR_INDEX_REF_LU,
            SPIFFS_ERR_INDEX_REF_INVALID, SPIFFS_ERR_INDEX_FREE, SPIFFS_ERR_INDEX_LU,
            SPIFFS_ERR_CONFLICTING_NAME, SPIFFS_ERR_NOT_CONFIGURED, SPIFFS_ERR_NOT_A_FS,
            SPIFFS_ERR_MOUNTED, SPIFFS_ERR_ERASE_FAIL, SPIFFS_ERR_MAGIC_NOT_POSSIBLE,
            SPIFFS_ERR_NO_DELETED_BLOCKS, SPIFFS_ERR_RO_NOT_IMPL, SPIFFS_ERR_PROBE_NOT_A_FS,
            SPIFFS_ERR_IX_MAP_UNMAPPED, SPIFFS_ERR_IX_MAP_MAPPED, SPIFFS_ERR_IX_MAP_BAD_RANGE,
            SPIFFS_ERR_INTERNAL, SPIFFS_ERR_TEST] →
        errno_translate value e (value c) = some e.EINVAL) ∧
      (∀ (f : Fcntl) (s : SpiffsFlags) (flags : Nat) (spiffs_open : Nat → Int)
          (errno priv : Int) (out : Outcome),
        open_ f s value e flags spiffs_open errno priv = some out → out.ret = -1 →
          out.errno ≠ 0) ∧
      (∀ (result errno priv : Int) (out : Outcome),
        close value e result errno priv = some out → out.ret = -1 → out.errno ≠ 0) ∧
      (∀ (result errno priv : Int) (out : Outcome),
        read value e result errno priv = some out → out.ret = -1 → out.errno ≠ 0) ∧
      (∀ (result errno priv : Int) (out : Outcome),
        write value e result errno priv = some out → out.ret = -1 → out.errno ≠ 0) := by
  have hz := errno_translate_zero value e hpos
  refine ⟨?_, ?_, errno_translate_unlisted value e, ?_, ?_, ?_, ?_, ?_⟩
  · intro c hc
    rw [errno_translate_label value e hinj c]
    obtain ⟨h1, h2, h3, h4, h5, h6, h7, h8, h9, h10, h11, h12⟩ := hpos
    cases c <;>
      first
        | exact absurd rfl hc
        | exact ⟨0, rfl, by simp⟩
        | exact ⟨_, rfl, by
            simp only [reduceCtorEq, iff_false]
            omega⟩
  · rw [errno_translate_label value e hinj]
    rfl
  · intro c hc
    rw [errno_translate_label value e hinj c]
    simp only [List.mem_cons, List.mem_singleton, List.not_mem_nil, or_false] at hc
    rcases hc with h | h | h | h | h | h | h | h | h | h | h | h | h | h | h | h | h | h | h |
      h | h | h <;> subst h <;> rfl
  · intro f s flags spiffs_open errno priv out h hret hzero
    unfold open_ at h
    simp only at h
    split_ifs at h with hfd
    · cases ht : errno_translate value e (spiffs_open (open_flags f s flags)) with
      | none =>
        rw [ht] at h
        cases h
      | some en =>
        rw [ht] at h
        simp only [Option.some.injEq] at h
        subst h
        simp only at hzero
        subst hzero
        have := hz _ ht
        rw [this, hok] at hfd
        exact absurd hfd (by decide)
    · simp only [Option.some.injEq] at h
      subst h
      simp at hret
  · intro result errno priv out h hret hzero
    unfold close at h
    split_ifs at h with hres
    · cases ht : errno_translate value e result with
      | none =>
        rw [ht] at h
        cases h
      | some en =>
        rw [ht] at h
        simp only [Option.some.injEq] at h
        subst h
        simp only at hzero
        subst hzero
        exact hres (hz _ ht)
    · simp only [Option.some.injEq] at h
      subst h
      simp at hret
  · intro result errno priv out h hret hzero
    unfold read at h
    split_ifs at h with hres
    · cases ht : errno_translate value e result with
      | none =>
        rw [ht] at h
        cases h
      | some en =>
        rw [ht] at h
        simp only [Option.some.injEq] at h
        subst h
        simp only at hzero
        subst hzero
        have := hz _ ht
        rw [this, hok] at hres
        exact absurd hres (by decide)
    · simp only [Option.some.injEq] at h
      subst h
      simp only at hret
      omega
  · intro result errno priv out h hret hzero
    unfold write at h
    split_ifs at h with hres
    · cases ht : errno_translate value e result with
      | none =>
        rw [ht] at h
        cases h
      | some en =>
        rw [ht] at h
        simp only [Option.some.injEq] at h
        subst h
        simp only at hzero
        subst hzero
        have := hz _ ht
        rw [this, hok] at hres
        exact absurd hres (by decide)
    · simp only [Option.some.injEq] at h
      subst h
      simp only at hret
      omega

theorem errno_translate_zero_only_for_ok_witness :
    Function.Injective spiffs_h_value ∧ spiffs_h_value SPIFFS_OK = 0 ∧ newlib_errno.positive ∧
      errno_translate spiffs_h_value newlib_errno (spiffs_h_value SPIFFS_ERR_NOT_MOUNTED) =
        none ∧
      errno_translate spiffs_h_value newlib_errno (-10011) = some 22 ∧
      read spiffs_h_value newlib_errno (-10002) 0 5 = some { ret := -1, errno := 2, priv := 5 } ∧
      (∀ (result errno priv : Int) (out : Outcome),
        read spiffs_h_value newlib_errno result errno priv = some out → out.ret = -1 →
          out.errno ≠ 0) :=
  ⟨spiffs_h_value_injective, rfl, by decide,
    (errno_translate_zero_only_for_ok spiffs_h_value newlib_errno spiffs_h_value_injective rfl
      (by decide)).2.1,
    by decide, by decide,
    (errno_translate_zero_only_for_ok spiffs_h_value newlib_errno spiffs_h_value_injective rfl
      (by decide)).2.2.2.2.2.2.1⟩

end SPIFFS

/-! ## `MultiConfiguredConsumer`: the constructor's size check -/

namespace nmranet

namespace MultiConfiguredConsumer

/-- C34: the constructor's check `HASSERT(size_ == N)` holds for every value of
the `size` argument. Construction succeeds with `size_` equal to the template
parameter `N` whatever `pins` and `size` are, so it succeeds too when `size`
differs from `N`, and the object built does not depend on `size`. -/
theorem constructor_check_holds_for_every_size (N this_ node pins size : Nat) :
    construct N this_ node pins size = some { this_ := this_, node_ := node, size_ := N } ∧
      (∀ size2 : Nat, construct N this_ node pins size2 = construct N this_ node pins size) ∧
      (∃ size2 : Nat, size2 ≠ N ∧
        construct N this_ node pins size2 =
          some { this_ := this_, node_ := node, size_ := N }) := by
  refine ⟨?_, ?_, N + 1, by omega, ?_⟩ <;> simp [construct]

end MultiConfiguredConsumer

end nmranet
